import Mathlib

/-!
# UVM VA space: lock protocol, GPU VA space accessors, GPU iteration, deferred-free lists

A shallow embedding of `kernel_nvidia/nvidia-uvm/uvm8_va_space.h`, and of the
write buffer and the NUMA status machine of `kernel_nvidia/nvidia/nv-procfs.c`.

* Pointers are addresses (`Ptr`), `0` is `NULL`; objects live in a `Memory`.
* A C function is a computation `M α` on memory: it either stops on a `Fault`
  (a tripped `UVM_ASSERT`, a bad pointer) or returns a value and the memory
  it leaves behind.
* The VA space lock wrappers are macros: fixed sequences of lock primitives.
  Each macro is embedded as the list of primitive statements of its body, and
  a statement is executed on behalf of a thread on the VA space object.
* A processor mask is a bitmap, a natural number; its capacity
  `UVM_ID_MAX_PROCESSORS` is a parameter. Loops of the header run on fuel.
* A deferred-free list is the kernel's circular doubly linked list, kept in a
  `ListMemory` of list heads and objects and changed by pointer assignments.
* The procfs write buffer is the memory at `data`, bytes by index; C integer
  variables are integers wrapped to their width; the page size is a parameter.
-/

namespace Uvm

/-! ## Lock primitives -/

/-- Identifier of the kernel thread that executes a statement. -/
abbrev Tid := Nat

/-- Modelled from the spec: `uvm_mutex_t` (uvm8_lock.h is not part of the
sources). A mutex is either free or owned by exactly one thread. -/
structure uvm_mutex_t where
  owner : Option Tid := none
  deriving DecidableEq, Repr

/-- Modelled from the spec: `uvm_rw_semaphore_t` (uvm8_lock.h is not part of
the sources), a readers-many, writer-one lock: the thread holding it in
exclusive mode, if any, and the threads holding it in shared mode (a thread
appears once per shared acquisition). -/
structure uvm_rw_semaphore_t where
  writer : Option Tid := none
  readers : List Tid := []
  deriving DecidableEq, Repr

/-- Modelled from the spec: `uvm_mutex_lock`. Succeeds only on a free mutex;
`none` means the caller cannot proceed (it blocks). -/
def uvm_mutex_lock (t : Tid) (m : uvm_mutex_t) : Option uvm_mutex_t :=
  if m.owner = none then some { owner := some t } else none

/-- Modelled from the spec: `uvm_mutex_unlock`. Only the owner may unlock. -/
def uvm_mutex_unlock (t : Tid) (m : uvm_mutex_t) : Option uvm_mutex_t :=
  if m.owner = some t then some { owner := none } else none

/-- Modelled from the spec: `uvm_mutex_unlock_out_of_order`. Same effect on the
mutex as `uvm_mutex_unlock`; the two differ only in lock-order tracking. -/
def uvm_mutex_unlock_out_of_order (t : Tid) (m : uvm_mutex_t) : Option uvm_mutex_t :=
  if m.owner = some t then some { owner := none } else none

/-- Modelled from the spec: `uvm_assert_mutex_locked`. Passes when the calling
thread holds the mutex. -/
def uvm_assert_mutex_locked (t : Tid) (m : uvm_mutex_t) : Bool :=
  decide (m.owner = some t)

/-- Modelled from the spec: `uvm_down_write`. Exclusive acquisition: needs no
writer and no reader. -/
def uvm_down_write (t : Tid) (sem : uvm_rw_semaphore_t) : Option uvm_rw_semaphore_t :=
  if sem.writer = none ∧ sem.readers = [] then some { writer := some t, readers := [] } else none

/-- Modelled from the spec: `uvm_up_write`. Only the writer may release. -/
def uvm_up_write (t : Tid) (sem : uvm_rw_semaphore_t) : Option uvm_rw_semaphore_t :=
  if sem.writer = some t then some { sem with writer := none } else none

/-- Modelled from the spec: `uvm_downgrade_write`. The writer becomes a reader
without ever releasing the semaphore. -/
def uvm_downgrade_write (t : Tid) (sem : uvm_rw_semaphore_t) : Option uvm_rw_semaphore_t :=
  if sem.writer = some t then some { writer := none, readers := t :: sem.readers } else none

/-- Modelled from the spec: `uvm_down_read`. Shared acquisition: needs no
writer. -/
def uvm_down_read (t : Tid) (sem : uvm_rw_semaphore_t) : Option uvm_rw_semaphore_t :=
  if sem.writer = none then some { sem with readers := t :: sem.readers } else none

/-- Modelled from the spec: `uvm_up_read`. Releases one shared acquisition of
the calling thread. -/
def uvm_up_read (t : Tid) (sem : uvm_rw_semaphore_t) : Option uvm_rw_semaphore_t :=
  if t ∈ sem.readers then some { sem with readers := sem.readers.erase t } else none

/-- Modelled from the spec: `uvm_assert_rwsem_locked`. Passes when the calling
thread holds the semaphore in either mode. -/
def uvm_assert_rwsem_locked (t : Tid) (sem : uvm_rw_semaphore_t) : Bool :=
  decide (sem.writer = some t ∨ t ∈ sem.readers)

/-! ## Data model -/

/-- Address of an object; `0` is `NULL`. -/
abbrev Ptr := Nat

/-- The null pointer. -/
abbrev NULL : Ptr := 0

/-- Modelled from the spec: `uvm_processor_id_t` (uvm8_processors.h is not part
of the sources). The CPU has id 0, GPUs are numbered from 1. -/
abbrev uvm_processor_id_t := Nat

/-- Modelled from the spec: `uvm_processor_mask_t` (uvm8_processors.h is not
part of the sources), a bitmap with one bit per processor id. -/
structure uvm_processor_mask_t where
  bitmap : Nat := 0
  deriving DecidableEq, Repr

/-- Modelled from the spec: `uvm_processor_mask_test(mask, id)`, bit `id` of
the bitmap. It has no failure mode. -/
def uvm_processor_mask_test (mask : uvm_processor_mask_t) (id : uvm_processor_id_t) : Bool :=
  mask.bitmap.testBit id

/-- What stops a C function before it returns: a tripped assertion, a bad
pointer, a loop that is still running after the number of iterations the
model was given, or a sleep on a semaphore that nobody releases. -/
inductive Fault where
  | assertion
  | bad_pointer
  | out_of_fuel
  | blocked
  deriving DecidableEq, Repr

/-- Modelled from the spec: `uvm_id_gpu_index(id)`, the array index of a GPU
id. GPU ids start at 1, so the index is `id - 1`; the CPU id has no index. -/
def uvm_id_gpu_index (id : uvm_processor_id_t) : Except Fault Nat :=
  if 1 ≤ id then .ok (id - 1) else .error .assertion

/-- The part of `uvm_gpu_t` read by the VA space code. -/
structure uvm_gpu_t where
  id : uvm_processor_id_t
  global_id : Nat := 0
  numa_info_enabled : Bool := false
  numa_info_node_id : Int := 0
  deriving DecidableEq, Repr

/-- Values of `uvm_gpu_va_space_state_t`; the field can hold any integer. -/
abbrev uvm_gpu_va_space_state_t := Nat

/-- The enumerator `UVM_GPU_VA_SPACE_STATE_INIT = 0`. -/
abbrev UVM_GPU_VA_SPACE_STATE_INIT : uvm_gpu_va_space_state_t := 0

/-- The enumerator `UVM_GPU_VA_SPACE_STATE_ACTIVE`. -/
abbrev UVM_GPU_VA_SPACE_STATE_ACTIVE : uvm_gpu_va_space_state_t := 1

/-- The enumerator `UVM_GPU_VA_SPACE_STATE_DEAD`. -/
abbrev UVM_GPU_VA_SPACE_STATE_DEAD : uvm_gpu_va_space_state_t := 2

/-- The enumerator `UVM_GPU_VA_SPACE_STATE_COUNT`. -/
abbrev UVM_GPU_VA_SPACE_STATE_COUNT : uvm_gpu_va_space_state_t := 3

/-- The record `struct uvm_gpu_va_space_struct`. Embedded aggregates whose
contents no function here reads are kept as plain values. -/
structure uvm_gpu_va_space_t where
  va_space : Ptr := NULL
  gpu : Ptr := NULL
  state : uvm_gpu_va_space_state_t := UVM_GPU_VA_SPACE_STATE_INIT
  duped_gpu_va_space : Nat := 0
  did_set_page_directory : Bool := false
  page_tables : Nat := 0
  registered_channels : List Ptr := []
  channel_va_ranges : List Ptr := []
  disallow_new_channels : Int := 0
  needs_fault_buffer_flush : Bool := false
  deferred_free_type : Nat := 0
  kref : Nat := 0
  ats_enabled : Bool := false
  ats_did_ibm_driver_init : Bool := false
  deriving DecidableEq, Repr

/-- The record `uvm_cpu_gpu_affinity_t`. -/
structure uvm_cpu_gpu_affinity_t where
  numa_node : Int := 0
  gpus : uvm_processor_mask_t := {}
  deriving DecidableEq, Repr

/-- The fields of `struct uvm_va_space_struct` used by the inline functions and
macros of the header. Arrays are lists indexed from 0. -/
structure uvm_va_space_t where
  registered_gpus : uvm_processor_mask_t := {}
  registered_gpus_table : List Ptr := []
  lock : uvm_rw_semaphore_t := {}
  serialize_writers_lock : uvm_mutex_t := {}
  read_acquire_write_release_lock : uvm_mutex_t := {}
  can_access : List uvm_processor_mask_t := []
  accessible_from : List uvm_processor_mask_t := []
  can_copy_from : List uvm_processor_mask_t := []
  has_nvlink : List uvm_processor_mask_t := []
  has_native_atomics : List uvm_processor_mask_t := []
  indirect_peers : List uvm_processor_mask_t := []
  registered_gpu_va_spaces : uvm_processor_mask_t := {}
  gpu_cpu_numa_affinity : List uvm_cpu_gpu_affinity_t := []
  gpu_va_spaces : List Ptr := []
  initialized : Int := 0
  initialization_flags : Nat := 0
  deriving DecidableEq, Repr

/-! ## The lock wrapper macros -/

/-- The two mutex members of the VA space a wrapper can name. -/
inductive MutexField where
  | serialize_writers_lock
  | read_acquire_write_release_lock
  deriving DecidableEq, Repr

/-- Reads the named mutex member. -/
def MutexField.get (f : MutexField) (va_space : uvm_va_space_t) : uvm_mutex_t :=
  match f with
  | .serialize_writers_lock => va_space.serialize_writers_lock
  | .read_acquire_write_release_lock => va_space.read_acquire_write_release_lock

/-- Writes the member `lock`. -/
def uvm_va_space_t.set_lock (va_space : uvm_va_space_t) (l : uvm_rw_semaphore_t) : uvm_va_space_t :=
  { va_space with lock := l }

/-- Writes the named mutex member. -/
def MutexField.set (f : MutexField) (va_space : uvm_va_space_t) (m : uvm_mutex_t) : uvm_va_space_t :=
  match f with
  | .serialize_writers_lock => { va_space with serialize_writers_lock := m }
  | .read_acquire_write_release_lock => { va_space with read_acquire_write_release_lock := m }

/-- One statement of a wrapper body. The semaphore statements all act on
`&va_space->lock`, the mutex statements on the named member. -/
inductive Stmt where
  | uvm_mutex_lock (f : MutexField)
  | uvm_mutex_unlock (f : MutexField)
  | uvm_mutex_unlock_out_of_order (f : MutexField)
  | uvm_assert_mutex_locked (f : MutexField)
  | uvm_down_write
  | uvm_up_write
  | uvm_downgrade_write
  | uvm_down_read
  | uvm_up_read
  deriving DecidableEq, Repr

/-- Thread `t` executes one statement on the VA space. `none`: the thread
cannot execute it in this state (it blocks, or the statement is illegal or an
assertion fails). -/
def Stmt.exec (t : Tid) (st : Stmt) (va_space : uvm_va_space_t) : Option uvm_va_space_t :=
  match st with
  | .uvm_mutex_lock f => (Uvm.uvm_mutex_lock t (f.get va_space)).map (f.set va_space)
  | .uvm_mutex_unlock f => (Uvm.uvm_mutex_unlock t (f.get va_space)).map (f.set va_space)
  | .uvm_mutex_unlock_out_of_order f =>
      (Uvm.uvm_mutex_unlock_out_of_order t (f.get va_space)).map (f.set va_space)
  | .uvm_assert_mutex_locked f =>
      if Uvm.uvm_assert_mutex_locked t (f.get va_space) then some va_space else none
  | .uvm_down_write => (Uvm.uvm_down_write t va_space.lock).map va_space.set_lock
  | .uvm_up_write => (Uvm.uvm_up_write t va_space.lock).map va_space.set_lock
  | .uvm_downgrade_write => (Uvm.uvm_downgrade_write t va_space.lock).map va_space.set_lock
  | .uvm_down_read => (Uvm.uvm_down_read t va_space.lock).map va_space.set_lock
  | .uvm_up_read => (Uvm.uvm_up_read t va_space.lock).map va_space.set_lock

/-- Thread `t` executes a statement sequence without interference. -/
def run (t : Tid) : List Stmt → uvm_va_space_t → Option uvm_va_space_t
  | [], va_space => some va_space
  | st :: rest, va_space => (st.exec t va_space).bind (run t rest)

/-- The macro `uvm_va_space_down_write`. -/
def uvm_va_space_down_write : List Stmt :=
  [ .uvm_mutex_lock .serialize_writers_lock,
    .uvm_mutex_lock .read_acquire_write_release_lock,
    .uvm_down_write ]

/-- The macro `uvm_va_space_up_write`. -/
def uvm_va_space_up_write : List Stmt :=
  [ .uvm_up_write,
    .uvm_mutex_unlock .read_acquire_write_release_lock,
    .uvm_mutex_unlock .serialize_writers_lock ]

/-- The macro `uvm_va_space_downgrade_write`. -/
def uvm_va_space_downgrade_write : List Stmt :=
  [ .uvm_downgrade_write,
    .uvm_mutex_unlock_out_of_order .read_acquire_write_release_lock,
    .uvm_mutex_unlock_out_of_order .serialize_writers_lock ]

/-- The macro `uvm_va_space_downgrade_write_rm`. -/
def uvm_va_space_downgrade_write_rm : List Stmt :=
  [ .uvm_assert_mutex_locked .serialize_writers_lock,
    .uvm_downgrade_write,
    .uvm_mutex_unlock_out_of_order .read_acquire_write_release_lock ]

/-- The macro `uvm_va_space_down_read`. -/
def uvm_va_space_down_read : List Stmt :=
  [ .uvm_mutex_lock .read_acquire_write_release_lock,
    .uvm_down_read,
    .uvm_mutex_unlock_out_of_order .read_acquire_write_release_lock ]

/-- The macro `uvm_va_space_down_read_rm`. -/
def uvm_va_space_down_read_rm : List Stmt :=
  [ .uvm_mutex_lock .serialize_writers_lock,
    .uvm_down_read ]

/-- The macro `uvm_va_space_up_read`. -/
def uvm_va_space_up_read : List Stmt :=
  [ .uvm_up_read ]

/-- The macro `uvm_va_space_up_read_rm`. -/
def uvm_va_space_up_read_rm : List Stmt :=
  [ .uvm_up_read,
    .uvm_mutex_unlock .serialize_writers_lock ]

/-- Thread `t` holds none of the three locks of the VA space. -/
def holds_nothing (t : Tid) (va_space : uvm_va_space_t) : Prop :=
  va_space.lock.writer ≠ some t ∧ t ∉ va_space.lock.readers ∧
  va_space.serialize_writers_lock.owner ≠ some t ∧
  va_space.read_acquire_write_release_lock.owner ≠ some t

/-- All three locks of the VA space are free. -/
def locks_free (va_space : uvm_va_space_t) : Prop :=
  va_space.lock = {} ∧ va_space.serialize_writers_lock = {} ∧
  va_space.read_acquire_write_release_lock = {}

/-! ## Threads running the wrappers concurrently -/

/-- The eight wrapper macros. -/
inductive Wrapper where
  | down_write
  | up_write
  | downgrade_write
  | downgrade_write_rm
  | down_read
  | down_read_rm
  | up_read
  | up_read_rm
  deriving DecidableEq, Repr

/-- The body of each wrapper macro. -/
def Wrapper.body : Wrapper → List Stmt
  | .down_write => uvm_va_space_down_write
  | .up_write => uvm_va_space_up_write
  | .downgrade_write => uvm_va_space_downgrade_write
  | .downgrade_write_rm => uvm_va_space_downgrade_write_rm
  | .down_read => uvm_va_space_down_read
  | .down_read_rm => uvm_va_space_down_read_rm
  | .up_read => uvm_va_space_up_read
  | .up_read_rm => uvm_va_space_up_read_rm

/-- The acquisition modes of the VA space lock. -/
inductive Mode where
  | unlocked
  | exclusive
  | shared
  | shared_rm
  deriving DecidableEq, Repr

/-- The mode a thread is in once the wrapper has completed. -/
def Wrapper.mode_after : Wrapper → Mode
  | .down_write => .exclusive
  | .up_write => .unlocked
  | .downgrade_write => .shared
  | .downgrade_write_rm => .shared_rm
  | .down_read => .shared
  | .down_read_rm => .shared_rm
  | .up_read => .unlocked
  | .up_read_rm => .unlocked

/-- Where a thread is: between two wrapper invocations, in the mode the last
completed wrapper put it in, or inside a wrapper with `k` statements of its
body already executed. -/
inductive Thread where
  | outside (m : Mode)
  | inside (w : Wrapper) (k : Nat)
  deriving DecidableEq, Repr

/-- One VA space and the threads using its lock through the wrappers. -/
structure System where
  va_space : uvm_va_space_t
  threads : Tid → Thread

/-- What a thread can do next: invoke a wrapper, execute the next statement of
the wrapper it is inside, or leave a wrapper whose body is finished. -/
inductive Event where
  | call (w : Wrapper)
  | exec
  | ret
  deriving DecidableEq, Repr

/-- Thread `t` performs event `e`; `none` when it cannot in this state. -/
def System.fire (t : Tid) (e : Event) (s : System) : Option System :=
  match e, s.threads t with
  | .call w, .outside _ =>
      some { s with threads := Function.update s.threads t (.inside w 0) }
  | .exec, .inside w k =>
      match w.body[k]? with
      | some st =>
          (st.exec t s.va_space).map fun vs =>
            { va_space := vs, threads := Function.update s.threads t (.inside w (k + 1)) }
      | none => none
  | .ret, .inside w k =>
      if k = w.body.length then
        some { s with threads := Function.update s.threads t (.outside w.mode_after) }
      else none
  | _, _ => none

/-- Initial states: the three locks are free and no thread is inside a
wrapper or in a locked mode. -/
def System.initial (s : System) : Prop :=
  locks_free s.va_space ∧ ∀ t, s.threads t = .outside .unlocked

/-- States reachable by any interleaving of the threads. -/
inductive Reachable : System → Prop where
  | init (s : System) (h : s.initial) : Reachable s
  | step (s s' : System) (t : Tid) (e : Event) (h : Reachable s)
      (hs : s.fire t e = some s') : Reachable s'

/-- The thread is between wrappers in mode `m`. -/
def System.in_mode (s : System) (t : Tid) (m : Mode) : Prop :=
  s.threads t = .outside m

/-! ## Objects in memory -/

/-- The members of the global `g_uvm_global` read by the header: the table of
all GPUs, indexed like a per-VA-space GPU table by the global id, and
`ats.supported`. -/
structure uvm_global_t where
  gpus : List Ptr := []
  ats_supported : Bool := false
  deriving DecidableEq, Repr

/-- The objects reachable through pointers, by address, the global
`g_uvm_global`, and the kernel's answer to `nv_numa_node_has_memory`. -/
structure Memory where
  gpus : Ptr → Option uvm_gpu_t
  gpu_va_spaces : Ptr → Option uvm_gpu_va_space_t
  va_spaces : Ptr → Option uvm_va_space_t
  g_uvm_global : uvm_global_t := {}
  numa_node_has_memory : Int → Bool := fun _ => false

/-- Computations on memory that may stop on a fault. -/
abbrev M (α : Type) := Memory → Except Fault (α × Memory)

/-- Returns a value, memory untouched. -/
def M.ret {α : Type} (a : α) : M α := fun mem => .ok (a, mem)

/-- Sequencing. -/
def M.seq {α β : Type} (x : M α) (f : α → M β) : M β := fun mem =>
  match x mem with
  | .ok (a, mem') => f a mem'
  | .error e => .error e

instance : Monad M where
  pure := M.ret
  bind := M.seq

/-- Dereferences a pointer: `NULL` and addresses holding no object fault. -/
def deref {α : Type} (tbl : Ptr → Option α) (p : Ptr) : Except Fault α :=
  if p = NULL then .error .bad_pointer
  else match tbl p with
    | some o => .ok o
    | none => .error .bad_pointer

/-- Reads `*gpu`. -/
def load_gpu (gpu : Ptr) : M uvm_gpu_t := fun mem =>
  match deref mem.gpus gpu with
  | .ok o => .ok (o, mem)
  | .error e => .error e

/-- Reads `*gpu_va_space`. -/
def load_gpu_va_space (gpu_va_space : Ptr) : M uvm_gpu_va_space_t := fun mem =>
  match deref mem.gpu_va_spaces gpu_va_space with
  | .ok o => .ok (o, mem)
  | .error e => .error e

/-- Reads `*va_space`. -/
def load_va_space (va_space : Ptr) : M uvm_va_space_t := fun mem =>
  match deref mem.va_spaces va_space with
  | .ok o => .ok (o, mem)
  | .error e => .error e

/-- Writes `*gpu_va_space`. -/
def store_gpu_va_space (gpu_va_space : Ptr) (o : uvm_gpu_va_space_t) : M Unit := fun mem =>
  match deref mem.gpu_va_spaces gpu_va_space with
  | .ok _ =>
      .ok ((), { mem with gpu_va_spaces := Function.update mem.gpu_va_spaces gpu_va_space (some o) })
  | .error e => .error e

/-- Reads element `i` of an array; out of bounds faults. -/
def array_get (xs : List Ptr) (i : Nat) : M Ptr := fun mem =>
  match xs[i]? with
  | some p => .ok (p, mem)
  | none => .error .bad_pointer

/-- Modelled from the spec: `UVM_ASSERT(cond)` (uvm_common.h is not part of
the sources), an assertion whose failure is unrecoverable. -/
def UVM_ASSERT (cond : Bool) : M Unit := fun mem =>
  if cond then .ok ((), mem) else .error .assertion

/-- Lifts a pure fallible step. -/
def M.lift {α : Type} (x : Except Fault α) : M α := fun mem =>
  match x with
  | .ok a => .ok (a, mem)
  | .error e => .error e

/-- Modelled from the spec: `nv_kref_get` (nv-kref.h is not part of the
sources), which takes one more reference on the counter. -/
def nv_kref_get (kref : Nat) : Nat := kref + 1

/-- The function `uvm_gpu_va_space_retain`. -/
def uvm_gpu_va_space_retain (gpu_va_space : Ptr) : M Unit := do
  let o ← load_gpu_va_space gpu_va_space
  store_gpu_va_space gpu_va_space { o with kref := nv_kref_get o.kref }

/-- The function `uvm_gpu_va_space_state`. -/
def uvm_gpu_va_space_state (gpu_va_space : Ptr) : M uvm_gpu_va_space_state_t := do
  UVM_ASSERT ((← load_gpu_va_space gpu_va_space).gpu != NULL)
  let state := (← load_gpu_va_space gpu_va_space).state
  if state = UVM_GPU_VA_SPACE_STATE_INIT then
    UVM_ASSERT ((← load_gpu_va_space gpu_va_space).va_space == NULL)
  else if state = UVM_GPU_VA_SPACE_STATE_ACTIVE ∨ state = UVM_GPU_VA_SPACE_STATE_DEAD then
    UVM_ASSERT ((← load_gpu_va_space gpu_va_space).va_space != NULL)
  else
    UVM_ASSERT false
  return (← load_gpu_va_space gpu_va_space).state

/-- The function `uvm_gpu_va_space_get`, called by thread `t`. -/
def uvm_gpu_va_space_get (t : Tid) (va_space : Ptr) (gpu : Ptr) : M Ptr := do
  UVM_ASSERT (uvm_assert_rwsem_locked t (← load_va_space va_space).lock)
  if gpu = NULL then
    return NULL
  if !uvm_processor_mask_test (← load_va_space va_space).registered_gpu_va_spaces
      (← load_gpu gpu).id then
    return NULL
  let gpu_va_space ← array_get (← load_va_space va_space).gpu_va_spaces
    (← M.lift (uvm_id_gpu_index (← load_gpu gpu).id))
  UVM_ASSERT ((← uvm_gpu_va_space_state gpu_va_space) == UVM_GPU_VA_SPACE_STATE_ACTIVE)
  UVM_ASSERT ((← load_gpu_va_space gpu_va_space).va_space == va_space)
  UVM_ASSERT ((← load_gpu_va_space gpu_va_space).gpu == gpu)
  return gpu_va_space

/-- Modelled from the spec: the two `NV_STATUS` codes the header returns
(nvstatus.h is not part of the sources); they are distinct. -/
inductive NV_STATUS where
  | NV_OK
  | NV_ERR_ILLEGAL_ACTION
  deriving DecidableEq, Repr

/-- Modelled from the spec: `atomic_read_acquire`, the current value of the
atomic. -/
def atomic_read_acquire (v : Int) : Int := v

/-- The function `uvm_va_space_initialized`. -/
def uvm_va_space_initialized (va_space : Ptr) : M NV_STATUS := do
  if atomic_read_acquire (← load_va_space va_space).initialized ≠ 0 then
    return .NV_OK
  return .NV_ERR_ILLEGAL_ACTION

/-- The states after each statement when thread `t` executes a statement
sequence without interference. -/
def run_trace (t : Tid) : List Stmt → uvm_va_space_t → Option (List uvm_va_space_t)
  | [], _ => some []
  | st :: rest, va_space =>
      (st.exec t va_space).bind fun vs => (run_trace t rest vs).map (vs :: ·)

/-- What a thread holds of the three locks of a VA space. -/
structure Held where
  main_exclusive : Bool
  main_shared : Nat
  serialize_writers_lock : Bool
  read_acquire_write_release_lock : Bool
  deriving DecidableEq, Repr

/-- The locks of the VA space held by thread `t`; `main_shared` counts its
shared acquisitions of the main lock. -/
def held (t : Tid) (va_space : uvm_va_space_t) : Held :=
  { main_exclusive := decide (va_space.lock.writer = some t)
    main_shared := va_space.lock.readers.count t
    serialize_writers_lock := decide (va_space.serialize_writers_lock.owner = some t)
    read_acquire_write_release_lock :=
      decide (va_space.read_acquire_write_release_lock.owner = some t) }


/-- Every id set in `registered_gpu_va_spaces` has a non-null `gpu_va_spaces`
entry whose object is in state ACTIVE, points back to this VA space, and points
back to the GPU carrying that id. -/
def entries_active (mem : Memory) (va_space : Ptr) (vs : uvm_va_space_t) : Prop :=
  ∀ id, uvm_processor_mask_test vs.registered_gpu_va_spaces id = true →
    ∃ idx e o, uvm_id_gpu_index id = .ok idx ∧ vs.gpu_va_spaces[idx]? = some e ∧ e ≠ NULL ∧
      mem.gpu_va_spaces e = some o ∧ o.state = UVM_GPU_VA_SPACE_STATE_ACTIVE ∧
      o.va_space = va_space ∧
      ∀ gpu g, gpu ≠ NULL → mem.gpus gpu = some g → g.id = id → o.gpu = gpu

/-- The pointer is `NULL` or points to a GPU object. -/
def gpu_pointer_ok (mem : Memory) (gpu : Ptr) : Prop :=
  gpu = NULL ∨ ∃ g, mem.gpus gpu = some g

/-- A VA space with GPU 1 registered, its GPU VA space at address 8, and the
main lock held in shared mode by thread 7. -/
def example_va_space_locked : uvm_va_space_t :=
  { registered_gpus := { bitmap := 2 }
    registered_gpus_table := [4]
    lock := { readers := [7] }
    registered_gpu_va_spaces := { bitmap := 2 }
    gpu_va_spaces := [8]
    initialized := 1 }

/-- The same registration with the GPU VA space at address 9, nobody holding
any lock, and `UVM_INITIALIZE` not yet done. -/
def example_va_space_unlocked : uvm_va_space_t :=
  { registered_gpus := { bitmap := 2 }
    registered_gpus_table := [4]
    registered_gpu_va_spaces := { bitmap := 2 }
    gpu_va_spaces := [9] }

/-- An ACTIVE GPU VA space of GPU 4 in the VA space at address `va_space`. -/
def example_active (va_space : Ptr) : uvm_gpu_va_space_t :=
  { va_space := va_space, gpu := 4, state := UVM_GPU_VA_SPACE_STATE_ACTIVE, kref := 1 }

/-- A GPU VA space just created for GPU 4: state INIT, not yet in a VA space. -/
def example_init : uvm_gpu_va_space_t :=
  { gpu := 4, kref := 1 }

/-- A memory holding GPU id 1 at address 4, the two example VA spaces at
addresses 2 and 3, their ACTIVE GPU VA spaces at 8 and 9, and an INIT GPU VA
space at 10. -/
def example_memory : Memory :=
  { gpus := fun p => if p = 4 then some { id := 1 } else none
    gpu_va_spaces := fun p =>
      if p = 8 then some (example_active 2)
      else if p = 9 then some (example_active 3)
      else if p = 10 then some example_init
      else none
    va_spaces := fun p =>
      if p = 2 then some example_va_space_locked
      else if p = 3 then some example_va_space_unlocked
      else none }

/-! ## The invariant of the concurrent system -/

/-- What is known about a thread at one point of its program: that it holds
`serialize_writers_lock`, holds the main lock in shared mode, holds it in
exclusive mode, or does not hold it in exclusive mode. -/
structure Owes where
  sw : Bool := false
  reader : Bool := false
  writer : Bool := false
  not_writer : Bool := false
  deriving DecidableEq, Repr

/-- The lock state agrees with what is known about thread `t`. -/
def Owes.sat (r : Owes) (t : Tid) (vs : uvm_va_space_t) : Prop :=
  (r.sw = true → vs.serialize_writers_lock.owner = some t) ∧
  (r.reader = true → t ∈ vs.lock.readers) ∧
  (r.writer = true → vs.lock.writer = some t) ∧
  (r.not_writer = true → vs.lock.writer ≠ some t)

/-- What is known at each point of each wrapper and in each mode; `none` for
positions past the end of a body. -/
def Thread.owes : Thread → Option Owes
  | .outside .unlocked => some {}
  | .outside .exclusive => some { writer := true }
  | .outside .shared => some { reader := true }
  | .outside .shared_rm => some { sw := true, reader := true }
  | .inside .down_write 0 => some {}
  | .inside .down_write 1 => some { sw := true }
  | .inside .down_write 2 => some { sw := true }
  | .inside .down_write 3 => some { writer := true }
  | .inside .up_write 0 => some {}
  | .inside .up_write 1 => some { not_writer := true }
  | .inside .up_write 2 => some { not_writer := true }
  | .inside .up_write 3 => some {}
  | .inside .downgrade_write 0 => some {}
  | .inside .downgrade_write 1 => some { reader := true, not_writer := true }
  | .inside .downgrade_write 2 => some { reader := true, not_writer := true }
  | .inside .downgrade_write 3 => some { reader := true }
  | .inside .downgrade_write_rm 0 => some {}
  | .inside .downgrade_write_rm 1 => some { sw := true }
  | .inside .downgrade_write_rm 2 => some { sw := true, reader := true }
  | .inside .downgrade_write_rm 3 => some { sw := true, reader := true }
  | .inside .down_read 0 => some {}
  | .inside .down_read 1 => some {}
  | .inside .down_read 2 => some { reader := true }
  | .inside .down_read 3 => some { reader := true }
  | .inside .down_read_rm 0 => some {}
  | .inside .down_read_rm 1 => some { sw := true }
  | .inside .down_read_rm 2 => some { sw := true, reader := true }
  | .inside .up_read 0 => some {}
  | .inside .up_read 1 => some {}
  | .inside .up_read_rm 0 => some {}
  | .inside .up_read_rm 1 => some { not_writer := true }
  | .inside .up_read_rm 2 => some {}
  | _ => none

/-- A writer excludes every reader. -/
def writer_excludes_readers (vs : uvm_va_space_t) : Prop :=
  ∀ x, vs.lock.writer = some x → vs.lock.readers = []

/-- The writer of the main lock owns `serialize_writers_lock`. -/
def writer_owns_serialize (vs : uvm_va_space_t) : Prop :=
  ∀ x, vs.lock.writer = some x → vs.serialize_writers_lock.owner = some x

/-- The invariant of the concurrent system. -/
def Inv (s : System) : Prop :=
  writer_excludes_readers s.va_space ∧ writer_owns_serialize s.va_space ∧
  ∀ t, ∃ r, (s.threads t).owes = some r ∧ r.sat t s.va_space

/-- Replays a schedule, a list of (thread, event) pairs, stopping at the first
event that cannot fire. -/
def System.replay (s : System) : List (Tid × Event) → System
  | [] => s
  | (t, e) :: rest =>
      match s.fire t e with
      | some s' => s'.replay rest
      | none => s

/-- The system with all locks free and every thread outside the wrappers. -/
def example_initial : System :=
  { va_space := {}, threads := fun _ => .outside .unlocked }

/-- Thread 0 has completed `uvm_va_space_down_write`; thread 1 has invoked
`uvm_va_space_down_read_rm` and not yet executed a statement of it. -/
def example_exclusive : System :=
  example_initial.replay
    [(0, .call .down_write), (0, .exec), (1, .call .down_read_rm), (0, .exec), (0, .exec),
     (0, .ret)]

/-- Thread 1 has completed `uvm_va_space_down_read_rm`, thread 2 has completed
`uvm_va_space_down_read`, and thread 0 is blocked inside
`uvm_va_space_down_write`. -/
def example_shared : System :=
  example_initial.replay
    [(1, .call .down_read_rm), (1, .exec), (2, .call .down_read), (2, .exec), (1, .exec),
     (2, .exec), (2, .exec), (0, .call .down_write), (1, .ret), (2, .ret), (0, .exec)]

/-! ## The lock order -/

/-- The three locks of a VA space. -/
inductive LockId where
  | serialize_writers_lock
  | read_acquire_write_release_lock
  | lock
  deriving DecidableEq, Repr

/-- Position in the global lock order: `serialize_writers_lock`, then
`read_acquire_write_release_lock`, then the main lock. -/
def LockId.order : LockId → Nat
  | .serialize_writers_lock => 0
  | .read_acquire_write_release_lock => 1
  | .lock => 2

/-- The lock a mutex member is. -/
def MutexField.lock_id : MutexField → LockId
  | .serialize_writers_lock => .serialize_writers_lock
  | .read_acquire_write_release_lock => .read_acquire_write_release_lock

/-- The lock a statement acquires, if it acquires one. -/
def Stmt.acquires : Stmt → Option LockId
  | .uvm_mutex_lock f => some f.lock_id
  | .uvm_down_write => some .lock
  | .uvm_down_read => some .lock
  | _ => none

/-- The lock a statement releases, if it releases one. -/
def Stmt.releases : Stmt → Option LockId
  | .uvm_mutex_unlock f => some f.lock_id
  | .uvm_mutex_unlock_out_of_order f => some f.lock_id
  | .uvm_up_write => some .lock
  | .uvm_up_read => some .lock
  | _ => none

/-- Thread `t` holds the given lock of the VA space (the main lock in either
mode). -/
def holds_lock (t : Tid) (vs : uvm_va_space_t) : LockId → Prop
  | .serialize_writers_lock => vs.serialize_writers_lock.owner = some t
  | .read_acquire_write_release_lock => vs.read_acquire_write_release_lock.owner = some t
  | .lock => vs.lock.writer = some t ∨ t ∈ vs.lock.readers

/-! ## Program points that hold the read-acquire mutex -/

/-- Program points at which a thread holds `read_acquire_write_release_lock`
and is about to act on the main lock. -/
def Thread.holds_rawr : Thread → Bool
  | .inside .down_write 2 => true
  | .inside .down_read 1 => true
  | _ => false

/-- The writer of the main lock owns `read_acquire_write_release_lock`. -/
def writer_owns_read_acquire (vs : uvm_va_space_t) : Prop :=
  ∀ x, vs.lock.writer = some x → vs.read_acquire_write_release_lock.owner = some x

/-- The part of the invariant that concerns
`read_acquire_write_release_lock`. -/
def Inv_rawr (s : System) : Prop :=
  writer_owns_read_acquire s.va_space ∧
  ∀ t, (s.threads t).holds_rawr = true →
    s.va_space.read_acquire_write_release_lock.owner = some t

/-- Thread `t` is inside wrapper `w` and the next statement it executes is
`st`. -/
def System.at_stmt (s : System) (t : Tid) (w : Wrapper) (st : Stmt) : Prop :=
  ∃ k, s.threads t = .inside w k ∧ w.body[k]? = some st

/-- Thread 0, the writer of `example_exclusive`, has invoked
`uvm_va_space_up_write` and not yet executed a statement of it; thread 1 is
still at the first statement of `uvm_va_space_down_read_rm`. -/
def example_releasing : System :=
  example_exclusive.replay [(0, .call .up_write)]

/-! ## Processor mask algebra -/

/-- Modelled from the spec: `UVM_ID_IS_VALID(id)` (uvm8_processors.h is not
part of the sources). Ids below the capacity `UVM_ID_MAX_PROCESSORS` are valid;
the capacity is a build-time constant of the absent header and is a parameter
here. -/
def UVM_ID_IS_VALID (UVM_ID_MAX_PROCESSORS : Nat) (id : uvm_processor_id_t) : Bool :=
  decide (id < UVM_ID_MAX_PROCESSORS)

/-- Modelled from the spec: `UVM_ID_IS_INVALID(id)`. -/
def UVM_ID_IS_INVALID (UVM_ID_MAX_PROCESSORS : Nat) (id : uvm_processor_id_t) : Bool :=
  !UVM_ID_IS_VALID UVM_ID_MAX_PROCESSORS id

/-- Modelled from the spec: the id of the CPU, `UVM_ID_CPU`, is 0. -/
abbrev UVM_ID_CPU : uvm_processor_id_t := 0

/-- Modelled from the spec: the lowest GPU id, `UVM_ID_GPU0_VALUE`, is 1. -/
abbrev UVM_ID_GPU0_VALUE : uvm_processor_id_t := 1

/-- A bitmap of `UVM_ID_MAX_PROCESSORS` bits has no bit set at or above its
capacity. -/
def uvm_processor_mask_t.valid (UVM_ID_MAX_PROCESSORS : Nat) (mask : uvm_processor_mask_t) :
    Prop :=
  mask.bitmap < 2 ^ UVM_ID_MAX_PROCESSORS

instance (UVM_ID_MAX_PROCESSORS : Nat) (mask : uvm_processor_mask_t) :
    Decidable (mask.valid UVM_ID_MAX_PROCESSORS) :=
  inferInstanceAs (Decidable (mask.bitmap < 2 ^ UVM_ID_MAX_PROCESSORS))

/-- Modelled from the spec: `uvm_processor_mask_clear(mask, id)`, the mask
without bit `id`. -/
def uvm_processor_mask_clear (mask : uvm_processor_mask_t) (id : uvm_processor_id_t) :
    uvm_processor_mask_t :=
  { bitmap := mask.bitmap ^^^ (mask.bitmap &&& 2 ^ id) }

/-- Modelled from the spec: `uvm_processor_mask_zero`, the empty mask. -/
def uvm_processor_mask_zero : uvm_processor_mask_t :=
  { bitmap := 0 }

/-- Modelled from the spec: `uvm_processor_mask_and(dst, a, b)`, the
intersection. -/
def uvm_processor_mask_and (a b : uvm_processor_mask_t) : uvm_processor_mask_t :=
  { bitmap := a.bitmap &&& b.bitmap }

/-- Modelled from the spec: `uvm_processor_mask_andnot(dst, a, b)`, the ids of
`a` that are not in `b`. -/
def uvm_processor_mask_andnot (a b : uvm_processor_mask_t) : uvm_processor_mask_t :=
  { bitmap := a.bitmap ^^^ (a.bitmap &&& b.bitmap) }

/-- Modelled from the spec: `uvm_processor_mask_get_count(mask)`, the number
of ids set. -/
def uvm_processor_mask_get_count (UVM_ID_MAX_PROCESSORS : Nat) (mask : uvm_processor_mask_t) :
    Nat :=
  ((List.range UVM_ID_MAX_PROCESSORS).filter (uvm_processor_mask_test mask)).length

/-- Modelled from the spec: `uvm_processor_mask_empty(mask)`. -/
def uvm_processor_mask_empty (UVM_ID_MAX_PROCESSORS : Nat) (mask : uvm_processor_mask_t) :
    Bool :=
  (List.range UVM_ID_MAX_PROCESSORS).all fun id => !uvm_processor_mask_test mask id

/-- Modelled from the spec: `uvm_processor_mask_subset(a, b)`: every id of `a`
is in `b`. -/
def uvm_processor_mask_subset (UVM_ID_MAX_PROCESSORS : Nat) (a b : uvm_processor_mask_t) :
    Bool :=
  (List.range UVM_ID_MAX_PROCESSORS).all fun id =>
    !uvm_processor_mask_test a id || uvm_processor_mask_test b id

/-- Modelled from the spec: `uvm_processor_mask_find_next_id(mask, id)`, the
lowest id set in the mask that is at least `id`, or the invalid id
`UVM_ID_MAX_PROCESSORS` when there is none. -/
def uvm_processor_mask_find_next_id (UVM_ID_MAX_PROCESSORS : Nat) (mask : uvm_processor_mask_t)
    (id : uvm_processor_id_t) : uvm_processor_id_t :=
  ((List.range UVM_ID_MAX_PROCESSORS).find? fun i =>
    decide (id ≤ i) && uvm_processor_mask_test mask i).getD UVM_ID_MAX_PROCESSORS

/-- Modelled from the spec: `uvm_processor_mask_find_first_id(mask)`. -/
def uvm_processor_mask_find_first_id (UVM_ID_MAX_PROCESSORS : Nat)
    (mask : uvm_processor_mask_t) : uvm_processor_id_t :=
  uvm_processor_mask_find_next_id UVM_ID_MAX_PROCESSORS mask UVM_ID_CPU

/-- Modelled from the spec: `uvm_processor_mask_find_first_gpu_id(mask)`, the
lowest GPU id set in the mask. -/
def uvm_processor_mask_find_first_gpu_id (UVM_ID_MAX_PROCESSORS : Nat)
    (mask : uvm_processor_mask_t) : uvm_processor_id_t :=
  uvm_processor_mask_find_next_id UVM_ID_MAX_PROCESSORS mask UVM_ID_GPU0_VALUE

/-- Modelled from the spec: `uvm_gpu_id_next(id)`, the id after `id`. -/
def uvm_gpu_id_next (id : uvm_processor_id_t) : uvm_processor_id_t :=
  id + 1

/-- The loop of the macro `for_each_closest_id(id, mask, src, va_space)`, with
`find_closest mask src` standing for
`uvm_processor_mask_find_closest_id(va_space, mask, src)`. Each iteration
visits `id`, then clears it from the caller's mask and selects again. Returns
the ids visited in order and the mask left behind; `none` when `fuel`
iterations were not enough. -/
def for_each_closest_id (UVM_ID_MAX_PROCESSORS : Nat)
    (find_closest : uvm_processor_mask_t → uvm_processor_id_t → uvm_processor_id_t)
    (src : uvm_processor_id_t) :
    Nat → uvm_processor_mask_t → Option (List uvm_processor_id_t × uvm_processor_mask_t)
  | fuel, mask =>
    if UVM_ID_IS_VALID UVM_ID_MAX_PROCESSORS (find_closest mask src) then
      match fuel with
      | 0 => none
      | fuel + 1 =>
        (for_each_closest_id UVM_ID_MAX_PROCESSORS find_closest src fuel
          (uvm_processor_mask_clear mask (find_closest mask src))).map
          fun r => (find_closest mask src :: r.1, r.2)
    else some ([], mask)

/-! ## The closest processor -/

/-- Modelled from the spec: `UVM_ID_IS_GPU(id)`: every id but the CPU's. -/
def UVM_ID_IS_GPU (id : uvm_processor_id_t) : Bool :=
  decide (UVM_ID_GPU0_VALUE ≤ id)

/-- Row `id` of an affinity matrix of the VA space. -/
def affinity_row (matrix : List uvm_processor_mask_t) (id : uvm_processor_id_t) :
    uvm_processor_mask_t :=
  matrix.getD id uvm_processor_mask_zero

/-- Modelled from the spec: `uvm_processor_mask_find_closest_id`, which the
header only declares (its body, in uvm8_va_space.c, is not part of the
sources). The order is the one of the spec and of the header comment: the
source itself; direct NVLINK GPU peers; the CPU over NVLINK if the source is a
GPU; indirect NVLINK GPU peers if the source is a GPU; PCIe peers if the source
is a GPU; the CPU if the source is a GPU; then a deterministic selection among
the candidates, the lowest id, which is `UVM_ID_MAX_PROCESSORS` when there is
none. -/
def uvm_processor_mask_find_closest_id (UVM_ID_MAX_PROCESSORS : Nat) (va_space : uvm_va_space_t)
    (candidates : uvm_processor_mask_t) (src : uvm_processor_id_t) : uvm_processor_id_t :=
  let nvlink := uvm_processor_mask_and candidates (affinity_row va_space.has_nvlink src)
  let direct := uvm_processor_mask_andnot nvlink (affinity_row va_space.indirect_peers src)
  let pcie := uvm_processor_mask_and candidates (affinity_row va_space.can_access src)
  if uvm_processor_mask_test candidates src then src
  else if UVM_ID_IS_VALID UVM_ID_MAX_PROCESSORS
      (uvm_processor_mask_find_first_gpu_id UVM_ID_MAX_PROCESSORS direct) then
    uvm_processor_mask_find_first_gpu_id UVM_ID_MAX_PROCESSORS direct
  else if UVM_ID_IS_GPU src && uvm_processor_mask_test nvlink UVM_ID_CPU then UVM_ID_CPU
  else if UVM_ID_IS_GPU src && UVM_ID_IS_VALID UVM_ID_MAX_PROCESSORS
      (uvm_processor_mask_find_first_gpu_id UVM_ID_MAX_PROCESSORS nvlink) then
    uvm_processor_mask_find_first_gpu_id UVM_ID_MAX_PROCESSORS nvlink
  else if UVM_ID_IS_GPU src && UVM_ID_IS_VALID UVM_ID_MAX_PROCESSORS
      (uvm_processor_mask_find_first_gpu_id UVM_ID_MAX_PROCESSORS pcie) then
    uvm_processor_mask_find_first_gpu_id UVM_ID_MAX_PROCESSORS pcie
  else if UVM_ID_IS_GPU src && uvm_processor_mask_test candidates UVM_ID_CPU then UVM_ID_CPU
  else uvm_processor_mask_find_first_id UVM_ID_MAX_PROCESSORS candidates

/-- A VA space with two GPUs: GPU 1 is an NVLINK peer of the CPU, GPU 2 is
reachable over PCIe only. -/
def example_va_space_nvlink : uvm_va_space_t :=
  { registered_gpus := { bitmap := 6 }
    registered_gpus_table := [4, 5]
    can_access := [{ bitmap := 7 }, { bitmap := 7 }, { bitmap := 7 }]
    has_nvlink := [{ bitmap := 2 }, { bitmap := 1 }, { bitmap := 0 }] }

/-! ## GPUs of a VA space -/

/-- Reads the global `g_uvm_global`. -/
def load_g_uvm_global : M uvm_global_t := fun mem => .ok (mem.g_uvm_global, mem)

/-- Modelled from the spec: `uvm_gpu_get(global_id)` (uvm8_gpu.h is not part of
the sources), the entry of the global GPU table for a global id; global GPU
ids start at 1 like the per-VA-space ones. -/
def uvm_gpu_get (global_id : Nat) : M Ptr := do
  array_get (← load_g_uvm_global).gpus (← M.lift (uvm_id_gpu_index global_id))

/-- The function `uvm_va_space_get_gpu`. -/
def uvm_va_space_get_gpu (va_space : Ptr) (gpu_id : uvm_processor_id_t) : M Ptr := do
  UVM_ASSERT (uvm_processor_mask_test (← load_va_space va_space).registered_gpus gpu_id)
  let gpu ← array_get (← load_va_space va_space).registered_gpus_table
    (← M.lift (uvm_id_gpu_index gpu_id))
  UVM_ASSERT (gpu != NULL)
  UVM_ASSERT ((← uvm_gpu_get (← load_gpu gpu).global_id) == gpu)
  return gpu

/-- The function `uvm_processor_mask_find_first_va_space_gpu`. -/
def uvm_processor_mask_find_first_va_space_gpu (UVM_ID_MAX_PROCESSORS : Nat)
    (mask : uvm_processor_mask_t) (va_space : Ptr) : M Ptr := do
  UVM_ASSERT (uvm_processor_mask_subset UVM_ID_MAX_PROCESSORS mask
    (← load_va_space va_space).registered_gpus)
  let gpu_id := uvm_processor_mask_find_first_gpu_id UVM_ID_MAX_PROCESSORS mask
  if UVM_ID_IS_INVALID UVM_ID_MAX_PROCESSORS gpu_id then
    return NULL
  let gpu ← uvm_va_space_get_gpu va_space gpu_id
  UVM_ASSERT (gpu != NULL)
  return gpu

/-- The function `__uvm_processor_mask_find_next_va_space_gpu`. -/
def __uvm_processor_mask_find_next_va_space_gpu (UVM_ID_MAX_PROCESSORS : Nat)
    (mask : uvm_processor_mask_t) (va_space : Ptr) (gpu : Ptr) : M Ptr := do
  UVM_ASSERT (gpu != NULL)
  UVM_ASSERT (uvm_processor_mask_subset UVM_ID_MAX_PROCESSORS mask
    (← load_va_space va_space).registered_gpus)
  let gpu_id := uvm_processor_mask_find_next_id UVM_ID_MAX_PROCESSORS mask
    (uvm_gpu_id_next (← load_gpu gpu).id)
  if UVM_ID_IS_INVALID UVM_ID_MAX_PROCESSORS gpu_id then
    return NULL
  let gpu ← uvm_va_space_get_gpu va_space gpu_id
  UVM_ASSERT (gpu != NULL)
  return gpu

/-- The function `uvm_processor_mask_find_next_va_space_gpu`. -/
def uvm_processor_mask_find_next_va_space_gpu (UVM_ID_MAX_PROCESSORS : Nat)
    (mask : uvm_processor_mask_t) (va_space : Ptr) (gpu : Ptr) : M Ptr := do
  if gpu = NULL then
    return NULL
  __uvm_processor_mask_find_next_va_space_gpu UVM_ID_MAX_PROCESSORS mask va_space gpu

/-- How a loop ended: it ran to the end with state `s`, or its body returned
`b` from the enclosing function. -/
inductive Loop (σ β : Type) where
  | finished (s : σ)
  | returned (b : β)

/-- The iterations of `for_each_va_space_gpu_in_mask` from the current `gpu`
on. The body gets the loop-carried state and the GPU, and either continues with
a new state or returns from the enclosing function; `fuel` bounds the number
of iterations. -/
def for_each_va_space_gpu_in_mask_from {σ β : Type} (UVM_ID_MAX_PROCESSORS : Nat)
    (va_space : Ptr) (mask : uvm_processor_mask_t) (body : σ → Ptr → M (Except β σ)) :
    Nat → σ → Ptr → M (Loop σ β)
  | fuel, s, gpu =>
    if gpu = NULL then pure (.finished s)
    else
      match fuel with
      | 0 => fun _ => .error .out_of_fuel
      | fuel + 1 => do
        match ← body s gpu with
        | .error b => pure (.returned b)
        | .ok s' =>
          let next ← __uvm_processor_mask_find_next_va_space_gpu UVM_ID_MAX_PROCESSORS mask
            va_space gpu
          for_each_va_space_gpu_in_mask_from UVM_ID_MAX_PROCESSORS va_space mask body fuel s'
            next

/-- The macro `for_each_va_space_gpu_in_mask(gpu, va_space, mask)`, expanded by
thread `t` around a loop body. -/
def for_each_va_space_gpu_in_mask {σ β : Type} (UVM_ID_MAX_PROCESSORS : Nat) (t : Tid)
    (va_space : Ptr) (mask : uvm_processor_mask_t) (body : σ → Ptr → M (Except β σ))
    (fuel : Nat) (init : σ) : M (Loop σ β) := do
  UVM_ASSERT (uvm_assert_rwsem_locked t (← load_va_space va_space).lock)
  let gpu ← uvm_processor_mask_find_first_va_space_gpu UVM_ID_MAX_PROCESSORS mask va_space
  for_each_va_space_gpu_in_mask_from UVM_ID_MAX_PROCESSORS va_space mask body fuel init gpu

/-- The macro `for_each_va_space_gpu(gpu, va_space)`. -/
def for_each_va_space_gpu {σ β : Type} (UVM_ID_MAX_PROCESSORS : Nat) (t : Tid)
    (va_space : Ptr) (body : σ → Ptr → M (Except β σ)) (fuel : Nat) (init : σ) :
    M (Loop σ β) := do
  for_each_va_space_gpu_in_mask UVM_ID_MAX_PROCESSORS t va_space
    (← load_va_space va_space).registered_gpus body fuel init

/-- The GPU pointer the table of the VA space holds for a GPU id. -/
def gpu_at (vs : uvm_va_space_t) (id : uvm_processor_id_t) : Ptr :=
  vs.registered_gpus_table.getD (id - 1) NULL

/-- The table of the VA space holds, for every registered id, a GPU object
that carries this id and is the one the global table knows under its global
id. -/
def gpus_table_ok (mem : Memory) (vs : uvm_va_space_t) : Prop :=
  ∀ id : Nat, uvm_processor_mask_test vs.registered_gpus id = true →
    ∃ idx gpu g gidx, uvm_id_gpu_index id = .ok idx ∧
      vs.registered_gpus_table[idx]? = some gpu ∧ gpu ≠ NULL ∧ mem.gpus gpu = some g ∧
      g.id = id ∧ uvm_id_gpu_index g.global_id = .ok gidx ∧
      mem.g_uvm_global.gpus[gidx]? = some gpu

/-- The ids set in a mask, lowest first. -/
def mask_ids (UVM_ID_MAX_PROCESSORS : Nat) (mask : uvm_processor_mask_t) : List Nat :=
  (List.range UVM_ID_MAX_PROCESSORS).filter (uvm_processor_mask_test mask)

/-- The ids set in a mask that are at least `a`, lowest first. -/
def mask_ids_from (UVM_ID_MAX_PROCESSORS : Nat) (mask : uvm_processor_mask_t) (a : Nat) :
    List Nat :=
  (List.range UVM_ID_MAX_PROCESSORS).filter fun i => decide (a ≤ i) && uvm_processor_mask_test mask i

/-- The loop body that appends the visited GPU to the list carried by the
loop. -/
def record_visit (visited : List Ptr) (gpu : Ptr) : M (Except Unit (List Ptr)) :=
  pure (.ok (visited ++ [gpu]))

/-! ## NUMA affinity -/

/-- Modelled from the spec: the kernel's `nv_numa_node_has_memory(node_id)`
(nv-linux.h is not part of the sources), a read of kernel state. -/
def nv_numa_node_has_memory (node_id : Int) : M Bool := fun mem =>
  .ok (mem.numa_node_has_memory node_id, mem)

/-- Reads element `i` of an array of affinity entries; out of bounds
faults. -/
def affinity_get (xs : List uvm_cpu_gpu_affinity_t) (i : Nat) : M uvm_cpu_gpu_affinity_t :=
  fun mem =>
    match xs[i]? with
    | some a => .ok (a, mem)
    | none => .error .bad_pointer

/-- The function `uvm_va_space_find_gpu_with_memory_node_id`, called by thread
`t`. The loop runs at most `UVM_ID_MAX_PROCESSORS` times, one GPU id each. -/
def uvm_va_space_find_gpu_with_memory_node_id (UVM_ID_MAX_PROCESSORS : Nat) (t : Tid)
    (va_space : Ptr) (node_id : Int) : M Ptr := do
  UVM_ASSERT (← nv_numa_node_has_memory node_id)
  if !(← load_g_uvm_global).ats_supported then
    return NULL
  let r ← for_each_va_space_gpu (σ := Unit) (β := Ptr) UVM_ID_MAX_PROCESSORS t va_space
    (fun _ gpu => do
      UVM_ASSERT (← load_gpu gpu).numa_info_enabled
      if (← load_gpu gpu).numa_info_node_id = node_id then
        return .error gpu
      return .ok ())
    UVM_ID_MAX_PROCESSORS ()
  match r with
  | .returned gpu => return gpu
  | .finished _ => return NULL

/-- The function `uvm_va_space_memory_node_is_gpu`. -/
def uvm_va_space_memory_node_is_gpu (UVM_ID_MAX_PROCESSORS : Nat) (t : Tid) (va_space : Ptr)
    (node_id : Int) : M Bool := do
  return (← uvm_va_space_find_gpu_with_memory_node_id UVM_ID_MAX_PROCESSORS t va_space
    node_id) != NULL

/-- Modelled from the spec: the ids `for_each_gpu_id` runs through
(uvm8_processors.h is not part of the sources): every GPU id, lowest first. -/
def gpu_ids (UVM_ID_MAX_PROCESSORS : Nat) : List uvm_processor_id_t :=
  List.range' UVM_ID_GPU0_VALUE (UVM_ID_MAX_PROCESSORS - 1)

/-- The `for_each_gpu_id` loop of `uvm_va_space_get_gpus_attached_to_cpu_node`
over the ids still to visit, with its return of the copied mask, followed by
the `uvm_processor_mask_zero` after the loop. -/
def get_gpus_attached_scan (va_space : Ptr) (node_id : Int) :
    List uvm_processor_id_t → M uvm_processor_mask_t
  | [] => return uvm_processor_mask_zero
  | gpu_id :: rest => do
    let affinity ← affinity_get (← load_va_space va_space).gpu_cpu_numa_affinity
      (← M.lift (uvm_id_gpu_index gpu_id))
    if affinity.numa_node = node_id then
      return affinity.gpus
    get_gpus_attached_scan va_space node_id rest

/-- The function `uvm_va_space_get_gpus_attached_to_cpu_node`, called by thread
`t`; the mask written through `gpus` is the result. -/
def uvm_va_space_get_gpus_attached_to_cpu_node (UVM_ID_MAX_PROCESSORS : Nat) (t : Tid)
    (va_space : Ptr) (node_id : Int) : M uvm_processor_mask_t := do
  UVM_ASSERT (!(← uvm_va_space_memory_node_is_gpu UVM_ID_MAX_PROCESSORS t va_space node_id))
  get_gpus_attached_scan va_space node_id (gpu_ids UVM_ID_MAX_PROCESSORS)

/-- A computation that, when it returns, leaves memory as it was. -/
def ReadOnly {α : Type} (x : M α) : Prop :=
  ∀ mem a mem', x mem = .ok (a, mem') → mem' = mem

/-- The mask of the lowest-indexed affinity entry for a node, the empty
mask when there is none. -/
def attached_gpus (vs : uvm_va_space_t) (node_id : Int) : uvm_processor_mask_t :=
  match vs.gpu_cpu_numa_affinity.find? (fun a => decide (a.numa_node = node_id)) with
  | some a => a.gpus
  | none => uvm_processor_mask_zero

/-- A VA space with GPU ids 1 and 2 registered (objects at addresses 4 and
5), its lock read-held by thread 7, GPU 1 attached to CPU node 0 and GPU 2 to
CPU node 1. -/
def example_va_space_numa : uvm_va_space_t :=
  { registered_gpus := { bitmap := 6 }
    registered_gpus_table := [4, 5]
    lock := { readers := [7] }
    gpu_cpu_numa_affinity :=
      [{ numa_node := 0, gpus := { bitmap := 2 } }, { numa_node := 1, gpus := { bitmap := 4 } }] }

/-- A memory of a system with ATS: the two GPUs, whose own memory is NUMA
nodes 2 and 3, the global GPU table, and the VA space at address 2. -/
def example_memory_numa : Memory :=
  { gpus := fun p =>
      if p = 4 then
        some { id := 1, global_id := 1, numa_info_enabled := true, numa_info_node_id := 2 }
      else if p = 5 then
        some { id := 2, global_id := 2, numa_info_enabled := true, numa_info_node_id := 3 }
      else none
    gpu_va_spaces := fun _ => none
    va_spaces := fun p => if p = 2 then some example_va_space_numa else none
    g_uvm_global := { gpus := [4, 5], ats_supported := true }
    numa_node_has_memory := fun _ => true }

/-! ## Deferred-free lists -/

/-- The enum `uvm_deferred_free_object_type_t`. -/
inductive uvm_deferred_free_object_type_t where
  | UVM_DEFERRED_FREE_OBJECT_TYPE_CHANNEL
  | UVM_DEFERRED_FREE_OBJECT_GPU_VA_SPACE
  | UVM_DEFERRED_FREE_OBJECT_TYPE_EXTERNAL_ALLOCATION
  | UVM_DEFERRED_FREE_OBJECT_TYPE_COUNT
  deriving DecidableEq, Repr

/-- A pointer to a `struct list_head`: either a list head standing on its own
at an address, or `&object->list_node` for the deferred-free object at an
address (so `container_of` is the match on `node`). -/
inductive ListPtr where
  | head (p : Ptr)
  | node (object : Ptr)
  deriving DecidableEq, Repr

/-- Modelled from the spec: the kernel's `struct list_head` (linux/list.h is
not part of the sources), a node of a circular doubly linked list. -/
structure list_head where
  next : ListPtr
  prev : ListPtr
  deriving DecidableEq, Repr

/-- The record `uvm_deferred_free_object_t`. -/
structure uvm_deferred_free_object_t where
  type : uvm_deferred_free_object_type_t
  list_node : list_head
  deriving DecidableEq, Repr

/-- The memory the deferred-free code works on: the list heads of the callers
and the deferred-free objects, by address. -/
structure ListMemory where
  heads : Ptr → Option list_head
  objects : Ptr → Option uvm_deferred_free_object_t

/-- The `struct list_head` a pointer points to, if it points to one. -/
def ListMemory.get (mem : ListMemory) : ListPtr → Option list_head
  | .head p => if p = NULL then none else mem.heads p
  | .node object => if object = NULL then none else (mem.objects object).map (·.list_node)

/-- Overwrites the `struct list_head` at a pointer. -/
def ListMemory.set (mem : ListMemory) (p : ListPtr) (v : list_head) : ListMemory :=
  match p with
  | .head p => { mem with heads := Function.update mem.heads p (some v) }
  | .node object =>
    { mem with
      objects := Function.update mem.objects object
        ((mem.objects object).map fun o => { o with list_node := v }) }

/-- The assignment `p->next = n`. -/
def store_next (p n : ListPtr) (mem : ListMemory) : Except Fault ListMemory :=
  match mem.get p with
  | some h => .ok (mem.set p { h with next := n })
  | none => .error .bad_pointer

/-- The assignment `p->prev = n`. -/
def store_prev (p n : ListPtr) (mem : ListMemory) : Except Fault ListMemory :=
  match mem.get p with
  | some h => .ok (mem.set p { h with prev := n })
  | none => .error .bad_pointer

/-- The assignment `object->type = type`. -/
def store_type (object : Ptr) (type : uvm_deferred_free_object_type_t) (mem : ListMemory) :
    Except Fault ListMemory :=
  match deref mem.objects object with
  | .ok o => .ok { mem with objects := Function.update mem.objects object (some { o with type := type }) }
  | .error e => .error e

/-- Modelled from the spec: the kernel's `__list_add(new, prev, next)`
(linux/list.h is not part of the sources), which links `new` between two
consecutive nodes with the four assignments `next->prev = new`,
`new->next = next`, `new->prev = prev`, `prev->next = new`. -/
def __list_add (new prev next : ListPtr) (mem : ListMemory) : Except Fault ListMemory := do
  let mem ← store_prev next new mem
  let mem ← store_next new next mem
  let mem ← store_prev new prev mem
  store_next prev new mem

/-- Modelled from the spec: the kernel's `list_add_tail(new, head)`
(linux/list.h is not part of the sources), `__list_add(new, head->prev, head)`:
`new` goes in front of `head`, which is the tail of the list. -/
def list_add_tail (new head : ListPtr) (mem : ListMemory) : Except Fault ListMemory :=
  match mem.get head with
  | some h => __list_add new h.prev head mem
  | none => .error .bad_pointer

/-- The function `uvm_deferred_free_object_add`. -/
def uvm_deferred_free_object_add (list : ListPtr) (object : Ptr)
    (type : uvm_deferred_free_object_type_t) (mem : ListMemory) : Except Fault ListMemory := do
  let mem ← store_type object type mem
  list_add_tail (.node object) list mem

/-- The type recorded in the object at an address. -/
def ListMemory.type_of (mem : ListMemory) (object : Ptr) :
    Option uvm_deferred_free_object_type_t :=
  (mem.objects object).map (·.type)

/-- The objects a traversal of the list meets in its first `steps` steps: it
starts at `head->next` and follows `next` until it is back at `head`, taking
`container_of` of each node on the way (the kernel's `list_for_each_entry`). A
pointer that is no object's `list_node`, or that cannot be read, ends it. -/
def traverse_from (mem : ListMemory) (head : ListPtr) : Nat → ListPtr → List Ptr
  | 0, _ => []
  | steps + 1, cur =>
    if cur = head then []
    else
      match cur, mem.get cur with
      | .node object, some h => object :: traverse_from mem head steps h.next
      | _, _ => []

/-- The traversal of the list at `head`, cut off after `steps` steps. -/
def traverse (mem : ListMemory) (head : ListPtr) (steps : Nat) : List Ptr :=
  match mem.get head with
  | some h => traverse_from mem head steps h.next
  | none => []

/-- Two nodes are consecutive: `a->next` is `b` and `b->prev` is `a`. -/
def linked (mem : ListMemory) (a b : ListPtr) : Prop :=
  (mem.get a).map (·.next) = some b ∧ (mem.get b).map (·.prev) = some a

/-- The nodes `xs` are linked one after the other between `a` and `z`. -/
def chain (mem : ListMemory) : ListPtr → List ListPtr → ListPtr → Prop
  | a, [], z => linked mem a z
  | a, x :: xs, z => linked mem a x ∧ chain mem x xs z

/-- The list head and the nodes of the objects of a list. -/
def cells (head : ListPtr) (xs : List Ptr) : List ListPtr :=
  head :: xs.map .node

/-- The list at `head` is a well-formed circular list that holds exactly the
objects `xs`, in this order from `head->next` on. -/
def is_list (mem : ListMemory) (head : ListPtr) (xs : List Ptr) : Prop :=
  chain mem head (xs.map .node) head ∧ (cells head xs).Nodup

instance (mem : ListMemory) (a b : ListPtr) : Decidable (linked mem a b) :=
  inferInstanceAs (Decidable (_ ∧ _))

instance chain_decidable (mem : ListMemory) :
    ∀ (a : ListPtr) (xs : List ListPtr) (z : ListPtr), Decidable (chain mem a xs z)
  | a, [], z => inferInstanceAs (Decidable (linked mem a z))
  | a, x :: xs, z =>
    have := chain_decidable mem x xs z
    inferInstanceAs (Decidable (linked mem a x ∧ chain mem x xs z))

instance (mem : ListMemory) (head : ListPtr) (xs : List Ptr) : Decidable (is_list mem head xs) :=
  inferInstanceAs (Decidable (_ ∧ _))

/-- A memory with an empty list at head address 1, a second empty list at head
address 2, and two objects at addresses 10 and 11 that are on no list (their
`list_node` points to itself). -/
def example_list_memory : ListMemory :=
  { heads := fun p =>
      if p = 1 then some { next := .head 1, prev := .head 1 }
      else if p = 2 then some { next := .head 2, prev := .head 2 }
      else none
    objects := fun p =>
      if p = 10 then
        some { type := .UVM_DEFERRED_FREE_OBJECT_TYPE_CHANNEL
               list_node := { next := .node 10, prev := .node 10 } }
      else if p = 11 then
        some { type := .UVM_DEFERRED_FREE_OBJECT_TYPE_CHANNEL
               list_node := { next := .node 11, prev := .node 11 } }
      else none }

/-! ## Sequences of deferred-free calls -/

/-- One call `uvm_deferred_free_object_add(list, object, type)`. -/
structure Enqueue where
  list : ListPtr
  object : Ptr
  type : uvm_deferred_free_object_type_t

/-- A sequence of `uvm_deferred_free_object_add` calls, in order. -/
def run_adds : List Enqueue → ListMemory → Except Fault ListMemory
  | [], mem => .ok mem
  | c :: rest, mem => do
    let mem ← uvm_deferred_free_object_add c.list c.object c.type mem
    run_adds rest mem

/-- The deferred-free lists `ls`, each a head with its objects in order, are
well formed and no node is shared between two of them. -/
def Lists (mem : ListMemory) (ls : List (ListPtr × List Ptr)) : Prop :=
  (∀ e ∈ ls, is_list mem e.1 e.2) ∧
  ∀ (i j : Nat) (e e' : ListPtr × List Ptr), i ≠ j → ls[i]? = some e → ls[j]? = some e' →
    ∀ q, q ∈ cells e.1 e.2 → q ∉ cells e'.1 e'.2

/-- The lists after `object` went to the tail of the list at `list`. -/
def enqueue (ls : List (ListPtr × List Ptr)) (list : ListPtr) (object : Ptr) :
    List (ListPtr × List Ptr) :=
  ls.map fun e => if e.1 = list then (e.1, e.2 ++ [object]) else e

/-- The lists after a sequence of calls. -/
def enqueue_all (ls : List (ListPtr × List Ptr)) : List Enqueue → List (ListPtr × List Ptr)
  | [] => ls
  | c :: rest => enqueue_all (enqueue ls c.list c.object) rest

/-- Every call of the sequence is made on one of the lists with an object that
is at that time on none of them. -/
def fresh_adds : List (ListPtr × List Ptr) → List Enqueue → Prop
  | _, [] => True
  | ls, c :: rest =>
    (∃ e ∈ ls, e.1 = c.list) ∧ (∀ e ∈ ls, ListPtr.node c.object ∉ cells e.1 e.2) ∧
    fresh_adds (enqueue ls c.list c.object) rest

/-- The memory after object 10 was queued on the list at head address 1 as a
GPU VA space. -/
def example_list_memory_queued : ListMemory :=
  { heads := fun p =>
      if p = 1 then some { next := .node 10, prev := .node 10 }
      else if p = 2 then some { next := .head 2, prev := .head 2 }
      else none
    objects := fun p =>
      if p = 10 then
        some { type := .UVM_DEFERRED_FREE_OBJECT_GPU_VA_SPACE
               list_node := { next := .head 1, prev := .head 1 } }
      else if p = 11 then
        some { type := .UVM_DEFERRED_FREE_OBJECT_TYPE_CHANNEL
               list_node := { next := .node 11, prev := .node 11 } }
      else none }

/-! ## The procfs write buffer -/

/-- Modelled from the spec: the kernel's error number `EINVAL` (linux/errno.h
is not part of the sources). -/
def EINVAL : Int := 22

/-- Modelled from the spec: the kernel's error number `ENOSPC`. -/
def ENOSPC : Int := 28

/-- Modelled from the spec: the kernel's error number `EFAULT`. -/
def EFAULT : Int := 14

/-- Modelled from the spec: the kernel's error number `ENOMEM`. -/
def ENOMEM : Int := 12

/-- The constant `NV_PROC_WRITE_BUFFER_SIZE`, `64 * PAGE_SIZE`. The page size
is a build-time constant of the kernel and a parameter here. -/
def NV_PROC_WRITE_BUFFER_SIZE (PAGE_SIZE : Nat) : Nat := 64 * PAGE_SIZE

/-- Modelled from the spec: the fields of `nv_file_private_t` that the procfs
file operations use (its declaration, in nv-linux.h, is not part of the
sources). `data` is `NULL` or the memory it points to, as bytes by their index
from `data` (an index outside the allocation is memory next to it); `off` is an
`off_t`; `fops_sp_lock` is the count of the semaphore
`fops_sp_lock[NV_FOPS_STACK_INDEX_PROCFS]`. -/
structure nv_file_private_t where
  data : Option (Int → Nat) := none
  off : Int := 0
  fops_sp_lock : Nat := 1

/-- The value of an integer stored in a signed 64-bit variable (`off_t`,
`loff_t`). -/
def to_s64 (x : Int) : Int := (x + 2 ^ 63) % 2 ^ 64 - 2 ^ 63

/-- The value of an integer stored in an `unsigned long`. -/
def to_u64 (x : Int) : Nat := (x % 2 ^ 64).toNat

/-- The value of `(int)n`. -/
def to_s32 (x : Int) : Int := (x + 2 ^ 31) % 2 ^ 32 - 2 ^ 31

/-- Modelled from the spec: the kernel's `down(sem)` (linux/semaphore.h is not
part of the sources): it takes the semaphore when its count is positive, and
otherwise the caller sleeps; with nobody to release it the call never
returns. -/
def down (sem : Nat) : Except Fault Nat :=
  if 0 < sem then .ok (sem - 1) else .error .blocked

/-- Modelled from the spec: the kernel's `up(sem)`. -/
def up (sem : Nat) : Nat := sem + 1

/-- Modelled from the spec: the kernel's `copy_from_user(to, from, n)`, with `dst` the index of `to`
(linux/uaccess.h is not part of the sources). The user buffer is given by its
bytes, `none` where user memory cannot be read. It copies up to the first byte
that cannot be read, fills the rest of the `n` destination bytes with zero, and
returns the number of bytes it did not copy. -/
def copy_from_user (mem : Int → Nat) (dst : Int) (src : Nat → Option Nat) (n : Nat) :
    (Int → Nat) × Nat :=
  let copied := ((List.range n).find? fun i => (src i).isNone).getD n
  (fun i =>
    if dst ≤ i ∧ i < dst + n then
      if i - dst < copied then (src (i - dst).toNat).getD 0 else 0
    else mem i,
   n - copied)

/-- Modelled from the spec: `os_mem_set(mem, c, n)` (os-interface.h is not part
of the sources), the kernel's `memset`. -/
def os_mem_set (mem : Int → Nat) (c : Nat) (n : Nat) : Int → Nat :=
  fun i => if 0 ≤ i ∧ i < n then c else mem i

/-- The label `done` of `nv_procfs_open_file`. -/
def nv_procfs_open_file_done (retval : Int) (nvfp : nv_file_private_t) :
    Except Int nv_file_private_t :=
  if retval < 0 then .error retval else .ok nvfp

/-- The function `nv_procfs_open_file`, with `*nvfpp` as its result on
success and the error number otherwise. What the allocators give is an input:
`private_ok` says whether `nv_alloc_file_private` returned a structure (a fresh
one, with `off` zero and the semaphores free) rather than `NULL`, `stack` is
the value returned by `nv_kmem_cache_alloc_stack`, and `fresh` the memory
`os_alloc_mem` hands out, with whatever bytes it holds, or its failure;
`fmode_write` is `file->f_mode & FMODE_WRITE`. -/
def nv_procfs_open_file (PAGE_SIZE : Nat) (private_ok : Bool) (fmode_write : Bool)
    (stack : Int) (fresh : Option (Int → Nat)) : Except Int nv_file_private_t :=
  if !private_ok then .error (-ENOMEM)
  else
    let nvfp : nv_file_private_t := {}
    if !fmode_write then nv_procfs_open_file_done 0 nvfp
    else if stack ≠ 0 then nv_procfs_open_file_done stack nvfp
    else
      match fresh with
      | none => nv_procfs_open_file_done (-ENOMEM) nvfp
      | some mem =>
        nv_procfs_open_file_done 0
          { nvfp with data := some (os_mem_set mem 0 (NV_PROC_WRITE_BUFFER_SIZE PAGE_SIZE)) }

/-- The label `done` of `nv_procfs_write_file`: it releases the semaphore and
returns the status if negative and `(int)count` otherwise. -/
def nv_procfs_write_file_done (status : Int) (nvfp : nv_file_private_t) (count : Nat)
    (pos : Int) : Int × nv_file_private_t × Int :=
  (if status < 0 then status else to_s32 count,
   { nvfp with fops_sp_lock := up nvfp.fops_sp_lock }, pos)

/-- The function `nv_procfs_write_file` on the private data `nvfp` of the
file, with the user buffer given by its bytes. It returns its return value, the
private data and `*pos` as it leaves them. -/
def nv_procfs_write_file (PAGE_SIZE : Nat) (nvfp : nv_file_private_t)
    (buffer : Nat → Option Nat) (count : Nat) (pos : Int) :
    Except Fault (Int × nv_file_private_t × Int) := do
  let sem ← down nvfp.fops_sp_lock
  let nvfp := { nvfp with fops_sp_lock := sem }
  let bytes_left := to_u64 ((NV_PROC_WRITE_BUFFER_SIZE PAGE_SIZE : Int) - nvfp.off - 1)
  if count = 0 then
    return nv_procfs_write_file_done (-EINVAL) nvfp count pos
  else if bytes_left = 0 ∨ count > bytes_left then
    return nv_procfs_write_file_done (-ENOSPC) nvfp count pos
  else
    match nvfp.data with
    | none => .error .bad_pointer
    | some data =>
      let r := copy_from_user data nvfp.off buffer count
      if r.2 ≠ 0 then
        let nvfp := { nvfp with data := some r.1 }
        return nv_procfs_write_file_done (-EFAULT) nvfp count nvfp.off
      else
        let nvfp := { nvfp with data := some r.1, off := to_s64 (nvfp.off + count) }
        return nv_procfs_write_file_done 0 nvfp count nvfp.off

/-- One `write` system call on the file: the user buffer and the count. -/
structure WriteCall where
  buffer : Nat → Option Nat
  count : Nat

/-- A sequence of `nv_procfs_write_file` calls on the same file, in order;
`*pos` of each call is what the previous one left. -/
def run_writes (PAGE_SIZE : Nat) :
    List WriteCall → nv_file_private_t → Int → Except Fault (nv_file_private_t × Int)
  | [], nvfp, pos => .ok (nvfp, pos)
  | c :: rest, nvfp, pos =>
    match nv_procfs_write_file PAGE_SIZE nvfp c.buffer c.count pos with
    | .ok (_, nvfp', pos') => run_writes PAGE_SIZE rest nvfp' pos'
    | .error e => .error e

/-- A user buffer that holds the given bytes and is unreadable behind them. -/
def user_bytes (bytes : List Nat) : Nat → Option Nat :=
  fun i => bytes[i]?

/-- A file just opened for writing with 4096-byte pages: the buffer zeroed over
memory that held the byte 255 everywhere, offset 0, semaphore free. -/
def example_opened : nv_file_private_t :=
  { data := some (os_mem_set (fun _ => 255) 0 (NV_PROC_WRITE_BUFFER_SIZE 4096)) }

/-! ## The NUMA status machine -/

/-- Modelled from the spec: the enum `nv_numa_status_t` (its declaration, in
nv-linux.h, is not part of the sources). A C enum is an integer; the values are
the indices of the states in `nv_numa_status_messages`, which nv-procfs.c
assigns to a `nv_numa_status_t` as they are. -/
abbrev nv_numa_status_t := Int

/-- The state "disabled". -/
def NV_NUMA_STATUS_DISABLED : nv_numa_status_t := 0

/-- The state "offline". -/
def NV_NUMA_STATUS_OFFLINE : nv_numa_status_t := 1

/-- The state "online_in_progress". -/
def NV_NUMA_STATUS_ONLINE_IN_PROGRESS : nv_numa_status_t := 2

/-- The state "online". -/
def NV_NUMA_STATUS_ONLINE : nv_numa_status_t := 3

/-- The state "online_failed". -/
def NV_NUMA_STATUS_ONLINE_FAILED : nv_numa_status_t := 4

/-- The state "offline_in_progress". -/
def NV_NUMA_STATUS_OFFLINE_IN_PROGRESS : nv_numa_status_t := 5

/-- The state "offline_failed". -/
def NV_NUMA_STATUS_OFFLINE_FAILED : nv_numa_status_t := 6

/-- The number of states. -/
def NV_NUMA_STATUS_COUNT : nv_numa_status_t := 7

/-- The function `numa_is_change_allowed`: the `switch` on `requested`, its
`default` taking every value that is none of the cases. -/
def numa_is_change_allowed (current_state requested : nv_numa_status_t) : Bool :=
  if requested = NV_NUMA_STATUS_OFFLINE ∨ requested = NV_NUMA_STATUS_OFFLINE_FAILED then
    decide (current_state = NV_NUMA_STATUS_OFFLINE_IN_PROGRESS)
  else if requested = NV_NUMA_STATUS_OFFLINE_IN_PROGRESS then
    decide (current_state ≠ NV_NUMA_STATUS_OFFLINE)
  else if requested = NV_NUMA_STATUS_ONLINE then
    decide (current_state = NV_NUMA_STATUS_ONLINE_IN_PROGRESS)
  else if requested = NV_NUMA_STATUS_ONLINE_FAILED then
    decide (current_state = NV_NUMA_STATUS_ONLINE_IN_PROGRESS) ||
      decide (current_state = NV_NUMA_STATUS_ONLINE)
  else if requested = NV_NUMA_STATUS_ONLINE_IN_PROGRESS then
    decide (current_state = NV_NUMA_STATUS_OFFLINE)
  else
    false

/-- A sequence of states in which every change from one state to the next is
allowed. -/
def allowed_changes : List nv_numa_status_t → Bool
  | [] => true
  | [_] => true
  | a :: b :: rest => numa_is_change_allowed a b && allowed_changes (b :: rest)

/-! ## Lock fields after a write -/

@[simp] theorem set_lock_lock (vs : uvm_va_space_t) (l : uvm_rw_semaphore_t) :
    (vs.set_lock l).lock = l := rfl

@[simp] theorem set_lock_serialize_writers_lock (vs : uvm_va_space_t) (l : uvm_rw_semaphore_t) :
    (vs.set_lock l).serialize_writers_lock = vs.serialize_writers_lock := rfl

@[simp] theorem set_lock_read_acquire_write_release_lock (vs : uvm_va_space_t)
    (l : uvm_rw_semaphore_t) :
    (vs.set_lock l).read_acquire_write_release_lock = vs.read_acquire_write_release_lock := rfl

@[simp] theorem get_serialize_writers_lock (vs : uvm_va_space_t) :
    MutexField.serialize_writers_lock.get vs = vs.serialize_writers_lock := rfl

@[simp] theorem get_read_acquire_write_release_lock (vs : uvm_va_space_t) :
    MutexField.read_acquire_write_release_lock.get vs = vs.read_acquire_write_release_lock := rfl

@[simp] theorem set_mutex_lock (f : MutexField) (vs : uvm_va_space_t) (m : uvm_mutex_t) :
    (f.set vs m).lock = vs.lock := by
  cases f <;> rfl

@[simp] theorem set_serialize_writers_lock_same (vs : uvm_va_space_t) (m : uvm_mutex_t) :
    (MutexField.serialize_writers_lock.set vs m).serialize_writers_lock = m := rfl

@[simp] theorem set_serialize_writers_lock_other (vs : uvm_va_space_t) (m : uvm_mutex_t) :
    (MutexField.serialize_writers_lock.set vs m).read_acquire_write_release_lock =
      vs.read_acquire_write_release_lock := rfl

@[simp] theorem set_read_acquire_write_release_lock_same (vs : uvm_va_space_t) (m : uvm_mutex_t) :
    (MutexField.read_acquire_write_release_lock.set vs m).read_acquire_write_release_lock = m :=
  rfl

@[simp] theorem set_read_acquire_write_release_lock_other (vs : uvm_va_space_t)
    (m : uvm_mutex_t) :
    (MutexField.read_acquire_write_release_lock.set vs m).serialize_writers_lock =
      vs.serialize_writers_lock := rfl

theorem exec_mutex_lock (t : Tid) (f : MutexField) (vs : uvm_va_space_t) :
    Stmt.exec t (.uvm_mutex_lock f) vs =
      if (f.get vs).owner = none then some (f.set vs { owner := some t }) else none := by
  simp only [Stmt.exec, Uvm.uvm_mutex_lock]
  split <;> rfl

theorem exec_mutex_unlock (t : Tid) (f : MutexField) (vs : uvm_va_space_t) :
    Stmt.exec t (.uvm_mutex_unlock f) vs =
      if (f.get vs).owner = some t then some (f.set vs { owner := none }) else none := by
  simp only [Stmt.exec, Uvm.uvm_mutex_unlock]
  split <;> rfl

theorem exec_mutex_unlock_out_of_order (t : Tid) (f : MutexField) (vs : uvm_va_space_t) :
    Stmt.exec t (.uvm_mutex_unlock_out_of_order f) vs =
      if (f.get vs).owner = some t then some (f.set vs { owner := none }) else none := by
  simp only [Stmt.exec, Uvm.uvm_mutex_unlock_out_of_order]
  split <;> rfl

theorem exec_assert_mutex_locked (t : Tid) (f : MutexField) (vs : uvm_va_space_t) :
    Stmt.exec t (.uvm_assert_mutex_locked f) vs =
      if (f.get vs).owner = some t then some vs else none := by
  simp [Stmt.exec, Uvm.uvm_assert_mutex_locked]

theorem exec_down_write (t : Tid) (vs : uvm_va_space_t) :
    Stmt.exec t .uvm_down_write vs =
      if vs.lock.writer = none ∧ vs.lock.readers = [] then
        some (vs.set_lock { writer := some t, readers := [] }) else none := by
  simp only [Stmt.exec, Uvm.uvm_down_write]
  split <;> rfl

theorem exec_up_write (t : Tid) (vs : uvm_va_space_t) :
    Stmt.exec t .uvm_up_write vs =
      if vs.lock.writer = some t then
        some (vs.set_lock { writer := none, readers := vs.lock.readers }) else none := by
  simp only [Stmt.exec, Uvm.uvm_up_write]
  split <;> rfl

theorem exec_downgrade_write (t : Tid) (vs : uvm_va_space_t) :
    Stmt.exec t .uvm_downgrade_write vs =
      if vs.lock.writer = some t then
        some (vs.set_lock { writer := none, readers := t :: vs.lock.readers }) else none := by
  simp only [Stmt.exec, Uvm.uvm_downgrade_write]
  split <;> rfl

theorem exec_down_read (t : Tid) (vs : uvm_va_space_t) :
    Stmt.exec t .uvm_down_read vs =
      if vs.lock.writer = none then
        some (vs.set_lock { writer := vs.lock.writer, readers := t :: vs.lock.readers })
      else none := by
  simp only [Stmt.exec, Uvm.uvm_down_read]
  split <;> rfl

theorem exec_up_read (t : Tid) (vs : uvm_va_space_t) :
    Stmt.exec t .uvm_up_read vs =
      if t ∈ vs.lock.readers then
        some (vs.set_lock { writer := vs.lock.writer, readers := vs.lock.readers.erase t })
      else none := by
  simp only [Stmt.exec, Uvm.uvm_up_read]
  split <;> rfl


theorem ite_bind_eq_some {α β : Type} {c : Prop} [Decidable c] (x : α) (f : α → Option β)
    (y : β) : (if c then some x else none).bind f = some y ↔ c ∧ f x = some y := by
  by_cases h : c <;> simp [h]

theorem ite_bind_map_eq_some {α β : Type} {c : Prop} [Decidable c] (x : α)
    (f : α → Option β) (g : α → β → β) (y : β) :
    ((if c then some x else none).bind fun a => (f a).map (g a)) = some y ↔
      c ∧ ∃ z, f x = some z ∧ g x z = y := by
  by_cases h : c <;> simp [h]


/-! ## Sequential runs of the wrappers -/

/-- Claim C3. Thread `t`, holding none of the three locks, runs
`uvm_va_space_down_read` on a VA space whose `read_acquire_write_release_lock`
is free and whose main lock has no writer. The run completes; the thread holds
`read_acquire_write_release_lock` after the first and the second statement and
no longer after the third; it ends holding the main lock in shared mode once
and neither mutex; `serialize_writers_lock` is the same in every state of the
run and no statement of the body locks it. -/
theorem down_read_holds_transient_mutex_only_while_acquiring (t : Tid) (vs : uvm_va_space_t)
    (hn : holds_nothing t vs)
    (hfree : vs.read_acquire_write_release_lock.owner = none ∧ vs.lock.writer = none) :
    ∃ s1 s2 s3, run_trace t uvm_va_space_down_read vs = some [s1, s2, s3] ∧
      run t uvm_va_space_down_read vs = some s3 ∧
      held t s1 = ⟨false, 0, false, true⟩ ∧
      held t s2 = ⟨false, 1, false, true⟩ ∧
      held t s3 = ⟨false, 1, false, false⟩ ∧
      s1.lock = vs.lock ∧ s2.lock.readers = t :: vs.lock.readers ∧ s3.lock = s2.lock ∧
      s1.serialize_writers_lock = vs.serialize_writers_lock ∧
      s2.serialize_writers_lock = vs.serialize_writers_lock ∧
      s3.serialize_writers_lock = vs.serialize_writers_lock ∧
      (∀ st ∈ uvm_va_space_down_read, ∀ f, st = Stmt.uvm_mutex_lock f →
        f = .read_acquire_write_release_lock) := by
  obtain ⟨hw, hr, hsw, hrawr⟩ := hn
  obtain ⟨h1, h2⟩ := hfree
  refine ⟨MutexField.read_acquire_write_release_lock.set vs { owner := some t },
    (MutexField.read_acquire_write_release_lock.set vs { owner := some t }).set_lock
      { writer := vs.lock.writer, readers := t :: vs.lock.readers },
    MutexField.read_acquire_write_release_lock.set
      ((MutexField.read_acquire_write_release_lock.set vs { owner := some t }).set_lock
        { writer := vs.lock.writer, readers := t :: vs.lock.readers }) { owner := none },
    ?_, ?_, ?_⟩
  · simp only [uvm_va_space_down_read, run_trace, exec_mutex_lock, exec_down_read,
      exec_mutex_unlock_out_of_order]
    simp [h1, h2]
  · simp only [uvm_va_space_down_read, run, exec_mutex_lock, exec_down_read,
      exec_mutex_unlock_out_of_order]
    simp [h1, h2]
  · simp [held, h1, h2, hw, hsw, hrawr, uvm_va_space_down_read, List.count_eq_zero_of_not_mem hr]


/-- Claim C2. Let thread `t` hold none of the three locks. Whenever it
completes `uvm_va_space_down_write` followed by
`uvm_va_space_downgrade_write_rm` it holds exactly the main lock in shared mode
(once) plus `serialize_writers_lock`, which is also what it holds whenever it
completes `uvm_va_space_down_read_rm`; whenever it completes
`uvm_va_space_down_write` followed by `uvm_va_space_downgrade_write` it holds
exactly the main lock in shared mode (once) and neither mutex, which is also
what it holds whenever it completes `uvm_va_space_down_read`. When the three
locks are free all four runs complete, and each downgrade path ends in the
very state of the direct acquisition. -/
theorem downgrade_equals_direct_acquire (t : Tid) (vs : uvm_va_space_t)
    (hn : holds_nothing t vs) :
    (∀ a, run t (uvm_va_space_down_write ++ uvm_va_space_downgrade_write_rm) vs = some a →
      held t a = ⟨false, 1, true, false⟩) ∧
    (∀ b, run t uvm_va_space_down_read_rm vs = some b → held t b = ⟨false, 1, true, false⟩) ∧
    (∀ c, run t (uvm_va_space_down_write ++ uvm_va_space_downgrade_write) vs = some c →
      held t c = ⟨false, 1, false, false⟩) ∧
    (∀ d, run t uvm_va_space_down_read vs = some d → held t d = ⟨false, 1, false, false⟩) ∧
    (locks_free vs →
      (∃ a, run t (uvm_va_space_down_write ++ uvm_va_space_downgrade_write_rm) vs = some a ∧
        run t uvm_va_space_down_read_rm vs = some a) ∧
      (∃ c, run t (uvm_va_space_down_write ++ uvm_va_space_downgrade_write) vs = some c ∧
        run t uvm_va_space_down_read vs = some c)) := by
  obtain ⟨hw, hr, hsw, hrawr⟩ := hn
  have hcount : List.count t vs.lock.readers = 0 := List.count_eq_zero_of_not_mem hr
  refine ⟨?_, ?_, ?_, ?_, ?_⟩
  · intro a h
    simp only [uvm_va_space_down_write, uvm_va_space_downgrade_write_rm, List.cons_append,
      List.nil_append, run, exec_mutex_lock, exec_down_write, exec_downgrade_write,
      exec_assert_mutex_locked, exec_mutex_unlock_out_of_order, ite_bind_eq_some] at h
    obtain ⟨-, -, -, -, -, -, h8⟩ := h
    simp at h8
    subst h8
    simp [held]
  · intro b h
    simp only [uvm_va_space_down_read_rm, run, exec_mutex_lock, exec_down_read,
      ite_bind_eq_some] at h
    obtain ⟨-, h2, h8⟩ := h
    simp at h8 h2
    subst h8
    simp [held, h2, hrawr, hcount]
  · intro c h
    simp only [uvm_va_space_down_write, uvm_va_space_downgrade_write, List.cons_append,
      List.nil_append, run, exec_mutex_lock, exec_down_write, exec_downgrade_write,
      exec_mutex_unlock_out_of_order, ite_bind_eq_some] at h
    obtain ⟨-, -, -, -, -, -, h8⟩ := h
    simp at h8
    subst h8
    simp [held]
  · intro d h
    simp only [uvm_va_space_down_read, run, exec_mutex_lock, exec_down_read,
      exec_mutex_unlock_out_of_order, ite_bind_eq_some] at h
    obtain ⟨-, h2, -, h8⟩ := h
    simp at h8 h2
    subst h8
    simp [held, h2, hsw, hcount]
  · intro hfree
    obtain ⟨h1, h2, h3⟩ := hfree
    refine ⟨⟨MutexField.serialize_writers_lock.set
          (vs.set_lock { writer := none, readers := [t] }) { owner := some t }, ?_, ?_⟩,
      ⟨vs.set_lock { writer := none, readers := [t] }, ?_, ?_⟩⟩ <;>
    (cases vs
     simp only at h1 h2 h3
     subst h1 h2 h3
     simp [run, Stmt.exec, uvm_va_space_down_write, uvm_va_space_downgrade_write_rm,
       uvm_va_space_downgrade_write, uvm_va_space_down_read, uvm_va_space_down_read_rm,
       Uvm.uvm_mutex_lock, Uvm.uvm_down_write, Uvm.uvm_assert_mutex_locked,
       Uvm.uvm_downgrade_write, Uvm.uvm_mutex_unlock_out_of_order, Uvm.uvm_down_read,
       MutexField.get, MutexField.set, uvm_va_space_t.set_lock])

/-! ## Memory computations -/

theorem M.bind_apply {α β : Type} (x : M α) (f : α → M β) (mem : Memory) :
    (x >>= f) mem = match x mem with
      | .ok (a, mem') => f a mem'
      | .error e => .error e := rfl

theorem M.pure_apply {α : Type} (a : α) (mem : Memory) : (pure a : M α) mem = .ok (a, mem) := rfl

theorem load_gpu_va_space_ok (mem : Memory) (p : Ptr) (o : uvm_gpu_va_space_t) (hp : p ≠ NULL)
    (h : mem.gpu_va_spaces p = some o) : load_gpu_va_space p mem = .ok (o, mem) := by
  simp [load_gpu_va_space, deref, hp, h]

theorem load_gpu_ok (mem : Memory) (p : Ptr) (o : uvm_gpu_t) (hp : p ≠ NULL)
    (h : mem.gpus p = some o) : load_gpu p mem = .ok (o, mem) := by
  simp [load_gpu, deref, hp, h]

theorem load_va_space_ok (mem : Memory) (p : Ptr) (o : uvm_va_space_t) (hp : p ≠ NULL)
    (h : mem.va_spaces p = some o) : load_va_space p mem = .ok (o, mem) := by
  simp [load_va_space, deref, hp, h]

theorem uvm_gpu_va_space_state_eq (mem : Memory) (p : Ptr) (o : uvm_gpu_va_space_t)
    (hp : p ≠ NULL) (h : mem.gpu_va_spaces p = some o) :
    uvm_gpu_va_space_state p mem =
      if o.gpu = NULL then .error .assertion
      else if o.state = UVM_GPU_VA_SPACE_STATE_INIT then
        (if o.va_space = NULL then .ok (o.state, mem) else .error .assertion)
      else if o.state = UVM_GPU_VA_SPACE_STATE_ACTIVE ∨ o.state = UVM_GPU_VA_SPACE_STATE_DEAD then
        (if o.va_space = NULL then .error .assertion else .ok (o.state, mem))
      else .error .assertion := by
  simp only [uvm_gpu_va_space_state, M.bind_apply, load_gpu_va_space_ok mem p o hp h, UVM_ASSERT]
  by_cases hg : o.gpu = NULL
  · simp [hg]
  · by_cases h0 : o.state = UVM_GPU_VA_SPACE_STATE_INIT
    · by_cases hv : o.va_space = NULL <;>
        simp [hg, h0, hv, M.bind_apply, load_gpu_va_space_ok mem p o hp h, UVM_ASSERT, M.pure_apply]
    · by_cases h1 : o.state = UVM_GPU_VA_SPACE_STATE_ACTIVE ∨ o.state = UVM_GPU_VA_SPACE_STATE_DEAD
      · by_cases hv : o.va_space = NULL <;>
          simp [hg, h0, h1, hv, M.bind_apply, load_gpu_va_space_ok mem p o hp h, UVM_ASSERT,
            M.pure_apply]
      · simp [hg, h0, h1, M.bind_apply, load_gpu_va_space_ok mem p o hp h, UVM_ASSERT]


/-- Claim C7. For an object in state ACTIVE or DEAD the assertions of
`uvm_gpu_va_space_state` pass exactly when both back-pointers (`va_space` and
`gpu`) are non-null, and when they pass the function returns the stored state
and leaves memory, hence the object, as it was. -/
theorem state_accessor_active_dead_requires_back_pointers (mem : Memory) (p : Ptr)
    (o : uvm_gpu_va_space_t) (hp : p ≠ NULL) (h : mem.gpu_va_spaces p = some o)
    (hs : o.state = UVM_GPU_VA_SPACE_STATE_ACTIVE ∨ o.state = UVM_GPU_VA_SPACE_STATE_DEAD) :
    ((∃ r, uvm_gpu_va_space_state p mem = .ok r) ↔ (o.va_space ≠ NULL ∧ o.gpu ≠ NULL)) ∧
    (∀ r, uvm_gpu_va_space_state p mem = .ok r → r = (o.state, mem)) := by
  rw [uvm_gpu_va_space_state_eq mem p o hp h]
  have h0 : o.state ≠ UVM_GPU_VA_SPACE_STATE_INIT := by
    rcases hs with hs | hs <;> simp [hs]
  by_cases hg : o.gpu = NULL <;> by_cases hv : o.va_space = NULL <;> simp [hg, hv, h0, hs]

/-- Claim C8 as stated fails: the object at address 10 of the example memory
is in state INIT with its GPU back-pointer set and its VA space back-pointer
null; every assertion of `uvm_gpu_va_space_state` passes on it, although one
of its two back-references is present. -/
theorem state_accessor_init_both_absent_fails :
    example_memory.gpu_va_spaces 10 = some example_init ∧
    example_init.state = UVM_GPU_VA_SPACE_STATE_INIT ∧
    uvm_gpu_va_space_state 10 example_memory =
      .ok (UVM_GPU_VA_SPACE_STATE_INIT, example_memory) ∧
    ¬ (example_init.va_space = NULL ∧ example_init.gpu = NULL) := by
  refine ⟨rfl, rfl, ?_, by decide⟩
  rw [uvm_gpu_va_space_state_eq example_memory 10 example_init (by decide) rfl]
  simp [example_init]

/-- Claim C8, amended. For an object in state INIT the assertions of
`uvm_gpu_va_space_state` pass exactly when the VA space back-pointer is null
and the GPU back-pointer is set; the function then returns INIT and leaves
memory as it was. -/
theorem state_accessor_init_requires_gpu_and_no_va_space (mem : Memory) (p : Ptr)
    (o : uvm_gpu_va_space_t) (hp : p ≠ NULL) (h : mem.gpu_va_spaces p = some o)
    (hs : o.state = UVM_GPU_VA_SPACE_STATE_INIT) :
    ((∃ r, uvm_gpu_va_space_state p mem = .ok r) ↔ (o.va_space = NULL ∧ o.gpu ≠ NULL)) ∧
    (∀ r, uvm_gpu_va_space_state p mem = .ok r → r = (UVM_GPU_VA_SPACE_STATE_INIT, mem)) := by
  rw [uvm_gpu_va_space_state_eq mem p o hp h]
  by_cases hg : o.gpu = NULL <;> by_cases hv : o.va_space = NULL <;> simp [hg, hv, hs]


/-- Claim C9. `uvm_gpu_va_space_retain` on a valid object succeeds; afterwards
the object is the old one with `kref` one higher: state, both back-pointers
and every other field are unchanged, and so is everything else in memory. -/
theorem retain_only_increments_kref (mem : Memory) (p : Ptr) (o : uvm_gpu_va_space_t)
    (hp : p ≠ NULL) (h : mem.gpu_va_spaces p = some o) :
    ∃ mem' o', uvm_gpu_va_space_retain p mem = .ok ((), mem') ∧
      mem'.gpu_va_spaces p = some o' ∧
      o'.kref = o.kref + 1 ∧ o'.state = o.state ∧ o'.va_space = o.va_space ∧ o'.gpu = o.gpu ∧
      o' = { o with kref := o.kref + 1 } ∧
      (∀ q, q ≠ p → mem'.gpu_va_spaces q = mem.gpu_va_spaces q) ∧
      mem'.gpus = mem.gpus ∧ mem'.va_spaces = mem.va_spaces := by
  refine ⟨{ mem with gpu_va_spaces :=
      Function.update mem.gpu_va_spaces p (some { o with kref := o.kref + 1 }) },
    { o with kref := o.kref + 1 }, ?_, ?_⟩
  · simp [uvm_gpu_va_space_retain, M.bind_apply, load_gpu_va_space_ok mem p o hp h,
      store_gpu_va_space, deref, hp, h, nv_kref_get]
  · simp
    intro q hq
    simp [Function.update, hq]

/-- Claim C10. On a valid VA space `uvm_va_space_initialized` returns `NV_OK`
exactly when the `initialized` flag is non-zero and `NV_ERR_ILLEGAL_ACTION`
otherwise, whatever the state of the three locks, and leaves memory as it
was. -/
theorem initialized_status (mem : Memory) (p : Ptr) (vs : uvm_va_space_t)
    (hp : p ≠ NULL) (h : mem.va_spaces p = some vs) :
    ∃ status, uvm_va_space_initialized p mem = .ok (status, mem) ∧
      (status = .NV_OK ↔ vs.initialized ≠ 0) ∧
      (status = .NV_ERR_ILLEGAL_ACTION ↔ vs.initialized = 0) := by
  by_cases hi : vs.initialized = 0
  · exact ⟨.NV_ERR_ILLEGAL_ACTION, by
      simp [uvm_va_space_initialized, M.bind_apply, load_va_space_ok mem p vs hp h,
        atomic_read_acquire, hi, M.pure_apply], by simp [hi], by simp [hi]⟩
  · exact ⟨.NV_OK, by
      simp [uvm_va_space_initialized, M.bind_apply, load_va_space_ok mem p vs hp h,
        atomic_read_acquire, hi, M.pure_apply], by simp [hi], by simp [hi]⟩


theorem get_not_locked (t : Tid) (mem : Memory) (va : Ptr) (vs : uvm_va_space_t) (gpu : Ptr)
    (hva : va ≠ NULL) (hvs : mem.va_spaces va = some vs)
    (hlock : uvm_assert_rwsem_locked t vs.lock = false) :
    uvm_gpu_va_space_get t va gpu mem = .error .assertion := by
  simp [uvm_gpu_va_space_get, M.bind_apply, load_va_space_ok mem va vs hva hvs, UVM_ASSERT, hlock]

theorem get_null_gpu (t : Tid) (mem : Memory) (va : Ptr) (vs : uvm_va_space_t)
    (hva : va ≠ NULL) (hvs : mem.va_spaces va = some vs)
    (hlock : uvm_assert_rwsem_locked t vs.lock = true) :
    uvm_gpu_va_space_get t va NULL mem = .ok (NULL, mem) := by
  simp [uvm_gpu_va_space_get, M.bind_apply, load_va_space_ok mem va vs hva hvs, UVM_ASSERT, hlock,
    M.pure_apply]

theorem get_not_registered (t : Tid) (mem : Memory) (va : Ptr) (vs : uvm_va_space_t) (gpu : Ptr)
    (g : uvm_gpu_t) (hva : va ≠ NULL) (hvs : mem.va_spaces va = some vs)
    (hlock : uvm_assert_rwsem_locked t vs.lock = true)
    (hg : gpu ≠ NULL) (hgo : mem.gpus gpu = some g)
    (ht : uvm_processor_mask_test vs.registered_gpu_va_spaces g.id = false) :
    uvm_gpu_va_space_get t va gpu mem = .ok (NULL, mem) := by
  simp [uvm_gpu_va_space_get, M.bind_apply, load_va_space_ok mem va vs hva hvs, UVM_ASSERT, hlock,
    M.pure_apply, hg, load_gpu_ok mem gpu g hg hgo, ht]

theorem get_registered (t : Tid) (mem : Memory) (va : Ptr) (vs : uvm_va_space_t) (gpu : Ptr)
    (g : uvm_gpu_t) (hva : va ≠ NULL) (hvs : mem.va_spaces va = some vs)
    (hlock : uvm_assert_rwsem_locked t vs.lock = true)
    (hg : gpu ≠ NULL) (hgo : mem.gpus gpu = some g)
    (ht : uvm_processor_mask_test vs.registered_gpu_va_spaces g.id = true) :
    uvm_gpu_va_space_get t va gpu mem =
      match uvm_id_gpu_index g.id with
      | .error e => .error e
      | .ok idx =>
        match vs.gpu_va_spaces[idx]? with
        | none => .error .bad_pointer
        | some e =>
          match deref mem.gpu_va_spaces e with
          | .error x => .error x
          | .ok o =>
            if o.state = UVM_GPU_VA_SPACE_STATE_ACTIVE ∧ o.va_space = va ∧ o.gpu = gpu then
              .ok (e, mem)
            else .error .assertion := by
  simp only [uvm_gpu_va_space_get, M.bind_apply, load_va_space_ok mem va vs hva hvs, UVM_ASSERT,
    hlock, M.pure_apply, hg, load_gpu_ok mem gpu g hg hgo, ht, M.lift, array_get,
    if_true, if_false, Bool.not_true, Bool.false_eq_true]
  cases hidx : uvm_id_gpu_index g.id with
  | error e => simp
  | ok idx =>
    simp only
    cases hent : vs.gpu_va_spaces[idx]? with
    | none => simp
    | some e =>
      simp only
      by_cases he : e = NULL
      · subst he
        simp [uvm_gpu_va_space_state, M.bind_apply, load_gpu_va_space, deref]
      · cases hobj : mem.gpu_va_spaces e with
        | none => simp [uvm_gpu_va_space_state, M.bind_apply, load_gpu_va_space, deref, he, hobj]
        | some o =>
          have hd : deref mem.gpu_va_spaces e = .ok o := by simp [deref, he, hobj]
          rw [uvm_gpu_va_space_state_eq mem e o he hobj, hd]
          simp only [load_gpu_va_space_ok mem e o he hobj]
          have hg' : ¬ NULL = gpu := fun h => hg h.symm
          have hva' : ¬ NULL = va := fun h => hva h.symm
          by_cases h1 : o.gpu = NULL
          · simp [h1, hg']
          · by_cases h2 : o.state = UVM_GPU_VA_SPACE_STATE_ACTIVE
            · by_cases h3 : o.va_space = NULL
              · simp [h1, h2, h3, hva']
              · by_cases h4 : o.va_space = va <;> by_cases h5 : o.gpu = gpu <;>
                  simp [h1, h2, h3, h4, h5, hva, hg, load_gpu_va_space_ok mem e o he hobj]
            · by_cases h6 : o.state = UVM_GPU_VA_SPACE_STATE_INIT
              · by_cases h3 : o.va_space = NULL <;> simp [h1, h2, h3, h6]
              · by_cases h7 : o.state = UVM_GPU_VA_SPACE_STATE_DEAD
                · by_cases h3 : o.va_space = NULL <;> simp [h1, h2, h3, h6, h7]
                · simp [h1, h2, h6, h7]


theorem testBit_two (n : Nat) (h : Nat.testBit 2 n = true) : n = 1 := by
  rcases n with _ | _ | n
  · simp at h
  · rfl
  · exfalso
    have h2 : (2 : Nat) < 2 ^ (n + 2) := by
      calc (2 : Nat) < 2 ^ 2 := by norm_num
        _ ≤ 2 ^ (n + 2) := Nat.pow_le_pow_right (by norm_num) (by omega)
    rw [Nat.testBit_lt_two_pow h2] at h
    simp at h

theorem example_entries_active (va : Ptr) (e : Ptr) (vs : uvm_va_space_t)
    (hm : vs.registered_gpu_va_spaces = { bitmap := 2 }) (hv : vs.gpu_va_spaces = [e])
    (he : e ≠ NULL) (ho : example_memory.gpu_va_spaces e = some (example_active va)) :
    entries_active example_memory va vs := by
  intro id hid
  have h1 : id = 1 := testBit_two id (by simpa [uvm_processor_mask_test, hm] using hid)
  subst h1
  refine ⟨0, e, example_active va, by simp [uvm_id_gpu_index], by simp [hv], he, ho, rfl, rfl, ?_⟩
  intro gpu g _ hgo _
  simp only [example_memory] at hgo
  split at hgo
  · rename_i h4
    simp [example_active, h4]
  · simp at hgo

/-- Claim C5 as stated fails: the VA space at address 3 of the example memory
has every registered id backed by an ACTIVE entry with matching back-pointers,
yet `uvm_gpu_va_space_get` on its registered GPU trips the lock assertion,
because nobody holds the VA space lock. -/
theorem gpu_va_space_get_trips_without_lock :
    entries_active example_memory 3 example_va_space_unlocked ∧
    example_memory.va_spaces 3 = some example_va_space_unlocked ∧
    gpu_pointer_ok example_memory 4 ∧
    uvm_gpu_va_space_get 7 3 4 example_memory = .error .assertion :=
  ⟨example_entries_active 3 9 _ rfl rfl (by decide) rfl, rfl, Or.inr ⟨_, rfl⟩,
    get_not_locked 7 example_memory 3 example_va_space_unlocked 4 (by decide) rfl rfl⟩

theorem get_ok_of_entries_active (t : Tid) (mem : Memory) (va : Ptr)
    (vs : uvm_va_space_t) (gpu : Ptr) (hva : va ≠ NULL) (hvs : mem.va_spaces va = some vs)
    (hlock : uvm_assert_rwsem_locked t vs.lock = true) (hact : entries_active mem va vs)
    (hgpu : gpu_pointer_ok mem gpu) :
    ∃ r, uvm_gpu_va_space_get t va gpu mem = .ok (r, mem) ∧
      (r ≠ NULL → ∃ o, mem.gpu_va_spaces r = some o ∧
        o.state = UVM_GPU_VA_SPACE_STATE_ACTIVE ∧ o.state ≠ UVM_GPU_VA_SPACE_STATE_INIT ∧
        o.state ≠ UVM_GPU_VA_SPACE_STATE_DEAD ∧ o.gpu = gpu ∧ o.va_space = va) := by
  by_cases hg : gpu = NULL
  · subst hg
    exact ⟨NULL, get_null_gpu t mem va vs hva hvs hlock, fun h => absurd rfl h⟩
  · rcases hgpu with h | ⟨g, hgo⟩
    · exact absurd h hg
    · cases ht : uvm_processor_mask_test vs.registered_gpu_va_spaces g.id with
      | false =>
        exact ⟨NULL, get_not_registered t mem va vs gpu g hva hvs hlock hg hgo ht,
          fun h => absurd rfl h⟩
      | true =>
        obtain ⟨idx, e, o, hidx, hent, he, hobj, hst, hov, hog⟩ := hact g.id ht
        have hgpu' : o.gpu = gpu := hog gpu g hg hgo rfl
        refine ⟨e, ?_, fun _ => ⟨o, hobj, hst, by simp [hst], by simp [hst], hgpu', hov⟩⟩
        rw [get_registered t mem va vs gpu g hva hvs hlock hg hgo ht, hidx]
        simp [hent, deref, he, hobj, hst, hov, hgpu']

/-- Claim C5, amended. In a VA space whose main lock the calling thread holds
(in either mode) and in which every id set in `registered_gpu_va_spaces` has a
non-null ACTIVE entry with back-pointers equal to that GPU and this VA space,
`uvm_gpu_va_space_get` trips no assertion for any GPU pointer that is `NULL` or
valid, leaves memory as it was, and every non-null result is an object in
state ACTIVE (not INIT, not DEAD) whose `gpu` is the argument and whose
`va_space` is this VA space. -/
theorem gpu_va_space_get_returns_active (t : Tid) (mem : Memory) (va : Ptr)
    (vs : uvm_va_space_t) (gpu : Ptr) (hva : va ≠ NULL) (hvs : mem.va_spaces va = some vs)
    (hlock : uvm_assert_rwsem_locked t vs.lock = true) (hact : entries_active mem va vs)
    (hgpu : gpu_pointer_ok mem gpu) :
    ∃ r, uvm_gpu_va_space_get t va gpu mem = .ok (r, mem) ∧
      (r ≠ NULL → ∃ o, mem.gpu_va_spaces r = some o ∧
        o.state = UVM_GPU_VA_SPACE_STATE_ACTIVE ∧ o.state ≠ UVM_GPU_VA_SPACE_STATE_INIT ∧
        o.state ≠ UVM_GPU_VA_SPACE_STATE_DEAD ∧ o.gpu = gpu ∧ o.va_space = va) :=
  get_ok_of_entries_active t mem va vs gpu hva hvs hlock hact hgpu

/-- Claim C6. On a valid VA space and a GPU pointer that is `NULL` or valid,
whenever `uvm_gpu_va_space_get` returns, memory is unchanged, the result is
`NULL` exactly when `gpu` is `NULL` or `gpu->id` is not set in
`registered_gpu_va_spaces`, and otherwise the result is the array entry
`gpu_va_spaces[uvm_id_gpu_index(gpu->id)]`. With the lock held it does return:
`NULL` in the first case, and in the second whenever the registered entries
are ACTIVE with matching back-pointers. -/
theorem gpu_va_space_get_null_iff_not_registered (t : Tid) (mem : Memory) (va : Ptr)
    (vs : uvm_va_space_t) (gpu : Ptr) (hva : va ≠ NULL) (hvs : mem.va_spaces va = some vs)
    (hgpu : gpu_pointer_ok mem gpu) :
    (∀ r mem', uvm_gpu_va_space_get t va gpu mem = .ok (r, mem') →
      mem' = mem ∧
      (r = NULL ↔ (gpu = NULL ∨ ∀ g, mem.gpus gpu = some g →
        uvm_processor_mask_test vs.registered_gpu_va_spaces g.id = false)) ∧
      (∀ g, gpu ≠ NULL → mem.gpus gpu = some g →
        uvm_processor_mask_test vs.registered_gpu_va_spaces g.id = true →
        ∃ idx, uvm_id_gpu_index g.id = .ok idx ∧ vs.gpu_va_spaces[idx]? = some r)) ∧
    (uvm_assert_rwsem_locked t vs.lock = true →
      (gpu = NULL ∨ ∀ g, mem.gpus gpu = some g →
        uvm_processor_mask_test vs.registered_gpu_va_spaces g.id = false) →
      uvm_gpu_va_space_get t va gpu mem = .ok (NULL, mem)) ∧
    (uvm_assert_rwsem_locked t vs.lock = true → entries_active mem va vs →
      ∃ r, uvm_gpu_va_space_get t va gpu mem = .ok (r, mem)) := by
  refine ⟨?_, ?_, ?_⟩
  · intro r mem' hr
    cases hlock : uvm_assert_rwsem_locked t vs.lock with
    | false => simp [get_not_locked t mem va vs gpu hva hvs hlock] at hr
    | true =>
      by_cases hg : gpu = NULL
      · subst hg
        rw [get_null_gpu t mem va vs hva hvs hlock] at hr
        simp at hr
        simp [hr.1, hr.2]
      · rcases hgpu with h | ⟨g, hgo⟩
        · exact absurd h hg
        · cases ht : uvm_processor_mask_test vs.registered_gpu_va_spaces g.id with
          | false =>
            rw [get_not_registered t mem va vs gpu g hva hvs hlock hg hgo ht] at hr
            simp at hr
            simp [← hr.1, ← hr.2, hgo, ht]
          | true =>
            rw [get_registered t mem va vs gpu g hva hvs hlock hg hgo ht] at hr
            cases hidx : uvm_id_gpu_index g.id with
            | error x => simp [hidx] at hr
            | ok idx =>
              cases hent : vs.gpu_va_spaces[idx]? with
              | none => simp [hidx, hent] at hr
              | some e =>
                by_cases he : e = NULL
                · simp [hidx, hent, deref, he] at hr
                · cases hobj : mem.gpu_va_spaces e with
                  | none => simp [hidx, hent, deref, he, hobj] at hr
                  | some o =>
                    simp only [hidx, hent, deref, he, hobj, if_false] at hr
                    split at hr
                    · simp only [Except.ok.injEq, Prod.mk.injEq] at hr
                      obtain ⟨h1, h2⟩ := hr
                      subst h1 h2
                      refine ⟨rfl, ?_, ?_⟩
                      · simp [he, hg, hgo, ht]
                      · intro g' _ hg' _
                        rw [hgo] at hg'
                        cases hg'
                        exact ⟨idx, hidx, hent⟩
                    · simp at hr
  · intro hlock hcase
    by_cases hg : gpu = NULL
    · subst hg
      exact get_null_gpu t mem va vs hva hvs hlock
    · rcases hgpu with h | ⟨g, hgo⟩
      · exact absurd h hg
      · rcases hcase with h | h
        · exact absurd h hg
        · exact get_not_registered t mem va vs gpu g hva hvs hlock hg hgo (h g hgo)
  · intro hlock hact
    obtain ⟨r, hr, -⟩ := get_ok_of_entries_active t mem va vs gpu hva hvs hlock hact hgpu
    exact ⟨r, hr⟩

/-! ## The invariant is preserved -/

theorem exec_some_cases (t : Tid) (st : Stmt) (vs vs' : uvm_va_space_t)
    (h : st.exec t vs = some vs') :
    (vs'.lock = vs.lock ∧
      ((vs'.serialize_writers_lock = vs.serialize_writers_lock) ∨
        (vs.serialize_writers_lock.owner = none ∧ vs'.serialize_writers_lock.owner = some t) ∨
        (vs.serialize_writers_lock.owner = some t ∧ vs'.serialize_writers_lock.owner = none ∧
          (st = .uvm_mutex_unlock .serialize_writers_lock ∨
            st = .uvm_mutex_unlock_out_of_order .serialize_writers_lock)))) ∨
    (vs'.serialize_writers_lock = vs.serialize_writers_lock ∧
      ((st = .uvm_down_write ∧ vs.lock.writer = none ∧ vs.lock.readers = [] ∧
          vs'.lock = { writer := some t, readers := [] }) ∨
        (vs.lock.writer = some t ∧ vs'.lock = { writer := none, readers := vs.lock.readers }) ∨
        (vs.lock.writer = some t ∧
          vs'.lock = { writer := none, readers := t :: vs.lock.readers }) ∨
        (vs.lock.writer = none ∧
          vs'.lock = { writer := none, readers := t :: vs.lock.readers }) ∨
        (t ∈ vs.lock.readers ∧
          vs'.lock = { writer := vs.lock.writer, readers := vs.lock.readers.erase t }))) := by
  cases st with
  | uvm_mutex_lock f =>
    rw [exec_mutex_lock] at h
    split at h
    · rename_i hc
      cases h
      cases f <;> simp_all
    · simp at h
  | uvm_mutex_unlock f =>
    rw [exec_mutex_unlock] at h
    split at h
    · rename_i hc
      cases h
      cases f <;> simp_all
    · simp at h
  | uvm_mutex_unlock_out_of_order f =>
    rw [exec_mutex_unlock_out_of_order] at h
    split at h
    · rename_i hc
      cases h
      cases f <;> simp_all
    · simp at h
  | uvm_assert_mutex_locked f =>
    rw [exec_assert_mutex_locked] at h
    split at h
    · cases h
      simp
    · simp at h
  | uvm_down_write =>
    rw [exec_down_write] at h
    split at h
    · rename_i hc
      cases h
      simp [hc.1, hc.2]
    · simp at h
  | uvm_up_write =>
    rw [exec_up_write] at h
    split at h
    · rename_i hc
      cases h
      simp [hc]
    · simp at h
  | uvm_downgrade_write =>
    rw [exec_downgrade_write] at h
    split at h
    · rename_i hc
      cases h
      simp [hc]
    · simp at h
  | uvm_down_read =>
    rw [exec_down_read] at h
    split at h
    · rename_i hc
      cases h
      simp [hc]
    · simp at h
  | uvm_up_read =>
    rw [exec_up_read] at h
    split at h
    · rename_i hc
      cases h
      simp [hc]
    · simp at h

theorem frame_other_thread (t u : Tid) (st : Stmt) (vs vs' : uvm_va_space_t) (r : Owes)
    (hne : u ≠ t) (h : st.exec t vs = some vs') (hr : r.sat u vs) : r.sat u vs' := by
  obtain ⟨h1, h2, h3, h4⟩ := hr
  have hne' : ¬ t = u := fun h => hne h.symm
  rcases exec_some_cases t st vs vs' h with ⟨hl, hsw⟩ | ⟨hsw, hl⟩
  · refine ⟨?_, by rwa [hl], by rwa [hl], by rwa [hl]⟩
    intro hb
    have := h1 hb
    rcases hsw with hsw | ⟨hsw, -⟩ | ⟨hsw, -⟩
    · rwa [hsw]
    · simp [hsw] at this
    · simp [hsw, hne'] at this
  · refine ⟨by rwa [hsw], ?_, ?_, ?_⟩
    · intro hb
      have := h2 hb
      rcases hl with ⟨-, -, hl, -⟩ | ⟨-, hl⟩ | ⟨-, hl⟩ | ⟨-, hl⟩ | ⟨-, hl⟩
      · simp [hl] at this
      · simpa [hl] using this
      · simp [hl, this]
      · simp [hl, this]
      · simp only [hl]
        exact (List.mem_erase_of_ne hne).mpr this
    · intro hb
      have := h3 hb
      rcases hl with ⟨-, hl, -⟩ | ⟨hl, -⟩ | ⟨hl, -⟩ | ⟨hl, -⟩ | ⟨-, hl⟩
      · simp [hl] at this
      · simp [hl, hne'] at this
      · simp [hl, hne'] at this
      · simp [hl] at this
      · simpa [hl] using this
    · intro hb
      have := h4 hb
      rcases hl with ⟨-, -, -, hl⟩ | ⟨-, hl⟩ | ⟨-, hl⟩ | ⟨-, hl⟩ | ⟨-, hl⟩
      · simp [hl, hne']
      · simp [hl]
      · simp [hl]
      · simp [hl]
      · simpa [hl] using this

theorem writer_excludes_readers_step (t : Tid) (st : Stmt) (vs vs' : uvm_va_space_t)
    (h : st.exec t vs = some vs') (hg : writer_excludes_readers vs) :
    writer_excludes_readers vs' := by
  intro x hx
  rcases exec_some_cases t st vs vs' h with ⟨hl, -⟩ | ⟨-, hl⟩
  · rw [hl] at hx ⊢
    exact hg x hx
  · rcases hl with ⟨-, -, -, hl⟩ | ⟨-, hl⟩ | ⟨-, hl⟩ | ⟨-, hl⟩ | ⟨hm, hl⟩
    · simp [hl]
    · simp [hl] at hx
    · simp [hl] at hx
    · simp [hl] at hx
    · simp only [hl] at hx ⊢
      have := hg x hx
      simp [this] at hm

theorem writer_owns_serialize_step (t : Tid) (st : Stmt) (vs vs' : uvm_va_space_t)
    (h : st.exec t vs = some vs') (hg : writer_owns_serialize vs)
    (hdw : st = .uvm_down_write → vs.serialize_writers_lock.owner = some t)
    (hun : (st = .uvm_mutex_unlock .serialize_writers_lock ∨
        st = .uvm_mutex_unlock_out_of_order .serialize_writers_lock) →
      vs.lock.writer ≠ some t) :
    writer_owns_serialize vs' := by
  intro x hx
  rcases exec_some_cases t st vs vs' h with ⟨hl, hsw⟩ | ⟨hsw, hl⟩
  · rw [hl] at hx
    have hx' := hg x hx
    rcases hsw with hsw | ⟨hsw, -⟩ | ⟨hsw, -, hst⟩
    · rwa [hsw]
    · simp [hsw] at hx'
    · rw [hsw] at hx'
      cases hx'
      exact absurd hx (hun hst)
  · rw [hsw]
    rcases hl with ⟨hst, -, -, hl⟩ | ⟨-, hl⟩ | ⟨-, hl⟩ | ⟨-, hl⟩ | ⟨-, hl⟩
    · simp only [hl] at hx
      cases hx
      exact hdw hst
    · simp [hl] at hx
    · simp [hl] at hx
    · simp [hl] at hx
    · simp only [hl] at hx
      exact hg x hx

theorem own_step (t : Tid) (w : Wrapper) (k : Nat) (st : Stmt) (r : Owes)
    (vs vs' : uvm_va_space_t) (hst : w.body[k]? = some st)
    (hr : (Thread.inside w k).owes = some r) (hsat : r.sat t vs)
    (hg : writer_excludes_readers vs) (h : st.exec t vs = some vs') :
    (∃ r', (Thread.inside w (k + 1)).owes = some r' ∧ r'.sat t vs') ∧
    (st = .uvm_down_write → vs.serialize_writers_lock.owner = some t) ∧
    ((st = .uvm_mutex_unlock .serialize_writers_lock ∨
        st = .uvm_mutex_unlock_out_of_order .serialize_writers_lock) →
      vs.lock.writer ≠ some t) := by
  obtain ⟨h1, h2, h3, h4⟩ := hsat
  (cases w <;> rcases k with _ | _ | _ | k <;>
    simp [Wrapper.body, uvm_va_space_down_write, uvm_va_space_up_write,
      uvm_va_space_downgrade_write, uvm_va_space_downgrade_write_rm, uvm_va_space_down_read,
      uvm_va_space_down_read_rm, uvm_va_space_up_read, uvm_va_space_up_read_rm] at hst <;>
    subst hst <;>
    simp [Thread.owes] at hr <;>
    subst hr <;>
    simp [Thread.owes, Owes.sat] at h1 h2 h3 h4 ⊢ <;>
    simp [exec_mutex_lock, exec_mutex_unlock, exec_mutex_unlock_out_of_order,
      exec_assert_mutex_locked, exec_down_write, exec_up_write, exec_downgrade_write,
      exec_down_read, exec_up_read] at h <;>
    obtain ⟨hc, rfl⟩ := h <;>
    simp_all)
  intro hw
  have hnil := hg t hw
  simp [hnil] at hc

theorem ret_step (t : Tid) (w : Wrapper) (k : Nat) (r : Owes) (vs : uvm_va_space_t)
    (hk : k = w.body.length) (hr : (Thread.inside w k).owes = some r) (hsat : r.sat t vs) :
    ∃ r', (Thread.outside w.mode_after).owes = some r' ∧ r'.sat t vs := by
  obtain ⟨h1, h2, h3, h4⟩ := hsat
  subst hk
  cases w <;>
    simp [Wrapper.body, uvm_va_space_down_write, uvm_va_space_up_write,
      uvm_va_space_downgrade_write, uvm_va_space_downgrade_write_rm, uvm_va_space_down_read,
      uvm_va_space_down_read_rm, uvm_va_space_up_read, uvm_va_space_up_read_rm,
      Thread.owes] at hr <;>
    subst hr <;>
    simp [Thread.owes, Owes.sat, Wrapper.mode_after] at h1 h2 h3 h4 ⊢ <;>
    simp_all

theorem inv_initial (s : System) (h : s.initial) : Inv s := by
  obtain ⟨⟨hl, hsw, hrawr⟩, hth⟩ := h
  refine ⟨?_, ?_, ?_⟩
  · intro x hx
    simp [hl] at hx
  · intro x hx
    simp [hl] at hx
  · intro t
    exact ⟨{}, by simp [hth t, Thread.owes], by simp [Owes.sat]⟩

theorem inv_step (s s' : System) (t : Tid) (e : Event) (hinv : Inv s)
    (hs : s.fire t e = some s') : Inv s' := by
  obtain ⟨hg1, hg2, hth⟩ := hinv
  cases e with
  | call w =>
    cases hthr : s.threads t with
    | inside w' k => simp [System.fire, hthr] at hs
    | outside m =>
      simp only [System.fire, hthr, Option.some.injEq] at hs
      subst hs
      refine ⟨hg1, hg2, fun u => ?_⟩
      by_cases hu : u = t
      · subst hu
        refine ⟨{}, ?_, by simp [Owes.sat]⟩
        cases w <;> simp [Thread.owes]
      · simpa [Function.update, hu] using hth u
  | ret =>
    cases hthr : s.threads t with
    | outside m => simp [System.fire, hthr] at hs
    | inside w k =>
      simp only [System.fire, hthr] at hs
      split at hs
      · rename_i hk
        simp only [Option.some.injEq] at hs
        subst hs
        refine ⟨hg1, hg2, fun u => ?_⟩
        by_cases hu : u = t
        · subst hu
          obtain ⟨r, hr, hsat⟩ := hth u
          rw [hthr] at hr
          simpa [Function.update] using ret_step u w k r s.va_space hk hr hsat
        · simpa [Function.update, hu] using hth u
      · simp at hs
  | exec =>
    cases hthr : s.threads t with
    | outside m => simp [System.fire, hthr] at hs
    | inside w k =>
      simp only [System.fire, hthr] at hs
      cases hst : w.body[k]? with
      | none => simp [hst] at hs
      | some st =>
        simp only [hst] at hs
        cases hex : st.exec t s.va_space with
        | none => simp [hex] at hs
        | some vs' =>
          simp only [hex, Option.map_some', Option.some.injEq] at hs
          subst hs
          obtain ⟨r, hr, hsat⟩ := hth t
          rw [hthr] at hr
          obtain ⟨hnext, hdw, hun⟩ := own_step t w k st r s.va_space vs' hst hr hsat hg1 hex
          refine ⟨writer_excludes_readers_step t st _ _ hex hg1,
            writer_owns_serialize_step t st _ _ hex hg2 hdw hun, fun u => ?_⟩
          by_cases hu : u = t
          · subst hu
            simpa [Function.update] using hnext
          · obtain ⟨ru, hru, hsatu⟩ := hth u
            exact ⟨ru, by simpa [Function.update, hu] using hru,
              frame_other_thread t u st _ _ ru hu hex hsatu⟩

theorem inv_reachable (s : System) (h : Reachable s) : Inv s := by
  induction h with
  | init s h => exact inv_initial s h
  | step s s' t e _ hs ih => exact inv_step s s' t e ih hs

theorem reachable_replay (s : System) (h : Reachable s) (es : List (Tid × Event)) :
    Reachable (s.replay es) := by
  induction es generalizing s with
  | nil => exact h
  | cons te rest ih =>
    obtain ⟨t, e⟩ := te
    simp only [System.replay]
    cases hf : s.fire t e with
    | none => exact h
    | some s' => exact ih s' (Reachable.step s s' t e h hf)

theorem reachable_example_initial : Reachable example_initial :=
  Reachable.init _ ⟨⟨rfl, rfl, rfl⟩, fun _ => rfl⟩

/-! ## The lock protocol -/

/-- Claim C1. Whenever thread `t` completes `uvm_va_space_down_write` it holds
`serialize_writers_lock` from the first statement on, the main lock is still
untouched after the first two statements, and it ends as the writer still
holding `serialize_writers_lock`; likewise `uvm_va_space_down_read_rm` takes
`serialize_writers_lock` first, the shared acquisition second, and ends holding
both. From free locks both wrappers do complete. Hence in every reachable
state of threads that use only the wrappers, the thread holding the main lock
in exclusive mode owns `serialize_writers_lock`, and so does a thread in
exclusive mode or in shared-for-privileged-call mode. -/
theorem serialize_writers_held_with_main_lock (t : Tid) (vs : uvm_va_space_t)
    (hfree : locks_free vs) (s : System) (hs : Reachable s) :
    (∀ vs0 tr, run_trace t uvm_va_space_down_write vs0 = some tr →
      ∃ s1 s2 s3, tr = [s1, s2, s3] ∧
        s1.serialize_writers_lock.owner = some t ∧ s1.lock = vs0.lock ∧
        s2.serialize_writers_lock.owner = some t ∧ s2.lock = vs0.lock ∧
        s3.serialize_writers_lock.owner = some t ∧ s3.lock.writer = some t) ∧
    (∀ vs0 tr, run_trace t uvm_va_space_down_read_rm vs0 = some tr →
      ∃ s1 s2, tr = [s1, s2] ∧
        s1.serialize_writers_lock.owner = some t ∧ s1.lock = vs0.lock ∧
        s2.serialize_writers_lock.owner = some t ∧
        s2.lock.readers = t :: vs0.lock.readers) ∧
    (∃ tr, run_trace t uvm_va_space_down_write vs = some tr) ∧
    (∃ tr, run_trace t uvm_va_space_down_read_rm vs = some tr) ∧
    (s.va_space.lock.writer = some t → s.va_space.serialize_writers_lock.owner = some t) ∧
    (s.in_mode t .exclusive →
      s.va_space.lock.writer = some t ∧ s.va_space.serialize_writers_lock.owner = some t) ∧
    (s.in_mode t .shared_rm →
      t ∈ s.va_space.lock.readers ∧ s.va_space.serialize_writers_lock.owner = some t) := by
  obtain ⟨hg1, hg2, hth⟩ := inv_reachable s hs
  obtain ⟨hl, hsw, hrawr⟩ := hfree
  refine ⟨?_, ?_, ?_, ?_, hg2 t, ?_, ?_⟩
  · intro vs0 tr h
    simp only [uvm_va_space_down_write, run_trace, exec_mutex_lock, exec_down_write,
      ite_bind_map_eq_some] at h
    obtain ⟨-, _, ⟨-, _, ⟨-, _, h4, rfl⟩, rfl⟩, rfl⟩ := h
    simp at h4
    subst h4
    exact ⟨_, _, _, rfl, by simp⟩
  · intro vs0 tr h
    simp only [uvm_va_space_down_read_rm, run_trace, exec_mutex_lock, exec_down_read,
      ite_bind_map_eq_some] at h
    obtain ⟨-, _, ⟨-, _, h4, rfl⟩, rfl⟩ := h
    simp at h4
    subst h4
    exact ⟨_, _, rfl, by simp⟩
  · simp [uvm_va_space_down_write, run_trace, exec_mutex_lock, exec_down_write, hl, hsw, hrawr]
  · simp [uvm_va_space_down_read_rm, run_trace, exec_mutex_lock, exec_down_read, hl, hsw]
  · intro hm
    obtain ⟨r, hr, hsat⟩ := hth t
    rw [System.in_mode] at hm
    simp [hm, Thread.owes] at hr
    subst hr
    have hw := hsat.2.2.1 rfl
    exact ⟨hw, hg2 t hw⟩
  · intro hm
    obtain ⟨r, hr, hsat⟩ := hth t
    rw [System.in_mode] at hm
    simp [hm, Thread.owes] at hr
    subst hr
    exact ⟨hsat.2.1 rfl, hsat.1 rfl⟩

/-- Claim C4. In every state reachable by threads that use the VA space lock
only through the wrappers, for distinct threads `t` and `u`: if `t` is in
exclusive mode then `u` is in neither exclusive, shared nor
shared-for-privileged-call mode; `t` and `u` are not both in exclusive or
shared-for-privileged-call mode; and at every instant, also inside a wrapper,
if `t` holds the main lock in exclusive mode then `u` holds it in no mode. -/
theorem wrappers_mutual_exclusion (s : System) (hs : Reachable s) (t u : Tid) (hne : t ≠ u) :
    (s.in_mode t .exclusive →
      ¬ s.in_mode u .exclusive ∧ ¬ s.in_mode u .shared ∧ ¬ s.in_mode u .shared_rm) ∧
    ((s.in_mode t .exclusive ∨ s.in_mode t .shared_rm) →
      ¬ (s.in_mode u .exclusive ∨ s.in_mode u .shared_rm)) ∧
    (s.va_space.lock.writer = some t →
      s.va_space.lock.writer ≠ some u ∧ u ∉ s.va_space.lock.readers) := by
  obtain ⟨hg1, hg2, hth⟩ := inv_reachable s hs
  have hex : ∀ x, s.in_mode x .exclusive → s.va_space.lock.writer = some x := by
    intro x hm
    obtain ⟨r, hr, hsat⟩ := hth x
    rw [System.in_mode] at hm
    simp [hm, Thread.owes] at hr
    subst hr
    exact hsat.2.2.1 rfl
  have hsh : ∀ x, s.in_mode x .shared → x ∈ s.va_space.lock.readers := by
    intro x hm
    obtain ⟨r, hr, hsat⟩ := hth x
    rw [System.in_mode] at hm
    simp [hm, Thread.owes] at hr
    subst hr
    exact hsat.2.1 rfl
  have hrm : ∀ x, s.in_mode x .shared_rm →
      x ∈ s.va_space.lock.readers ∧ s.va_space.serialize_writers_lock.owner = some x := by
    intro x hm
    obtain ⟨r, hr, hsat⟩ := hth x
    rw [System.in_mode] at hm
    simp [hm, Thread.owes] at hr
    subst hr
    exact ⟨hsat.2.1 rfl, hsat.1 rfl⟩
  have hown : ∀ x, (s.in_mode x .exclusive ∨ s.in_mode x .shared_rm) →
      s.va_space.serialize_writers_lock.owner = some x := by
    intro x hx
    rcases hx with hx | hx
    · exact hg2 x (hex x hx)
    · exact (hrm x hx).2
  have hlock : s.va_space.lock.writer = some t →
      s.va_space.lock.writer ≠ some u ∧ u ∉ s.va_space.lock.readers := by
    intro hw
    refine ⟨?_, ?_⟩
    · rw [hw]
      intro h
      cases h
      exact hne rfl
    · simp [hg1 t hw]
  refine ⟨?_, ?_, hlock⟩
  · intro ht
    have hl := hlock (hex t ht)
    exact ⟨fun hu => hl.1 (hex u hu), fun hu => hl.2 (hsh u hu), fun hu => hl.2 (hrm u hu).1⟩
  · intro ht hu
    have h1 := hown t ht
    have h2 := hown u hu
    rw [h1] at h2
    cases h2
    exact hne rfl

/-! ## Acquire, then release -/

theorem held_after_down_write (t : Tid) (vs vs1 : uvm_va_space_t)
    (h : run t uvm_va_space_down_write vs = some vs1) : held t vs1 = ⟨true, 0, true, true⟩ := by
  simp only [uvm_va_space_down_write, run, exec_mutex_lock, exec_down_write,
    ite_bind_eq_some] at h
  obtain ⟨-, -, -, h8⟩ := h
  simp at h8
  subst h8
  simp [held]

theorem held_after_down_read (t : Tid) (vs vs1 : uvm_va_space_t) (hn : holds_nothing t vs)
    (h : run t uvm_va_space_down_read vs = some vs1) :
    held t vs1 = ⟨false, 1, false, false⟩ := by
  obtain ⟨hw, hr, hsw, hrawr⟩ := hn
  simp only [uvm_va_space_down_read, run, exec_mutex_lock, exec_down_read,
    exec_mutex_unlock_out_of_order, ite_bind_eq_some] at h
  obtain ⟨-, h2, -, h8⟩ := h
  simp at h8 h2
  subst h8
  simp [held, h2, hsw, List.count_eq_zero_of_not_mem hr]

theorem held_after_down_read_rm (t : Tid) (vs vs1 : uvm_va_space_t) (hn : holds_nothing t vs)
    (h : run t uvm_va_space_down_read_rm vs = some vs1) :
    held t vs1 = ⟨false, 1, true, false⟩ := by
  obtain ⟨hw, hr, hsw, hrawr⟩ := hn
  simp only [uvm_va_space_down_read_rm, run, exec_mutex_lock, exec_down_read,
    ite_bind_eq_some] at h
  obtain ⟨-, h2, h8⟩ := h
  simp at h8 h2
  subst h8
  simp [held, h2, hrawr, List.count_eq_zero_of_not_mem hr]

theorem held_after_downgrade_write (t : Tid) (vs vs1 : uvm_va_space_t)
    (h : run t (uvm_va_space_down_write ++ uvm_va_space_downgrade_write) vs = some vs1) :
    held t vs1 = ⟨false, 1, false, false⟩ := by
  simp only [uvm_va_space_down_write, uvm_va_space_downgrade_write, List.cons_append,
    List.nil_append, run, exec_mutex_lock, exec_down_write, exec_downgrade_write,
    exec_mutex_unlock_out_of_order, ite_bind_eq_some] at h
  obtain ⟨-, -, -, -, -, -, h8⟩ := h
  simp at h8
  subst h8
  simp [held]

theorem held_after_downgrade_write_rm (t : Tid) (vs vs1 : uvm_va_space_t)
    (h : run t (uvm_va_space_down_write ++ uvm_va_space_downgrade_write_rm) vs = some vs1) :
    held t vs1 = ⟨false, 1, true, false⟩ := by
  simp only [uvm_va_space_down_write, uvm_va_space_downgrade_write_rm, List.cons_append,
    List.nil_append, run, exec_mutex_lock, exec_down_write, exec_downgrade_write,
    exec_assert_mutex_locked, exec_mutex_unlock_out_of_order, ite_bind_eq_some] at h
  obtain ⟨-, -, -, -, -, -, h8⟩ := h
  simp at h8
  subst h8
  simp [held]

theorem count_erase_one (t : Tid) (rs : List Tid) (h : rs.count t = 1) :
    t ∈ rs ∧ (rs.erase t).count t = 0 := by
  have hm : t ∈ rs := List.count_pos_iff.mp (by omega)
  refine ⟨hm, ?_⟩
  rw [List.count_erase_self]
  omega

theorem up_write_frees (t : Tid) (vs2 : uvm_va_space_t)
    (h : held t vs2 = ⟨true, 0, true, true⟩) :
    ∃ vs3, run t uvm_va_space_up_write vs2 = some vs3 ∧ held t vs3 = ⟨false, 0, false, false⟩ := by
  simp [held] at h
  obtain ⟨h1, h2, h3, h4⟩ := h
  simp [uvm_va_space_up_write, run, exec_up_write, exec_mutex_unlock, h1, h3, h4, held]
  simpa using h2

theorem up_read_frees (t : Tid) (vs2 : uvm_va_space_t)
    (h : held t vs2 = ⟨false, 1, false, false⟩) :
    ∃ vs3, run t uvm_va_space_up_read vs2 = some vs3 ∧ held t vs3 = ⟨false, 0, false, false⟩ := by
  simp [held] at h
  obtain ⟨h1, h2, h3, h4⟩ := h
  obtain ⟨hm, hc⟩ := count_erase_one t _ h2
  simp [uvm_va_space_up_read, run, exec_up_read, hm, held, h1, h3, h4]
  simpa using hc

theorem up_read_rm_frees (t : Tid) (vs2 : uvm_va_space_t)
    (h : held t vs2 = ⟨false, 1, true, false⟩) :
    ∃ vs3, run t uvm_va_space_up_read_rm vs2 = some vs3 ∧
      held t vs3 = ⟨false, 0, false, false⟩ := by
  simp [held] at h
  obtain ⟨h1, h2, h3, h4⟩ := h
  obtain ⟨hm, hc⟩ := count_erase_one t _ h2
  simp [uvm_va_space_up_read_rm, run, exec_up_read, exec_mutex_unlock, hm, held, h1, h3, h4]
  simpa using hc

theorem run_append (t : Tid) (a b : List Stmt) (vs : uvm_va_space_t) :
    run t (a ++ b) vs = (run t a vs).bind (run t b) := by
  induction a generalizing vs with
  | nil => simp [run]
  | cons st rest ih =>
    simp only [List.cons_append, run]
    cases st.exec t vs with
    | none => simp
    | some v => simpa using ih v

theorem acquisitions_complete (t : Tid) (vs : uvm_va_space_t) (hfree : locks_free vs) :
    (∃ v, run t uvm_va_space_down_write vs = some v) ∧
    (∃ v, run t uvm_va_space_down_read vs = some v) ∧
    (∃ v, run t uvm_va_space_down_read_rm vs = some v) ∧
    (∃ v, run t (uvm_va_space_down_write ++ uvm_va_space_downgrade_write) vs = some v) ∧
    (∃ v, run t (uvm_va_space_down_write ++ uvm_va_space_downgrade_write_rm) vs = some v) := by
  obtain ⟨hl, hsw, hrawr⟩ := hfree
  refine ⟨?_, ?_, ?_, ?_, ?_⟩ <;>
  simp [uvm_va_space_down_write, uvm_va_space_down_read, uvm_va_space_down_read_rm,
    uvm_va_space_downgrade_write, uvm_va_space_downgrade_write_rm, run, exec_mutex_lock,
    exec_down_write, exec_down_read, exec_downgrade_write, exec_assert_mutex_locked,
    exec_mutex_unlock_out_of_order, hl, hsw, hrawr]

/-- Claim C17. Let thread `t` hold none of the three locks and complete an
acquisition: `uvm_va_space_down_write`, `uvm_va_space_down_read`,
`uvm_va_space_down_read_rm`, or `uvm_va_space_down_write` followed by
`uvm_va_space_downgrade_write` or by `uvm_va_space_downgrade_write_rm`. In any
later state in which the thread still holds what the acquisition left it, the
matching release (`uvm_va_space_up_write`, `uvm_va_space_up_read`,
`uvm_va_space_up_read_rm`, `uvm_va_space_up_read`, `uvm_va_space_up_read_rm`)
completes, and afterwards the thread holds neither the main lock nor
`serialize_writers_lock` nor `read_acquire_write_release_lock`. From free
locks all five acquisitions complete. -/
theorem matching_release_frees_all_locks (t : Tid) (vs : uvm_va_space_t)
    (hn : holds_nothing t vs) :
    (∀ vs1 vs2, run t uvm_va_space_down_write vs = some vs1 → held t vs2 = held t vs1 →
      ∃ vs3, run t uvm_va_space_up_write vs2 = some vs3 ∧
        held t vs3 = ⟨false, 0, false, false⟩) ∧
    (∀ vs1 vs2, run t uvm_va_space_down_read vs = some vs1 → held t vs2 = held t vs1 →
      ∃ vs3, run t uvm_va_space_up_read vs2 = some vs3 ∧
        held t vs3 = ⟨false, 0, false, false⟩) ∧
    (∀ vs1 vs2, run t uvm_va_space_down_read_rm vs = some vs1 → held t vs2 = held t vs1 →
      ∃ vs3, run t uvm_va_space_up_read_rm vs2 = some vs3 ∧
        held t vs3 = ⟨false, 0, false, false⟩) ∧
    (∀ vs1 vs2, run t (uvm_va_space_down_write ++ uvm_va_space_downgrade_write) vs = some vs1 →
      held t vs2 = held t vs1 →
      ∃ vs3, run t uvm_va_space_up_read vs2 = some vs3 ∧
        held t vs3 = ⟨false, 0, false, false⟩) ∧
    (∀ vs1 vs2,
      run t (uvm_va_space_down_write ++ uvm_va_space_downgrade_write_rm) vs = some vs1 →
      held t vs2 = held t vs1 →
      ∃ vs3, run t uvm_va_space_up_read_rm vs2 = some vs3 ∧
        held t vs3 = ⟨false, 0, false, false⟩) ∧
    (locks_free vs →
      (∃ v, run t (uvm_va_space_down_write ++ uvm_va_space_up_write) vs = some v ∧
        held t v = ⟨false, 0, false, false⟩) ∧
      (∃ v, run t (uvm_va_space_down_read ++ uvm_va_space_up_read) vs = some v ∧
        held t v = ⟨false, 0, false, false⟩) ∧
      (∃ v, run t (uvm_va_space_down_read_rm ++ uvm_va_space_up_read_rm) vs = some v ∧
        held t v = ⟨false, 0, false, false⟩) ∧
      (∃ v, run t ((uvm_va_space_down_write ++ uvm_va_space_downgrade_write) ++
          uvm_va_space_up_read) vs = some v ∧ held t v = ⟨false, 0, false, false⟩) ∧
      (∃ v, run t ((uvm_va_space_down_write ++ uvm_va_space_downgrade_write_rm) ++
          uvm_va_space_up_read_rm) vs = some v ∧ held t v = ⟨false, 0, false, false⟩)) := by
  have h1 : ∀ vs1 vs2, run t uvm_va_space_down_write vs = some vs1 → held t vs2 = held t vs1 →
      ∃ vs3, run t uvm_va_space_up_write vs2 = some vs3 ∧
        held t vs3 = ⟨false, 0, false, false⟩ := fun vs1 vs2 h he =>
    up_write_frees t vs2 (he.trans (held_after_down_write t vs vs1 h))
  have h2 : ∀ vs1 vs2, run t uvm_va_space_down_read vs = some vs1 → held t vs2 = held t vs1 →
      ∃ vs3, run t uvm_va_space_up_read vs2 = some vs3 ∧
        held t vs3 = ⟨false, 0, false, false⟩ := fun vs1 vs2 h he =>
    up_read_frees t vs2 (he.trans (held_after_down_read t vs vs1 hn h))
  have h3 : ∀ vs1 vs2, run t uvm_va_space_down_read_rm vs = some vs1 →
      held t vs2 = held t vs1 →
      ∃ vs3, run t uvm_va_space_up_read_rm vs2 = some vs3 ∧
        held t vs3 = ⟨false, 0, false, false⟩ := fun vs1 vs2 h he =>
    up_read_rm_frees t vs2 (he.trans (held_after_down_read_rm t vs vs1 hn h))
  have h4 : ∀ vs1 vs2,
      run t (uvm_va_space_down_write ++ uvm_va_space_downgrade_write) vs = some vs1 →
      held t vs2 = held t vs1 →
      ∃ vs3, run t uvm_va_space_up_read vs2 = some vs3 ∧
        held t vs3 = ⟨false, 0, false, false⟩ := fun vs1 vs2 h he =>
    up_read_frees t vs2 (he.trans (held_after_downgrade_write t vs vs1 h))
  have h5 : ∀ vs1 vs2,
      run t (uvm_va_space_down_write ++ uvm_va_space_downgrade_write_rm) vs = some vs1 →
      held t vs2 = held t vs1 →
      ∃ vs3, run t uvm_va_space_up_read_rm vs2 = some vs3 ∧
        held t vs3 = ⟨false, 0, false, false⟩ := fun vs1 vs2 h he =>
    up_read_rm_frees t vs2 (he.trans (held_after_downgrade_write_rm t vs vs1 h))
  refine ⟨h1, h2, h3, h4, h5, fun hfree => ?_⟩
  obtain ⟨⟨a, ha⟩, ⟨b, hb⟩, ⟨c, hc⟩, ⟨d, hd⟩, ⟨e, he⟩⟩ := acquisitions_complete t vs hfree
  refine ⟨?_, ?_, ?_, ?_, ?_⟩
  · obtain ⟨v, hv, hh⟩ := h1 a a ha rfl
    exact ⟨v, by simp [run_append, ha, hv], hh⟩
  · obtain ⟨v, hv, hh⟩ := h2 b b hb rfl
    exact ⟨v, by simp [run_append, hb, hv], hh⟩
  · obtain ⟨v, hv, hh⟩ := h3 c c hc rfl
    exact ⟨v, by simp [run_append, hc, hv], hh⟩
  · obtain ⟨v, hv, hh⟩ := h4 d d hd rfl
    exact ⟨v, by rw [run_append, hd]; simpa using hv, hh⟩
  · obtain ⟨v, hv, hh⟩ := h5 e e he rfl
    exact ⟨v, by rw [run_append, he]; simpa using hv, hh⟩

/-! ## Lock order -/

/-- Claim C19. Let thread `t` hold none of the three locks when it enters a
wrapper. Whenever a statement of the wrapper acquires a lock, the thread holds
at that point no lock that comes later in the order `serialize_writers_lock`,
`read_acquire_write_release_lock`, main lock; in particular it never acquires
a mutex while holding the main lock. `uvm_va_space_down_write` acquires the
three locks in that order and `uvm_va_space_up_write` releases them in exactly
the reverse order. -/
theorem wrappers_respect_lock_order (t : Tid) (vs : uvm_va_space_t) (hn : holds_nothing t vs) :
    (∀ (w : Wrapper) (k : Nat) (st : Stmt) (l : LockId) (vs1 : uvm_va_space_t),
      w.body[k]? = some st → st.acquires = some l → run t (w.body.take k) vs = some vs1 →
      ∀ l', l.order < l'.order → ¬ holds_lock t vs1 l') ∧
    uvm_va_space_down_write.filterMap Stmt.acquires =
      [.serialize_writers_lock, .read_acquire_write_release_lock, .lock] ∧
    uvm_va_space_up_write.filterMap Stmt.releases =
      (uvm_va_space_down_write.filterMap Stmt.acquires).reverse := by
  obtain ⟨hw, hr, hsw, hrawr⟩ := hn
  refine ⟨?_, by decide, by decide⟩
  intro w k st l vs1 hst hacq hrun l' hlt
  cases w <;> rcases k with _ | _ | _ | k <;>
    simp [Wrapper.body, uvm_va_space_down_write, uvm_va_space_up_write,
      uvm_va_space_downgrade_write, uvm_va_space_downgrade_write_rm, uvm_va_space_down_read,
      uvm_va_space_down_read_rm, uvm_va_space_up_read, uvm_va_space_up_read_rm] at hst hrun <;>
    subst hst <;>
    simp [Stmt.acquires, MutexField.lock_id] at hacq <;>
    subst hacq <;>
    cases l' <;>
    simp [LockId.order] at hlt <;>
    simp [run, exec_mutex_lock, exec_down_write, exec_down_read, ite_bind_eq_some] at hrun <;>
    simp [holds_lock, ← hrun, hw, hr, hrawr, hsw]

/-! ## Readers and the releasing writer -/

theorem exec_rawr_cases (t : Tid) (st : Stmt) (vs vs' : uvm_va_space_t)
    (h : st.exec t vs = some vs') :
    vs'.read_acquire_write_release_lock = vs.read_acquire_write_release_lock ∨
    (st = .uvm_mutex_lock .read_acquire_write_release_lock ∧
      vs.read_acquire_write_release_lock.owner = none ∧
      vs'.read_acquire_write_release_lock.owner = some t ∧ vs'.lock = vs.lock) ∨
    ((st = .uvm_mutex_unlock .read_acquire_write_release_lock ∨
        st = .uvm_mutex_unlock_out_of_order .read_acquire_write_release_lock) ∧
      vs.read_acquire_write_release_lock.owner = some t ∧
      vs'.read_acquire_write_release_lock.owner = none ∧ vs'.lock = vs.lock) := by
  cases st with
  | uvm_mutex_lock f =>
    rw [exec_mutex_lock] at h
    split at h
    · cases h
      cases f <;> simp_all
    · simp at h
  | uvm_mutex_unlock f =>
    rw [exec_mutex_unlock] at h
    split at h
    · cases h
      cases f <;> simp_all
    · simp at h
  | uvm_mutex_unlock_out_of_order f =>
    rw [exec_mutex_unlock_out_of_order] at h
    split at h
    · cases h
      cases f <;> simp_all
    · simp at h
  | uvm_assert_mutex_locked f =>
    rw [exec_assert_mutex_locked] at h
    split at h
    · cases h
      simp
    · simp at h
  | uvm_down_write =>
    rw [exec_down_write] at h
    split at h
    · cases h
      simp
    · simp at h
  | uvm_up_write =>
    rw [exec_up_write] at h
    split at h
    · cases h
      simp
    · simp at h
  | uvm_downgrade_write =>
    rw [exec_downgrade_write] at h
    split at h
    · cases h
      simp
    · simp at h
  | uvm_down_read =>
    rw [exec_down_read] at h
    split at h
    · cases h
      simp
    · simp at h
  | uvm_up_read =>
    rw [exec_up_read] at h
    split at h
    · cases h
      simp
    · simp at h

theorem own_step_rawr (t : Tid) (w : Wrapper) (k : Nat) (st : Stmt) (r : Owes)
    (vs vs' : uvm_va_space_t) (hst : w.body[k]? = some st)
    (hr : (Thread.inside w k).owes = some r) (hsat : r.sat t vs)
    (hrawr : (Thread.inside w k).holds_rawr = true →
      vs.read_acquire_write_release_lock.owner = some t)
    (hg : writer_excludes_readers vs) (h : st.exec t vs = some vs') :
    ((Thread.inside w (k + 1)).holds_rawr = true →
      vs'.read_acquire_write_release_lock.owner = some t) ∧
    (st = .uvm_down_write → vs.read_acquire_write_release_lock.owner = some t) ∧
    ((st = .uvm_mutex_unlock .read_acquire_write_release_lock ∨
        st = .uvm_mutex_unlock_out_of_order .read_acquire_write_release_lock) →
      vs.lock.writer ≠ some t) := by
  obtain ⟨h1, h2, h3, h4⟩ := hsat
  have hnw : t ∈ vs.lock.readers → vs.lock.writer ≠ some t := by
    intro hm hw
    simp [hg t hw] at hm
  (cases w <;> rcases k with _ | _ | _ | k <;>
    simp [Wrapper.body, uvm_va_space_down_write, uvm_va_space_up_write,
      uvm_va_space_downgrade_write, uvm_va_space_downgrade_write_rm, uvm_va_space_down_read,
      uvm_va_space_down_read_rm, uvm_va_space_up_read, uvm_va_space_up_read_rm] at hst <;>
    subst hst <;>
    simp [Thread.owes] at hr <;>
    subst hr <;>
    simp [Thread.holds_rawr, Owes.sat] at h1 h2 h3 h4 hrawr ⊢ <;>
    simp [exec_mutex_lock, exec_mutex_unlock, exec_mutex_unlock_out_of_order,
      exec_assert_mutex_locked, exec_down_write, exec_up_write, exec_downgrade_write,
      exec_down_read, exec_up_read] at h <;>
    obtain ⟨hc, rfl⟩ := h <;>
    simp_all)

theorem inv_rawr_initial (s : System) (h : s.initial) : Inv_rawr s := by
  obtain ⟨⟨hl, hsw, hrawr⟩, hth⟩ := h
  refine ⟨?_, ?_⟩
  · intro x hx
    simp [hl] at hx
  · intro t ht
    simp [hth t, Thread.holds_rawr] at ht

theorem inv_rawr_step (s s' : System) (t : Tid) (e : Event) (hinv : Inv s)
    (hinv' : Inv_rawr s) (hs : s.fire t e = some s') : Inv_rawr s' := by
  obtain ⟨hg1, hg2, hth⟩ := hinv
  obtain ⟨hg3, hloc⟩ := hinv'
  cases e with
  | call w =>
    cases hthr : s.threads t with
    | inside w' k => simp [System.fire, hthr] at hs
    | outside m =>
      simp only [System.fire, hthr, Option.some.injEq] at hs
      subst hs
      refine ⟨hg3, fun u hu => ?_⟩
      by_cases hut : u = t
      · subst hut
        cases w <;> simp [Function.update, Thread.holds_rawr] at hu
      · simp only [Function.update, hut, dite_false] at hu
        exact hloc u hu
  | ret =>
    cases hthr : s.threads t with
    | outside m => simp [System.fire, hthr] at hs
    | inside w k =>
      simp only [System.fire, hthr] at hs
      split at hs
      · simp only [Option.some.injEq] at hs
        subst hs
        refine ⟨hg3, fun u hu => ?_⟩
        by_cases hut : u = t
        · subst hut
          simp [Function.update, Thread.holds_rawr] at hu
        · simp only [Function.update, hut, dite_false] at hu
          exact hloc u hu
      · simp at hs
  | exec =>
    cases hthr : s.threads t with
    | outside m => simp [System.fire, hthr] at hs
    | inside w k =>
      simp only [System.fire, hthr] at hs
      cases hst : w.body[k]? with
      | none => simp [hst] at hs
      | some st =>
        simp only [hst] at hs
        cases hex : st.exec t s.va_space with
        | none => simp [hex] at hs
        | some vs' =>
          simp only [hex, Option.map_some', Option.some.injEq] at hs
          subst hs
          obtain ⟨r, hr, hsat⟩ := hth t
          rw [hthr] at hr
          have hmine := hloc t
          rw [hthr] at hmine
          obtain ⟨hnext, hdw, hun⟩ :=
            own_step_rawr t w k st r s.va_space vs' hst hr hsat hmine hg1 hex
          refine ⟨?_, fun u hu => ?_⟩
          · intro x hx
            rcases exec_rawr_cases t st _ _ hex with hsame | ⟨-, hfree, -, hl⟩ | ⟨hst', hown, -, hl⟩
            · simp only at hx ⊢
              rw [hsame]
              rcases exec_some_cases t st _ _ hex with ⟨hl, -⟩ | ⟨-, hl⟩
              · rw [hl] at hx
                exact hg3 x hx
              · rcases hl with ⟨hst', -, -, hl⟩ | ⟨-, hl⟩ | ⟨-, hl⟩ | ⟨-, hl⟩ | ⟨-, hl⟩
                · simp only [hl] at hx
                  cases hx
                  exact hdw hst'
                · simp [hl] at hx
                · simp [hl] at hx
                · simp [hl] at hx
                · simp only [hl] at hx
                  exact hg3 x hx
            · simp only at hx
              rw [hl] at hx
              have := hg3 x hx
              simp [hfree] at this
            · simp only at hx
              rw [hl] at hx
              have hx' := hg3 x hx
              rw [hown] at hx'
              cases hx'
              exact absurd hx (hun hst')
          · by_cases hut : u = t
            · subst hut
              simp only [Function.update, dite_true] at hu
              exact hnext hu
            · simp only [Function.update, hut, dite_false] at hu
              have hu' := hloc u hu
              have hut' : ¬ t = u := fun h => hut h.symm
              rcases exec_rawr_cases t st _ _ hex with hsame | ⟨-, hfree, -, -⟩ | ⟨-, hown, -, -⟩
              · simp only
                rw [hsame]
                exact hu'
              · simp [hfree] at hu'
              · simp [hown, hut'] at hu'

theorem inv_rawr_reachable (s : System) (h : Reachable s) : Inv_rawr s := by
  induction h with
  | init s h => exact inv_rawr_initial s h
  | step s s' t e hr hs ih => exact inv_rawr_step s s' t e (inv_reachable s hr) ih hs

/-- Claim C18. In every state reachable by threads that use the VA space lock
only through the wrappers: a thread that executes the `uvm_up_write` of
`uvm_va_space_up_write` owns `read_acquire_write_release_lock` and
`serialize_writers_lock` before and after that statement; a thread about to
execute the `uvm_down_read` of `uvm_va_space_down_read` owns
`read_acquire_write_release_lock`; a thread about to execute the
`uvm_down_read` of `uvm_va_space_down_read_rm` owns `serialize_writers_lock`;
hence at the moment thread `u` executes a wrapper's `uvm_up_write`, no other
thread `t` is at a wrapper's `uvm_down_read`. -/
theorem down_read_serialized_with_up_write (s : System) (hs : Reachable s) (t u : Tid)
    (hne : t ≠ u) :
    (∀ s', s.at_stmt u .up_write .uvm_up_write → s.fire u .exec = some s' →
      s.va_space.read_acquire_write_release_lock.owner = some u ∧
      s.va_space.serialize_writers_lock.owner = some u ∧
      s'.va_space.read_acquire_write_release_lock.owner = some u ∧
      s'.va_space.serialize_writers_lock.owner = some u) ∧
    (s.at_stmt t .down_read .uvm_down_read →
      s.va_space.read_acquire_write_release_lock.owner = some t) ∧
    (s.at_stmt t .down_read_rm .uvm_down_read →
      s.va_space.serialize_writers_lock.owner = some t) ∧
    (∀ s', s.at_stmt u .up_write .uvm_up_write → s.fire u .exec = some s' →
      ¬ s.at_stmt t .down_read .uvm_down_read ∧
      ¬ s.at_stmt t .down_read_rm .uvm_down_read) := by
  obtain ⟨hg1, hg2, hth⟩ := inv_reachable s hs
  obtain ⟨hg3, hloc⟩ := inv_rawr_reachable s hs
  have hup : ∀ s', s.at_stmt u .up_write .uvm_up_write → s.fire u .exec = some s' →
      s.va_space.lock.writer = some u ∧
      s'.va_space.read_acquire_write_release_lock = s.va_space.read_acquire_write_release_lock ∧
      s'.va_space.serialize_writers_lock = s.va_space.serialize_writers_lock := by
    intro s' ⟨k, hk, hst⟩ hf
    simp only [System.fire, hk, hst] at hf
    rw [exec_up_write] at hf
    split at hf
    · rename_i hw
      simp only [Option.map_some', Option.some.injEq] at hf
      subst hf
      exact ⟨hw, by simp, by simp⟩
    · simp at hf
  have hdr : s.at_stmt t .down_read .uvm_down_read →
      s.va_space.read_acquire_write_release_lock.owner = some t := by
    intro ⟨k, hk, hst⟩
    have hk1 : k = 1 := by
      rcases k with _ | _ | _ | k <;> simp [Wrapper.body, uvm_va_space_down_read] at hst
      rfl
    subst hk1
    exact hloc t (by simp [hk, Thread.holds_rawr])
  have hdrm : s.at_stmt t .down_read_rm .uvm_down_read →
      s.va_space.serialize_writers_lock.owner = some t := by
    intro ⟨k, hk, hst⟩
    have hk1 : k = 1 := by
      rcases k with _ | _ | k <;> simp [Wrapper.body, uvm_va_space_down_read_rm] at hst
      rfl
    subst hk1
    obtain ⟨r, hr, hsat⟩ := hth t
    simp [hk, Thread.owes] at hr
    subst hr
    exact hsat.1 rfl
  refine ⟨?_, hdr, hdrm, ?_⟩
  · intro s' hat hf
    obtain ⟨hw, h1, h2⟩ := hup s' hat hf
    exact ⟨hg3 u hw, hg2 u hw, by rw [h1]; exact hg3 u hw, by rw [h2]; exact hg2 u hw⟩
  · intro s' hat hf
    obtain ⟨hw, -, -⟩ := hup s' hat hf
    refine ⟨fun h => ?_, fun h => ?_⟩
    · have h1 := hdr h
      rw [hg3 u hw] at h1
      cases h1
      exact hne rfl
    · have h1 := hdrm h
      rw [hg2 u hw] at h1
      cases h1
      exact hne rfl

/-! ## Masks -/

theorem mask_test_clear (mask : uvm_processor_mask_t) (i j : Nat) :
    uvm_processor_mask_test (uvm_processor_mask_clear mask i) j =
      (uvm_processor_mask_test mask j && !decide (j = i)) := by
  simp only [uvm_processor_mask_test, uvm_processor_mask_clear, Nat.testBit_xor,
    Nat.testBit_and, Nat.testBit_two_pow]
  by_cases h : i = j
  · subst h
    cases Nat.testBit mask.bitmap i <;> simp
  · have h' : ¬ j = i := fun e => h e.symm
    cases Nat.testBit mask.bitmap j <;> simp [h, h']

theorem mask_valid_iff (n : Nat) (mask : uvm_processor_mask_t) :
    mask.valid n ↔ ∀ id : Nat, uvm_processor_mask_test mask id = true → id < n := by
  constructor
  · intro h id hid
    by_contra hge
    have h1 : 2 ^ n ≤ 2 ^ id := Nat.pow_le_pow_right (by norm_num) (Nat.le_of_not_lt hge)
    have h2 := Nat.testBit_implies_ge hid
    unfold uvm_processor_mask_t.valid at h
    omega
  · intro h
    apply Nat.lt_pow_two_of_testBit
    intro i hi
    by_contra hne
    have : uvm_processor_mask_test mask i = true := by
      simpa [uvm_processor_mask_test] using hne
    exact absurd (h i this) (Nat.not_lt.mpr hi)

theorem mask_valid_clear (n : Nat) (mask : uvm_processor_mask_t) (i : Nat)
    (h : mask.valid n) : (uvm_processor_mask_clear mask i).valid n := by
  rw [mask_valid_iff] at h ⊢
  intro id hid
  rw [mask_test_clear] at hid
  simp at hid
  exact h id hid.1

theorem filter_remove_length (l : List Nat) (hl : l.Nodup) (p : Nat → Bool) (i : Nat)
    (hi : i ∈ l) (hp : p i = true) :
    (l.filter fun j => p j && !decide (j = i)).length + 1 = (l.filter p).length := by
  induction l with
  | nil => simp at hi
  | cons a l ih =>
    obtain ⟨ha, hl'⟩ := List.nodup_cons.mp hl
    by_cases hai : a = i
    · subst hai
      have hsame : (l.filter fun j => p j && !decide (j = a)) = l.filter p := by
        apply List.filter_congr
        intro j hj
        have : j ≠ a := fun e => ha (e ▸ hj)
        simp [this]
      simp [List.filter_cons, hp, hsame]
    · have hil : i ∈ l := by
        rcases List.mem_cons.mp hi with h | h
        · exact absurd h.symm hai
        · exact h
      have := ih hl' hil
      by_cases hpa : p a = true
      · simp [List.filter_cons, hpa, hai]
        omega
      · simp [List.filter_cons, hpa]
        omega

theorem mask_count_clear (n : Nat) (mask : uvm_processor_mask_t) (i : Nat) (hi : i < n)
    (ht : uvm_processor_mask_test mask i = true) :
    uvm_processor_mask_get_count n (uvm_processor_mask_clear mask i) + 1 =
      uvm_processor_mask_get_count n mask := by
  unfold uvm_processor_mask_get_count
  have h := filter_remove_length (List.range n) (List.nodup_range n)
    (uvm_processor_mask_test mask) i (List.mem_range.mpr hi) ht
  rw [← h]
  congr 2
  apply List.filter_congr
  intro j _
  rw [mask_test_clear]

theorem mask_count_eq_zero (n : Nat) (mask : uvm_processor_mask_t)
    (h : ∀ id : Nat, uvm_processor_mask_test mask id = false) :
    uvm_processor_mask_get_count n mask = 0 := by
  simp [uvm_processor_mask_get_count, h]

theorem mask_bitmap_eq_zero (mask : uvm_processor_mask_t)
    (h : ∀ id : Nat, uvm_processor_mask_test mask id = false) : mask.bitmap = 0 := by
  apply Nat.eq_of_testBit_eq
  intro i
  simpa [uvm_processor_mask_test] using h i

theorem for_each_closest_id_spec (n : Nat)
    (sel : uvm_processor_mask_t → uvm_processor_id_t → uvm_processor_id_t)
    (src : uvm_processor_id_t)
    (hsel : ∀ m : uvm_processor_mask_t, m.valid n →
      ((∃ id : Nat, uvm_processor_mask_test m id = true) →
        uvm_processor_mask_test m (sel m src) = true) ∧
      ((∀ id : Nat, uvm_processor_mask_test m id = false) →
        UVM_ID_IS_VALID n (sel m src) = false))
    (c : Nat) :
    ∀ (mask : uvm_processor_mask_t) (fuel : Nat), mask.valid n →
      uvm_processor_mask_get_count n mask = c → c ≤ fuel →
      ∃ visited final, for_each_closest_id n sel src fuel mask = some (visited, final) ∧
        visited.length = c ∧ visited.Nodup ∧
        (∀ id : Nat, id ∈ visited ↔ uvm_processor_mask_test mask id = true) ∧
        final.bitmap = 0 := by
  induction c with
  | zero =>
    intro mask fuel hv hc _
    have hnone : ∀ id : Nat, uvm_processor_mask_test mask id = false := by
      intro id
      by_contra hne
      have ht : uvm_processor_mask_test mask id = true := by simpa using hne
      have hlt := (mask_valid_iff n mask).mp hv id ht
      have : id ∈ (List.range n).filter (uvm_processor_mask_test mask) :=
        List.mem_filter.mpr ⟨List.mem_range.mpr hlt, ht⟩
      unfold uvm_processor_mask_get_count at hc
      rw [List.length_eq_zero] at hc
      rw [hc] at this
      simp at this
    refine ⟨[], mask, ?_, rfl, List.nodup_nil, by simp [hnone], mask_bitmap_eq_zero mask hnone⟩
    unfold for_each_closest_id
    simp [(hsel mask hv).2 hnone]
  | succ c ih =>
    intro mask fuel hv hc hfuel
    have hex : ∃ id : Nat, uvm_processor_mask_test mask id = true := by
      by_contra hne
      have hnone : ∀ id : Nat, uvm_processor_mask_test mask id = false := by
        intro id
        by_contra h
        exact hne ⟨id, by simpa using h⟩
      rw [mask_count_eq_zero n mask hnone] at hc
      omega
    have ht := (hsel mask hv).1 hex
    have hlt : sel mask src < n := (mask_valid_iff n mask).mp hv _ ht
    obtain ⟨f, rfl⟩ : ∃ f, fuel = f + 1 := ⟨fuel - 1, by omega⟩
    have hc' : uvm_processor_mask_get_count n (uvm_processor_mask_clear mask (sel mask src)) = c := by
      have := mask_count_clear n mask (sel mask src) hlt ht
      omega
    obtain ⟨visited, final, hrun, hlen, hnd, hmem, hfin⟩ :=
      ih (uvm_processor_mask_clear mask (sel mask src)) f (mask_valid_clear n mask _ hv) hc'
        (by omega)
    refine ⟨sel mask src :: visited, final, ?_, by simp [hlen], ?_, ?_, hfin⟩
    · rw [for_each_closest_id]
      simp [UVM_ID_IS_VALID, hlt, hrun]
    · refine List.nodup_cons.mpr ⟨?_, hnd⟩
      intro hin
      have := (hmem _).mp hin
      rw [mask_test_clear] at this
      simp at this
    · intro id
      rw [List.mem_cons, hmem, mask_test_clear]
      by_cases hid : id = sel mask src
      · subst hid
        simp [ht]
      · simp [hid]

theorem find_range_spec (p : Nat → Bool) (n : Nat) :
    (∀ i, (List.range n).find? p = some i → i < n ∧ p i = true ∧ ∀ j, j < i → p j = false) ∧
    ((List.range n).find? p = none → ∀ j, j < n → p j = false) := by
  induction n with
  | zero => simp
  | succ n ih =>
    obtain ⟨ih1, ih2⟩ := ih
    rw [List.range_succ, List.find?_append]
    cases hf : (List.range n).find? p with
    | some i =>
      obtain ⟨h1, h2, h3⟩ := ih1 i hf
      refine ⟨?_, by simp [Option.or]⟩
      intro i' hi'
      simp only [Option.or, Option.some.injEq] at hi'
      subst hi'
      exact ⟨by omega, h2, h3⟩
    | none =>
      have hnone := ih2 hf
      by_cases hp : p n = true
      · simp only [Option.or, List.find?_cons, hp, Option.some.injEq]
        refine ⟨?_, by simp⟩
        rintro i' rfl
        exact ⟨by omega, hp, hnone⟩
      · have hp' : p n = false := by simpa using hp
        simp only [Option.or, List.find?_cons, hp', List.find?_nil]
        refine ⟨by simp, ?_⟩
        intro _ j hj
        rcases Nat.lt_succ_iff_lt_or_eq.mp hj with h | h
        · exact hnone j h
        · rw [h]; exact hp'

theorem find_next_id_spec (n : Nat) (mask : uvm_processor_mask_t) (id : Nat) :
    uvm_processor_mask_find_next_id n mask id ≤ n ∧
    (uvm_processor_mask_find_next_id n mask id < n →
      id ≤ uvm_processor_mask_find_next_id n mask id ∧
      uvm_processor_mask_test mask (uvm_processor_mask_find_next_id n mask id) = true) ∧
    (∀ j : Nat, id ≤ j → j < uvm_processor_mask_find_next_id n mask id →
      uvm_processor_mask_test mask j = false) := by
  obtain ⟨h1, h2⟩ := find_range_spec
    (fun i => decide (id ≤ i) && uvm_processor_mask_test mask i) n
  unfold uvm_processor_mask_find_next_id
  cases hf : (List.range n).find? fun i => decide (id ≤ i) && uvm_processor_mask_test mask i with
  | some i =>
    obtain ⟨hlt, hp, hmin⟩ := h1 i hf
    simp only [Bool.and_eq_true, decide_eq_true_eq] at hp
    simp only [Option.getD_some]
    refine ⟨Nat.le_of_lt hlt, fun _ => hp, ?_⟩
    intro j hj hji
    have := hmin j hji
    simpa [hj] using this
  | none =>
    have hnone := h2 hf
    simp only [Option.getD_none]
    refine ⟨le_refl n, fun h => absurd h (lt_irrefl n), ?_⟩
    intro j hj hjn
    have := hnone j hjn
    simpa [hj] using this

theorem find_first_id_selects (n : Nat) (m : uvm_processor_mask_t) (hv : m.valid n) :
    ((∃ id : Nat, uvm_processor_mask_test m id = true) →
      uvm_processor_mask_test m (uvm_processor_mask_find_first_id n m) = true) ∧
    ((∀ id : Nat, uvm_processor_mask_test m id = false) →
      UVM_ID_IS_VALID n (uvm_processor_mask_find_first_id n m) = false) := by
  obtain ⟨hle, hin, hmin⟩ := find_next_id_spec n m UVM_ID_CPU
  refine ⟨?_, ?_⟩
  · rintro ⟨id, hid⟩
    have hlt := (mask_valid_iff n m).mp hv id hid
    by_cases h : uvm_processor_mask_find_next_id n m UVM_ID_CPU < n
    · exact (hin h).2
    · have heq : uvm_processor_mask_find_next_id n m UVM_ID_CPU = n :=
        Nat.le_antisymm hle (Nat.le_of_not_lt h)
      have := hmin id (Nat.zero_le id) (by rw [heq]; exact hlt)
      rw [this] at hid
      cases hid
  · intro hnone
    by_cases h : uvm_processor_mask_find_next_id n m UVM_ID_CPU < n
    · have := (hin h).2
      rw [hnone] at this
      cases this
    · simpa [UVM_ID_IS_VALID, uvm_processor_mask_find_first_id] using h

/-- Claim C13. Let the selection function return, on every mask of the
capacity, a member of the mask when the mask is non-empty and an invalid id
when it is empty. Then `for_each_closest_id` on any mask of the capacity
terminates within as many iterations as the mask has ids: it visits exactly
that many ids, no id twice, the visited ids are exactly the ids initially set,
and the caller's mask is left empty. -/
theorem for_each_closest_id_consumes_mask (UVM_ID_MAX_PROCESSORS : Nat)
    (find_closest : uvm_processor_mask_t → uvm_processor_id_t → uvm_processor_id_t)
    (src : uvm_processor_id_t) (mask : uvm_processor_mask_t)
    (hmask : mask.valid UVM_ID_MAX_PROCESSORS)
    (hsel : ∀ m : uvm_processor_mask_t, m.valid UVM_ID_MAX_PROCESSORS →
      ((∃ id : Nat, uvm_processor_mask_test m id = true) →
        uvm_processor_mask_test m (find_closest m src) = true) ∧
      ((∀ id : Nat, uvm_processor_mask_test m id = false) →
        UVM_ID_IS_VALID UVM_ID_MAX_PROCESSORS (find_closest m src) = false)) :
    ∀ fuel, uvm_processor_mask_get_count UVM_ID_MAX_PROCESSORS mask ≤ fuel →
      ∃ visited final,
        for_each_closest_id UVM_ID_MAX_PROCESSORS find_closest src fuel mask =
          some (visited, final) ∧
        visited.length = uvm_processor_mask_get_count UVM_ID_MAX_PROCESSORS mask ∧
        visited.Nodup ∧
        (∀ id : Nat, id ∈ visited ↔ uvm_processor_mask_test mask id = true) ∧
        final = uvm_processor_mask_zero := by
  intro fuel hfuel
  obtain ⟨visited, final, h1, h2, h3, h4, h5⟩ :=
    for_each_closest_id_spec UVM_ID_MAX_PROCESSORS find_closest src hsel _ mask fuel hmask rfl
      hfuel
  refine ⟨visited, final, h1, h2, h3, h4, ?_⟩
  cases final
  simp only at h5
  simp [uvm_processor_mask_zero, h5]

/-! ## The closest processor -/

theorem mask_test_and (a b : uvm_processor_mask_t) (i : Nat) :
    uvm_processor_mask_test (uvm_processor_mask_and a b) i =
      (uvm_processor_mask_test a i && uvm_processor_mask_test b i) := by
  simp [uvm_processor_mask_test, uvm_processor_mask_and]

theorem mask_test_andnot (a b : uvm_processor_mask_t) (i : Nat) :
    uvm_processor_mask_test (uvm_processor_mask_andnot a b) i =
      (uvm_processor_mask_test a i && !uvm_processor_mask_test b i) := by
  simp only [uvm_processor_mask_test, uvm_processor_mask_andnot, Nat.testBit_xor,
    Nat.testBit_and]
  cases Nat.testBit a.bitmap i <;> cases Nat.testBit b.bitmap i <;> rfl

theorem find_first_gpu_id_valid (n : Nat) (mask : uvm_processor_mask_t)
    (h : UVM_ID_IS_VALID n (uvm_processor_mask_find_first_gpu_id n mask) = true) :
    uvm_processor_mask_test mask (uvm_processor_mask_find_first_gpu_id n mask) = true := by
  obtain ⟨-, hin, -⟩ := find_next_id_spec n mask UVM_ID_GPU0_VALUE
  exact (hin (by simpa [UVM_ID_IS_VALID] using h)).2

theorem find_closest_id_member (n : Nat) (vs : uvm_va_space_t)
    (candidates : uvm_processor_mask_t) (src : uvm_processor_id_t)
    (hv : candidates.valid n)
    (hex : ∃ id : Nat, uvm_processor_mask_test candidates id = true) :
    uvm_processor_mask_test candidates
      (uvm_processor_mask_find_closest_id n vs candidates src) = true := by
  unfold uvm_processor_mask_find_closest_id
  simp only
  split
  · assumption
  split
  · rename_i h
    have := find_first_gpu_id_valid n _ h
    rw [mask_test_andnot, mask_test_and] at this
    simp at this
    exact this.1.1
  split
  · rename_i h
    simp only [Bool.and_eq_true] at h
    have := h.2
    rw [mask_test_and] at this
    simp at this
    exact this.1
  split
  · rename_i h
    simp only [Bool.and_eq_true] at h
    have := find_first_gpu_id_valid n _ h.2
    rw [mask_test_and] at this
    simp at this
    exact this.1
  split
  · rename_i h
    simp only [Bool.and_eq_true] at h
    have := find_first_gpu_id_valid n _ h.2
    rw [mask_test_and] at this
    simp at this
    exact this.1
  split
  · rename_i h
    simp only [Bool.and_eq_true] at h
    exact h.2
  · exact (find_first_id_selects n candidates hv).1 hex

/-- Claim C16. On a candidate mask of the capacity,
`uvm_processor_mask_find_closest_id` returns the source whenever the source is
a candidate, returns a candidate whenever there is one, returns the invalid id
`UVM_ID_MAX_PROCESSORS` exactly when there is none, and returns the same id in
any two VA spaces whose affinity matrices `has_nvlink`, `indirect_peers` and
`can_access` agree. -/
theorem find_closest_id_selects_candidate (UVM_ID_MAX_PROCESSORS : Nat)
    (va_space : uvm_va_space_t) (candidates : uvm_processor_mask_t)
    (src : uvm_processor_id_t) (hv : candidates.valid UVM_ID_MAX_PROCESSORS) :
    (uvm_processor_mask_test candidates src = true →
      uvm_processor_mask_find_closest_id UVM_ID_MAX_PROCESSORS va_space candidates src = src) ∧
    ((∃ id : Nat, uvm_processor_mask_test candidates id = true) →
      uvm_processor_mask_test candidates
        (uvm_processor_mask_find_closest_id UVM_ID_MAX_PROCESSORS va_space candidates src) =
        true) ∧
    (uvm_processor_mask_find_closest_id UVM_ID_MAX_PROCESSORS va_space candidates src =
        UVM_ID_MAX_PROCESSORS ↔
      ∀ id : Nat, uvm_processor_mask_test candidates id = false) ∧
    (∀ va_space' : uvm_va_space_t, va_space'.has_nvlink = va_space.has_nvlink →
      va_space'.indirect_peers = va_space.indirect_peers →
      va_space'.can_access = va_space.can_access →
      uvm_processor_mask_find_closest_id UVM_ID_MAX_PROCESSORS va_space' candidates src =
        uvm_processor_mask_find_closest_id UVM_ID_MAX_PROCESSORS va_space candidates src) := by
  refine ⟨?_, find_closest_id_member _ va_space candidates src hv, ?_, ?_⟩
  · intro h
    simp [uvm_processor_mask_find_closest_id, h]
  · constructor
    · intro heq id
      by_contra hne
      have hid : uvm_processor_mask_test candidates id = true := by simpa using hne
      have hm := find_closest_id_member UVM_ID_MAX_PROCESSORS va_space candidates src hv
        ⟨id, hid⟩
      rw [heq] at hm
      have := (mask_valid_iff _ candidates).mp hv _ hm
      exact absurd this (lt_irrefl _)
    · intro hnone
      have hand : ∀ (b : uvm_processor_mask_t) (i : Nat),
          uvm_processor_mask_test (uvm_processor_mask_and candidates b) i = false := by
        intro b i
        rw [mask_test_and, hnone]
        rfl
      have hinv : ∀ m : uvm_processor_mask_t,
          (∀ i : Nat, uvm_processor_mask_test m i = false) →
          UVM_ID_IS_VALID UVM_ID_MAX_PROCESSORS
            (uvm_processor_mask_find_first_gpu_id UVM_ID_MAX_PROCESSORS m) = false := by
        intro m hm
        by_contra hne
        have := find_first_gpu_id_valid UVM_ID_MAX_PROCESSORS m (by simpa using hne)
        rw [hm] at this
        cases this
      have hdirect : ∀ (b c : uvm_processor_mask_t) (i : Nat),
          uvm_processor_mask_test
            (uvm_processor_mask_andnot (uvm_processor_mask_and candidates b) c) i = false := by
        intro b c i
        rw [mask_test_andnot, hand]
        rfl
      have hfirst := (find_first_id_selects UVM_ID_MAX_PROCESSORS candidates hv).2 hnone
      have hle := (find_next_id_spec UVM_ID_MAX_PROCESSORS candidates UVM_ID_CPU).1
      unfold uvm_processor_mask_find_closest_id
      simp only [hnone, hand, hinv _ (hand _), hinv _ (hdirect _ _), Bool.and_false,
        Bool.false_eq_true, if_false]
      simp only [UVM_ID_IS_VALID, uvm_processor_mask_find_first_id, decide_eq_false_iff_not,
        not_lt] at hfirst
      exact Nat.le_antisymm hle hfirst
  · intro vs' h1 h2 h3
    simp [uvm_processor_mask_find_closest_id, h1, h2, h3]

/-! ## GPUs of a VA space -/

theorem mask_subset_iff (n : Nat) (a b : uvm_processor_mask_t) :
    uvm_processor_mask_subset n a b = true ↔
      ∀ id : Nat, id < n → uvm_processor_mask_test a id = true →
        uvm_processor_mask_test b id = true := by
  simp only [uvm_processor_mask_subset, List.all_eq_true, List.mem_range, Bool.or_eq_true,
    Bool.not_eq_true']
  constructor
  · intro h id hid ha
    rcases h id hid with h | h
    · rw [h] at ha; cases ha
    · exact h
  · intro h id hid
    cases ha : uvm_processor_mask_test a id with
    | false => exact Or.inl rfl
    | true => exact Or.inr (h id hid ha)

theorem gpu_index_ok (id idx : Nat) (h : uvm_id_gpu_index id = .ok idx) :
    1 ≤ id ∧ idx = id - 1 := by
  unfold uvm_id_gpu_index at h
  split at h
  · rename_i h1
    simp only [Except.ok.injEq] at h
    exact ⟨h1, h.symm⟩
  · cases h

theorem get_gpu_ok (mem : Memory) (va : Ptr) (vs : uvm_va_space_t) (id : Nat)
    (hva : va ≠ NULL) (hvs : mem.va_spaces va = some vs) (htab : gpus_table_ok mem vs)
    (hreg : uvm_processor_mask_test vs.registered_gpus id = true) :
    uvm_va_space_get_gpu va id mem = .ok (gpu_at vs id, mem) ∧ gpu_at vs id ≠ NULL ∧
      ∃ g, mem.gpus (gpu_at vs id) = some g ∧ g.id = id := by
  obtain ⟨idx, gpu, g, gidx, h1, h2, h3, h4, h5, h6, h7⟩ := htab id hreg
  obtain ⟨hid, hidx⟩ := gpu_index_ok id idx h1
  have hat : gpu_at vs id = gpu := by
    subst hidx
    simp [gpu_at, List.getD_eq_getElem?_getD, h2]
  rw [hat]
  refine ⟨?_, h3, g, h4, h5⟩
  simp [uvm_va_space_get_gpu, M.bind_apply, load_va_space_ok mem va vs hva hvs, UVM_ASSERT,
    hreg, M.lift, h1, array_get, h2, h3, load_gpu_ok mem gpu g h3 h4, uvm_gpu_get, load_g_uvm_global, h6, h7,
    M.pure_apply]

theorem no_cpu_bit (mem : Memory) (vs : uvm_va_space_t) (n : Nat) (mask : uvm_processor_mask_t)
    (htab : gpus_table_ok mem vs)
    (hsub : uvm_processor_mask_subset n mask vs.registered_gpus = true)
    (hv : mask.valid n) (id : Nat) (hid : uvm_processor_mask_test mask id = true) :
    1 ≤ id ∧ id < n ∧ uvm_processor_mask_test vs.registered_gpus id = true := by
  have hlt := (mask_valid_iff n mask).mp hv id hid
  have hreg := (mask_subset_iff n mask vs.registered_gpus).mp hsub id hlt hid
  obtain ⟨idx, _, _, _, h1, -⟩ := htab id hreg
  exact ⟨(gpu_index_ok id idx h1).1, hlt, hreg⟩

/-- What the two lookups return for the id that the mask search found. -/
theorem lookup_found (n : Nat) (mem : Memory) (va : Ptr) (vs : uvm_va_space_t)
    (mask : uvm_processor_mask_t) (hva : va ≠ NULL) (hvs : mem.va_spaces va = some vs)
    (hv : mask.valid n) (hsub : uvm_processor_mask_subset n mask vs.registered_gpus = true)
    (htab : gpus_table_ok mem vs) (a : Nat) :
    (if UVM_ID_IS_INVALID n (uvm_processor_mask_find_next_id n mask a) then
        (pure NULL : M Ptr)
      else do
        let gpu ← uvm_va_space_get_gpu va (uvm_processor_mask_find_next_id n mask a)
        UVM_ASSERT (gpu != NULL)
        pure gpu) mem =
      .ok (if uvm_processor_mask_find_next_id n mask a < n then
        gpu_at vs (uvm_processor_mask_find_next_id n mask a) else NULL, mem) := by
  obtain ⟨hle, hin, -⟩ := find_next_id_spec n mask a
  by_cases hlt : uvm_processor_mask_find_next_id n mask a < n
  · obtain ⟨-, -, hreg⟩ := no_cpu_bit mem vs n mask htab hsub hv _ (hin hlt).2
    obtain ⟨hget, hne, -⟩ := get_gpu_ok mem va vs _ hva hvs htab hreg
    simp [UVM_ID_IS_INVALID, UVM_ID_IS_VALID, hlt, M.bind_apply, hget, UVM_ASSERT, hne,
      M.pure_apply]
  · simp [UVM_ID_IS_INVALID, UVM_ID_IS_VALID, hlt, M.pure_apply]

theorem find_first_eq (n : Nat) (mem : Memory) (va : Ptr) (vs : uvm_va_space_t)
    (mask : uvm_processor_mask_t) (hva : va ≠ NULL) (hvs : mem.va_spaces va = some vs)
    (hv : mask.valid n) (hsub : uvm_processor_mask_subset n mask vs.registered_gpus = true)
    (htab : gpus_table_ok mem vs) :
    uvm_processor_mask_find_first_va_space_gpu n mask va mem =
      .ok (if uvm_processor_mask_find_next_id n mask UVM_ID_GPU0_VALUE < n then
        gpu_at vs (uvm_processor_mask_find_next_id n mask UVM_ID_GPU0_VALUE) else NULL, mem) := by
  have h := lookup_found n mem va vs mask hva hvs hv hsub htab UVM_ID_GPU0_VALUE
  simp only [uvm_processor_mask_find_first_va_space_gpu, M.bind_apply,
    load_va_space_ok mem va vs hva hvs, UVM_ASSERT, hsub, if_true,
    uvm_processor_mask_find_first_gpu_id]
  exact h

theorem find_next_eq (n : Nat) (mem : Memory) (va : Ptr) (vs : uvm_va_space_t)
    (mask : uvm_processor_mask_t) (hva : va ≠ NULL) (hvs : mem.va_spaces va = some vs)
    (hv : mask.valid n) (hsub : uvm_processor_mask_subset n mask vs.registered_gpus = true)
    (htab : gpus_table_ok mem vs) (gpu : Ptr) (g : uvm_gpu_t) (hg : gpu ≠ NULL)
    (hgo : mem.gpus gpu = some g) :
    __uvm_processor_mask_find_next_va_space_gpu n mask va gpu mem =
      .ok (if uvm_processor_mask_find_next_id n mask (g.id + 1) < n then
        gpu_at vs (uvm_processor_mask_find_next_id n mask (g.id + 1)) else NULL, mem) := by
  have h := lookup_found n mem va vs mask hva hvs hv hsub htab (g.id + 1)
  simp only [__uvm_processor_mask_find_next_va_space_gpu, M.bind_apply,
    load_va_space_ok mem va vs hva hvs, UVM_ASSERT, hsub, if_true, hg, bne_iff_ne, ne_eq,
    not_false_eq_true, decide_True, load_gpu_ok mem gpu g hg hgo, uvm_gpu_id_next]
  exact h

theorem first_gpu_id_cases (n : Nat) (mem : Memory) (vs : uvm_va_space_t)
    (mask : uvm_processor_mask_t) (hv : mask.valid n)
    (hsub : uvm_processor_mask_subset n mask vs.registered_gpus = true)
    (htab : gpus_table_ok mem vs) :
    (uvm_processor_mask_find_next_id n mask UVM_ID_GPU0_VALUE < n ∧
      uvm_processor_mask_test mask (uvm_processor_mask_find_next_id n mask UVM_ID_GPU0_VALUE) =
        true ∧
      ∀ id : Nat, uvm_processor_mask_test mask id = true →
        uvm_processor_mask_find_next_id n mask UVM_ID_GPU0_VALUE ≤ id) ∨
    (¬ uvm_processor_mask_find_next_id n mask UVM_ID_GPU0_VALUE < n ∧
      ∀ id : Nat, uvm_processor_mask_test mask id = false) := by
  obtain ⟨hle, hin, hmin⟩ := find_next_id_spec n mask UVM_ID_GPU0_VALUE
  by_cases hlt : uvm_processor_mask_find_next_id n mask UVM_ID_GPU0_VALUE < n
  · refine Or.inl ⟨hlt, (hin hlt).2, ?_⟩
    intro id hid
    obtain ⟨h1, -, -⟩ := no_cpu_bit mem vs n mask htab hsub hv id hid
    by_contra hgt
    have := hmin id h1 (Nat.lt_of_not_le hgt)
    rw [this] at hid
    cases hid
  · refine Or.inr ⟨hlt, ?_⟩
    intro id
    by_contra hne
    have hid : uvm_processor_mask_test mask id = true := by simpa using hne
    obtain ⟨h1, h2, -⟩ := no_cpu_bit mem vs n mask htab hsub hv id hid
    have heq : uvm_processor_mask_find_next_id n mask UVM_ID_GPU0_VALUE = n :=
      Nat.le_antisymm hle (Nat.le_of_not_lt hlt)
    have := hmin id h1 (by rw [heq]; exact h2)
    rw [this] at hid
    cases hid

/-- Claim C14. In a VA space whose table holds a GPU object for every
registered id, for every mask of the capacity that is a subset of
`registered_gpus`, `uvm_processor_mask_find_first_va_space_gpu` trips no
assertion and leaves memory as it was; it returns `NULL` exactly when the mask
is empty, and otherwise the GPU object that the table holds for the smallest
id set in the mask. -/
theorem find_first_va_space_gpu_lowest (UVM_ID_MAX_PROCESSORS : Nat) (mem : Memory) (va : Ptr)
    (vs : uvm_va_space_t) (mask : uvm_processor_mask_t) (hva : va ≠ NULL)
    (hvs : mem.va_spaces va = some vs) (hv : mask.valid UVM_ID_MAX_PROCESSORS)
    (hsub : uvm_processor_mask_subset UVM_ID_MAX_PROCESSORS mask vs.registered_gpus = true)
    (htab : gpus_table_ok mem vs) :
    ∃ r, uvm_processor_mask_find_first_va_space_gpu UVM_ID_MAX_PROCESSORS mask va mem =
        .ok (r, mem) ∧
      (r = NULL ↔ ∀ id : Nat, uvm_processor_mask_test mask id = false) ∧
      (r ≠ NULL → ∃ g, mem.gpus r = some g ∧ uvm_processor_mask_test mask g.id = true ∧
        (∀ id : Nat, uvm_processor_mask_test mask id = true → g.id ≤ id) ∧
        uvm_processor_mask_test vs.registered_gpus g.id = true ∧ r = gpu_at vs g.id) := by
  refine ⟨_, find_first_eq UVM_ID_MAX_PROCESSORS mem va vs mask hva hvs hv hsub htab, ?_⟩
  rcases first_gpu_id_cases UVM_ID_MAX_PROCESSORS mem vs mask hv hsub htab with
    ⟨hlt, hset, hmin⟩ | ⟨hlt, hnone⟩
  · obtain ⟨-, -, hreg⟩ := no_cpu_bit mem vs _ mask htab hsub hv _ hset
    obtain ⟨-, hne, g, hg, hgid⟩ := get_gpu_ok mem va vs _ hva hvs htab hreg
    rw [if_pos hlt]
    refine ⟨?_, fun _ => ⟨g, hg, by rw [hgid]; exact hset, by rw [hgid]; exact hmin,
      by rw [hgid]; exact hreg, by rw [hgid]⟩⟩
    constructor
    · intro h
      exact absurd h hne
    · intro hnone
      rw [hnone] at hset
      cases hset
  · rw [if_neg hlt]
    exact ⟨⟨fun _ => hnone, fun _ => rfl⟩, fun h => absurd rfl h⟩

theorem mem_mask_ids_from (n : Nat) (mask : uvm_processor_mask_t) (a x : Nat) :
    x ∈ mask_ids_from n mask a ↔ x < n ∧ a ≤ x ∧ uvm_processor_mask_test mask x = true := by
  simp [mask_ids_from]

theorem sorted_mask_ids_from (n : Nat) (mask : uvm_processor_mask_t) (a : Nat) :
    List.Sorted (· < ·) (mask_ids_from n mask a) :=
  List.Sorted.filter _ (List.sorted_lt_range n)

theorem mask_ids_from_unfold (n : Nat) (mask : uvm_processor_mask_t) (a : Nat) :
    mask_ids_from n mask a =
      if uvm_processor_mask_find_next_id n mask a < n then
        uvm_processor_mask_find_next_id n mask a ::
          mask_ids_from n mask (uvm_processor_mask_find_next_id n mask a + 1)
      else [] := by
  have key : ∀ r : Nat, r = uvm_processor_mask_find_next_id n mask a →
      mask_ids_from n mask a = if r < n then r :: mask_ids_from n mask (r + 1) else [] := by
    intro r hrdef
    obtain ⟨hle, hin, hmin⟩ := find_next_id_spec n mask a
    rw [← hrdef] at hle hin hmin
    by_cases hlt : r < n
    · rw [if_pos hlt]
      obtain ⟨har, hr⟩ := hin hlt
      have hs2 : List.Sorted (· < ·) (r :: mask_ids_from n mask (r + 1)) := by
        refine List.sorted_cons.mpr ⟨?_, sorted_mask_ids_from n mask (r + 1)⟩
        intro x hx
        have := (mem_mask_ids_from n mask (r + 1) x).mp hx
        show r < x
        omega
      apply List.eq_of_perm_of_sorted _ (sorted_mask_ids_from n mask a) hs2
      rw [List.perm_ext_iff_of_nodup (sorted_mask_ids_from n mask a).nodup hs2.nodup]
      intro x
      rw [List.mem_cons, mem_mask_ids_from, mem_mask_ids_from]
      constructor
      · rintro ⟨h1, h2, h3⟩
        by_cases hxr : x = r
        · exact Or.inl hxr
        · refine Or.inr ⟨h1, ?_, h3⟩
          by_contra hlt'
          have := hmin x h2 (by omega)
          rw [this] at h3
          cases h3
      · rintro (h | ⟨h1, h2, h3⟩)
        · subst h
          exact ⟨hlt, har, hr⟩
        · exact ⟨h1, by omega, h3⟩
    · rw [if_neg hlt]
      have heq : r = n := Nat.le_antisymm hle (Nat.le_of_not_lt hlt)
      apply List.eq_nil_iff_forall_not_mem.mpr
      intro x hx
      obtain ⟨h1, h2, h3⟩ := (mem_mask_ids_from n mask a x).mp hx
      have := hmin x h2 (by omega)
      rw [this] at h3
      cases h3
  exact key _ rfl

theorem loop_from_spec {σ β : Type} (n : Nat) (mem : Memory) (va : Ptr) (vs : uvm_va_space_t)
    (mask : uvm_processor_mask_t) (hva : va ≠ NULL) (hvs : mem.va_spaces va = some vs)
    (hv : mask.valid n) (hsub : uvm_processor_mask_subset n mask vs.registered_gpus = true)
    (htab : gpus_table_ok mem vs) (body : σ → Ptr → M (Except β σ)) (f : σ → Ptr → σ)
    (hbody : ∀ (s : σ) (id : Nat), uvm_processor_mask_test mask id = true →
      body s (gpu_at vs id) mem = .ok (.ok (f s (gpu_at vs id)), mem)) :
    ∀ (rest : List Nat) (c fuel : Nat) (s : σ), uvm_processor_mask_test mask c = true →
      mask_ids_from n mask (c + 1) = rest → rest.length + 1 ≤ fuel →
      for_each_va_space_gpu_in_mask_from n va mask body fuel s (gpu_at vs c) mem =
        .ok (.finished (((c :: rest).map (gpu_at vs)).foldl f s), mem) := by
  intro rest
  induction rest with
  | nil =>
    intro c fuel s hc hrest hfuel
    obtain ⟨-, -, hreg⟩ := no_cpu_bit mem vs n mask htab hsub hv c hc
    obtain ⟨-, hne, g, hg, hgid⟩ := get_gpu_ok mem va vs c hva hvs htab hreg
    obtain ⟨k, rfl⟩ : ∃ k, fuel = k + 1 := ⟨fuel - 1, by omega⟩
    have hnext := find_next_eq n mem va vs mask hva hvs hv hsub htab _ g hne hg
    rw [hgid] at hnext
    have hun := mask_ids_from_unfold n mask (c + 1)
    rw [hrest] at hun
    have hlt : ¬ uvm_processor_mask_find_next_id n mask (c + 1) < n := by
      intro h
      rw [if_pos h] at hun
      cases hun
    rw [if_neg hlt] at hnext
    unfold for_each_va_space_gpu_in_mask_from
    simp only [hne, if_false, M.bind_apply, hbody s c hc, hnext]
    unfold for_each_va_space_gpu_in_mask_from
    simp [M.pure_apply]
  | cons r rest ih =>
    intro c fuel s hc hrest hfuel
    obtain ⟨-, -, hreg⟩ := no_cpu_bit mem vs n mask htab hsub hv c hc
    obtain ⟨-, hne, g, hg, hgid⟩ := get_gpu_ok mem va vs c hva hvs htab hreg
    obtain ⟨k, rfl⟩ : ∃ k, fuel = k + 1 := ⟨fuel - 1, by simp at hfuel; omega⟩
    have hnext := find_next_eq n mem va vs mask hva hvs hv hsub htab _ g hne hg
    rw [hgid] at hnext
    have hun := mask_ids_from_unfold n mask (c + 1)
    rw [hrest] at hun
    have hlt : uvm_processor_mask_find_next_id n mask (c + 1) < n := by
      by_contra h
      rw [if_neg h] at hun
      cases hun
    rw [if_pos hlt] at hun hnext
    simp only [List.cons.injEq] at hun
    obtain ⟨hr, hrest'⟩ := hun
    rw [← hr] at hnext hrest'
    have hrset : uvm_processor_mask_test mask r = true :=
      ((mem_mask_ids_from n mask (c + 1) r).mp (by rw [hrest]; exact List.mem_cons_self _ _)).2.2
    unfold for_each_va_space_gpu_in_mask_from
    simp only [hne, if_false, M.bind_apply, hbody s c hc, hnext]
    rw [ih r k (f s (gpu_at vs c)) hrset hrest'.symm (by simp at hfuel; omega)]
    simp

theorem mask_ids_eq_from (n : Nat) (mem : Memory) (vs : uvm_va_space_t)
    (mask : uvm_processor_mask_t) (hv : mask.valid n)
    (hsub : uvm_processor_mask_subset n mask vs.registered_gpus = true)
    (htab : gpus_table_ok mem vs) : mask_ids n mask = mask_ids_from n mask 1 := by
  unfold mask_ids mask_ids_from
  apply List.filter_congr
  intro x _
  cases hx : uvm_processor_mask_test mask x with
  | false => simp
  | true =>
    obtain ⟨h1, -, -⟩ := no_cpu_bit mem vs n mask htab hsub hv x hx
    simp [h1]

theorem for_each_spec {σ β : Type} (n : Nat) (t : Tid) (mem : Memory) (va : Ptr)
    (vs : uvm_va_space_t) (mask : uvm_processor_mask_t) (hva : va ≠ NULL)
    (hvs : mem.va_spaces va = some vs) (hlock : uvm_assert_rwsem_locked t vs.lock = true)
    (hv : mask.valid n) (hsub : uvm_processor_mask_subset n mask vs.registered_gpus = true)
    (htab : gpus_table_ok mem vs) (body : σ → Ptr → M (Except β σ)) (f : σ → Ptr → σ)
    (hbody : ∀ (s : σ) (id : Nat), uvm_processor_mask_test mask id = true →
      body s (gpu_at vs id) mem = .ok (.ok (f s (gpu_at vs id)), mem))
    (fuel : Nat) (init : σ) (hfuel : (mask_ids n mask).length ≤ fuel) :
    for_each_va_space_gpu_in_mask n t va mask body fuel init mem =
      .ok (.finished (((mask_ids n mask).map (gpu_at vs)).foldl f init), mem) := by
  have hfirst := find_first_eq n mem va vs mask hva hvs hv hsub htab
  have hun := mask_ids_from_unfold n mask 1
  rw [← mask_ids_eq_from n mem vs mask hv hsub htab] at hun
  simp only [for_each_va_space_gpu_in_mask, M.bind_apply, load_va_space_ok mem va vs hva hvs,
    UVM_ASSERT, hlock, if_true, hfirst]
  by_cases hlt : uvm_processor_mask_find_next_id n mask UVM_ID_GPU0_VALUE < n
  · rw [if_pos hlt] at hun ⊢
    have hset := ((find_next_id_spec n mask UVM_ID_GPU0_VALUE).2.1 hlt).2
    rw [hun] at hfuel ⊢
    exact loop_from_spec n mem va vs mask hva hvs hv hsub htab body f hbody _ _ fuel init hset
      rfl (by simpa using hfuel)
  · rw [if_neg hlt] at hun ⊢
    rw [hun]
    unfold for_each_va_space_gpu_in_mask_from
    simp [M.pure_apply]

theorem foldl_append_singleton (l init : List Ptr) :
    l.foldl (fun s g => s ++ [g]) init = init ++ l := by
  induction l generalizing init with
  | nil => simp
  | cons a l ih => simp [ih]

/-- Claim C20. In a VA space whose lock the calling thread holds and whose
table holds a GPU object for every registered id, for every mask of the
capacity that is a subset of `registered_gpus`: `for_each_va_space_gpu_in_mask`
terminates within as many iterations as the mask has ids and leaves memory as
it was; the GPUs it visits are, in order, the table's GPU objects for the ids
set in the mask in strictly increasing order, each id once, and each visited
object carries its id; a loop body that only updates loop-carried state is
folded over that list. Each step `__uvm_processor_mask_find_next_va_space_gpu`
from a GPU returns `NULL` exactly when the mask holds no larger id, and
otherwise the GPU object whose id is the smallest id of the mask above the
current one. -/
theorem for_each_va_space_gpu_in_mask_visits_increasing (UVM_ID_MAX_PROCESSORS : Nat)
    (t : Tid) (mem : Memory) (va : Ptr) (vs : uvm_va_space_t) (mask : uvm_processor_mask_t)
    (hva : va ≠ NULL) (hvs : mem.va_spaces va = some vs)
    (hlock : uvm_assert_rwsem_locked t vs.lock = true)
    (hv : mask.valid UVM_ID_MAX_PROCESSORS)
    (hsub : uvm_processor_mask_subset UVM_ID_MAX_PROCESSORS mask vs.registered_gpus = true)
    (htab : gpus_table_ok mem vs) :
    (∀ fuel, uvm_processor_mask_get_count UVM_ID_MAX_PROCESSORS mask ≤ fuel →
      for_each_va_space_gpu_in_mask (β := Unit) UVM_ID_MAX_PROCESSORS t va mask record_visit
          fuel [] mem =
        .ok (.finished ((mask_ids UVM_ID_MAX_PROCESSORS mask).map (gpu_at vs)), mem)) ∧
    (∀ (σ : Type) (f : σ → Ptr → σ) (init : σ) (fuel : Nat),
      uvm_processor_mask_get_count UVM_ID_MAX_PROCESSORS mask ≤ fuel →
      for_each_va_space_gpu_in_mask (β := Unit) UVM_ID_MAX_PROCESSORS t va mask
          (fun s gpu => pure (.ok (f s gpu))) fuel init mem =
        .ok (.finished (((mask_ids UVM_ID_MAX_PROCESSORS mask).map (gpu_at vs)).foldl f init),
          mem)) ∧
    List.Sorted (· < ·) (mask_ids UVM_ID_MAX_PROCESSORS mask) ∧
    (∀ id : Nat, id ∈ mask_ids UVM_ID_MAX_PROCESSORS mask ↔
      uvm_processor_mask_test mask id = true) ∧
    (∀ id : Nat, uvm_processor_mask_test mask id = true →
      gpu_at vs id ≠ NULL ∧ ∃ g, mem.gpus (gpu_at vs id) = some g ∧ g.id = id) ∧
    (∀ gpu g, gpu ≠ NULL → mem.gpus gpu = some g →
      ∃ r, __uvm_processor_mask_find_next_va_space_gpu UVM_ID_MAX_PROCESSORS mask va gpu mem =
          .ok (r, mem) ∧
        (r = NULL ↔ ∀ id : Nat, uvm_processor_mask_test mask id = true → id ≤ g.id) ∧
        (r ≠ NULL → ∃ g', mem.gpus r = some g' ∧ r = gpu_at vs g'.id ∧
          uvm_processor_mask_test mask g'.id = true ∧ g.id < g'.id ∧
          ∀ id : Nat, uvm_processor_mask_test mask id = true → g.id < id → g'.id ≤ id)) := by
  have hcount : uvm_processor_mask_get_count UVM_ID_MAX_PROCESSORS mask =
      (mask_ids UVM_ID_MAX_PROCESSORS mask).length := rfl
  have hgpu : ∀ id : Nat, uvm_processor_mask_test mask id = true →
      gpu_at vs id ≠ NULL ∧ ∃ g, mem.gpus (gpu_at vs id) = some g ∧ g.id = id := by
    intro id hid
    obtain ⟨-, -, hreg⟩ := no_cpu_bit mem vs _ mask htab hsub hv id hid
    exact (get_gpu_ok mem va vs id hva hvs htab hreg).2
  refine ⟨?_, ?_, List.Sorted.filter _ (List.sorted_lt_range _), ?_, hgpu, ?_⟩
  · intro fuel hfuel
    have := for_each_spec (β := Unit) UVM_ID_MAX_PROCESSORS t mem va vs mask hva hvs hlock hv
      hsub htab record_visit (fun s g => s ++ [g]) (fun s id _ => rfl) fuel []
      (by rw [← hcount]; exact hfuel)
    rw [this, foldl_append_singleton]
    simp
  · intro σ f init fuel hfuel
    exact for_each_spec (β := Unit) UVM_ID_MAX_PROCESSORS t mem va vs mask hva hvs hlock hv
      hsub htab _ f (fun s id _ => rfl) fuel init (by rw [← hcount]; exact hfuel)
  · intro id
    simp only [mask_ids, List.mem_filter, List.mem_range]
    constructor
    · exact fun h => h.2
    · exact fun h => ⟨(mask_valid_iff _ mask).mp hv id h, h⟩
  · intro gpu g hg hgo
    refine ⟨_, find_next_eq UVM_ID_MAX_PROCESSORS mem va vs mask hva hvs hv hsub htab gpu g hg
      hgo, ?_⟩
    have key : ∀ r : Nat, r = uvm_processor_mask_find_next_id UVM_ID_MAX_PROCESSORS mask
        (g.id + 1) →
        ((if r < UVM_ID_MAX_PROCESSORS then gpu_at vs r else NULL) = NULL ↔
          ∀ id : Nat, uvm_processor_mask_test mask id = true → id ≤ g.id) ∧
        ((if r < UVM_ID_MAX_PROCESSORS then gpu_at vs r else NULL) ≠ NULL →
          ∃ g', mem.gpus (if r < UVM_ID_MAX_PROCESSORS then gpu_at vs r else NULL) = some g' ∧
            (if r < UVM_ID_MAX_PROCESSORS then gpu_at vs r else NULL) = gpu_at vs g'.id ∧
            uvm_processor_mask_test mask g'.id = true ∧ g.id < g'.id ∧
            ∀ id : Nat, uvm_processor_mask_test mask id = true → g.id < id → g'.id ≤ id) := by
      intro r hrdef
      obtain ⟨hle, hin, hmin⟩ := find_next_id_spec UVM_ID_MAX_PROCESSORS mask (g.id + 1)
      rw [← hrdef] at hle hin hmin
      by_cases hlt : r < UVM_ID_MAX_PROCESSORS
      · rw [if_pos hlt]
        obtain ⟨hgr, hrset⟩ := hin hlt
        obtain ⟨hne, g', hg', hgid'⟩ := hgpu r hrset
        refine ⟨⟨fun h => absurd h hne, fun h => ?_⟩, fun _ => ⟨g', hg', by rw [hgid'], ?_, ?_, ?_⟩⟩
        · exact absurd (Nat.lt_of_succ_le hgr) (Nat.not_lt.mpr (h r hrset))
        · rw [hgid']; exact hrset
        · rw [hgid']; exact Nat.lt_of_succ_le hgr
        · intro id hid hlt'
          rw [hgid']
          by_contra hcon
          have := hmin id hlt' (Nat.lt_of_not_le hcon)
          rw [this] at hid
          cases hid
      · rw [if_neg hlt]
        refine ⟨⟨fun _ => ?_, fun _ => rfl⟩, fun h => absurd rfl h⟩
        intro id hid
        by_contra hcon
        have hidlt := (mask_valid_iff _ mask).mp hv id hid
        have := hmin id (Nat.lt_of_not_le hcon) (Nat.lt_of_lt_of_le hidlt (Nat.le_of_not_lt hlt))
        rw [this] at hid
        cases hid
    exact key _ rfl

/-! ## NUMA affinity -/

theorem ReadOnly.pure {α : Type} (a : α) : ReadOnly (pure a : M α) := by
  intro mem b mem' h
  simp only [M.pure_apply, Except.ok.injEq, Prod.mk.injEq] at h
  exact h.2.symm

theorem ReadOnly.bind {α β : Type} {x : M α} {f : α → M β} (hx : ReadOnly x)
    (hf : ∀ a, ReadOnly (f a)) : ReadOnly (x >>= f) := by
  intro mem b mem' h
  rw [M.bind_apply] at h
  cases hxm : x mem with
  | error e => simp [hxm] at h
  | ok r =>
    obtain ⟨a, mem1⟩ := r
    simp only [hxm] at h
    have h1 := hx mem a mem1 hxm
    have h2 := hf a mem1 b mem' h
    rw [h2, h1]

theorem ReadOnly.assert (c : Bool) : ReadOnly (UVM_ASSERT c) := by
  intro mem a mem' h
  unfold UVM_ASSERT at h
  split at h
  · simp only [Except.ok.injEq, Prod.mk.injEq] at h
    exact h.2.symm
  · cases h

theorem ReadOnly.load_va_space (p : Ptr) : ReadOnly (load_va_space p) := by
  intro mem a mem' h
  unfold Uvm.load_va_space at h
  split at h
  · simp only [Except.ok.injEq, Prod.mk.injEq] at h
    exact h.2.symm
  · cases h

theorem ReadOnly.load_gpu (p : Ptr) : ReadOnly (load_gpu p) := by
  intro mem a mem' h
  unfold Uvm.load_gpu at h
  split at h
  · simp only [Except.ok.injEq, Prod.mk.injEq] at h
    exact h.2.symm
  · cases h

theorem ReadOnly.lift {α : Type} (x : Except Fault α) : ReadOnly (M.lift x) := by
  intro mem a mem' h
  unfold M.lift at h
  split at h
  · simp only [Except.ok.injEq, Prod.mk.injEq] at h
    exact h.2.symm
  · cases h

theorem ReadOnly.array_get (xs : List Ptr) (i : Nat) : ReadOnly (array_get xs i) := by
  intro mem a mem' h
  unfold Uvm.array_get at h
  split at h
  · simp only [Except.ok.injEq, Prod.mk.injEq] at h
    exact h.2.symm
  · cases h

theorem ReadOnly.affinity_get (xs : List uvm_cpu_gpu_affinity_t) (i : Nat) :
    ReadOnly (affinity_get xs i) := by
  intro mem a mem' h
  unfold Uvm.affinity_get at h
  split at h
  · simp only [Except.ok.injEq, Prod.mk.injEq] at h
    exact h.2.symm
  · cases h

theorem ReadOnly.load_g_uvm_global : ReadOnly load_g_uvm_global := by
  intro mem a mem' h
  simp only [Uvm.load_g_uvm_global, Except.ok.injEq, Prod.mk.injEq] at h
  exact h.2.symm

theorem ReadOnly.nv_numa_node_has_memory (node_id : Int) :
    ReadOnly (nv_numa_node_has_memory node_id) := by
  intro mem a mem' h
  simp only [Uvm.nv_numa_node_has_memory, Except.ok.injEq, Prod.mk.injEq] at h
  exact h.2.symm

theorem ReadOnly.ite {α : Type} {c : Prop} [Decidable c] {x y : M α} (hx : ReadOnly x)
    (hy : ReadOnly y) : ReadOnly (if c then x else y) := by
  split
  · exact hx
  · exact hy

theorem ReadOnly.uvm_gpu_get (global_id : Nat) : ReadOnly (uvm_gpu_get global_id) :=
  ReadOnly.bind ReadOnly.load_g_uvm_global fun _ =>
    ReadOnly.bind (ReadOnly.lift _) fun _ => ReadOnly.array_get _ _

theorem ReadOnly.uvm_va_space_get_gpu (va : Ptr) (id : uvm_processor_id_t) :
    ReadOnly (uvm_va_space_get_gpu va id) :=
  ReadOnly.bind (ReadOnly.load_va_space _) fun _ =>
  ReadOnly.bind (ReadOnly.assert _) fun _ =>
  ReadOnly.bind (ReadOnly.load_va_space _) fun _ =>
  ReadOnly.bind (ReadOnly.lift _) fun _ =>
  ReadOnly.bind (ReadOnly.array_get _ _) fun _ =>
  ReadOnly.bind (ReadOnly.assert _) fun _ =>
  ReadOnly.bind (ReadOnly.load_gpu _) fun _ =>
  ReadOnly.bind (ReadOnly.uvm_gpu_get _) fun _ =>
  ReadOnly.bind (ReadOnly.assert _) fun _ => ReadOnly.pure _

theorem ReadOnly.find_first (n : Nat) (mask : uvm_processor_mask_t) (va : Ptr) :
    ReadOnly (uvm_processor_mask_find_first_va_space_gpu n mask va) := by
  unfold uvm_processor_mask_find_first_va_space_gpu
  refine ReadOnly.bind (ReadOnly.load_va_space _) fun _ =>
    ReadOnly.bind (ReadOnly.assert _) fun _ => ?_
  dsimp only
  split
  · exact ReadOnly.pure _
  · exact ReadOnly.bind (ReadOnly.pure _) fun _ =>
      ReadOnly.bind (ReadOnly.uvm_va_space_get_gpu _ _) fun _ =>
      ReadOnly.bind (ReadOnly.assert _) fun _ => ReadOnly.pure _

theorem ReadOnly.find_next (n : Nat) (mask : uvm_processor_mask_t) (va gpu : Ptr) :
    ReadOnly (__uvm_processor_mask_find_next_va_space_gpu n mask va gpu) := by
  unfold __uvm_processor_mask_find_next_va_space_gpu
  refine ReadOnly.bind (ReadOnly.assert _) fun _ =>
    ReadOnly.bind (ReadOnly.load_va_space _) fun _ =>
    ReadOnly.bind (ReadOnly.assert _) fun _ =>
    ReadOnly.bind (ReadOnly.load_gpu _) fun _ => ?_
  dsimp only
  split
  · exact ReadOnly.pure _
  · exact ReadOnly.bind (ReadOnly.pure _) fun _ =>
      ReadOnly.bind (ReadOnly.uvm_va_space_get_gpu _ _) fun _ =>
      ReadOnly.bind (ReadOnly.assert _) fun _ => ReadOnly.pure _

theorem ReadOnly.loop_from {σ β : Type} (n : Nat) (va : Ptr) (mask : uvm_processor_mask_t)
    (body : σ → Ptr → M (Except β σ)) (hbody : ∀ s gpu, ReadOnly (body s gpu)) :
    ∀ (fuel : Nat) (s : σ) (gpu : Ptr),
      ReadOnly (for_each_va_space_gpu_in_mask_from n va mask body fuel s gpu) := by
  intro fuel
  induction fuel with
  | zero =>
    intro s gpu
    unfold for_each_va_space_gpu_in_mask_from
    split
    · exact ReadOnly.pure _
    · intro mem a mem' h
      cases h
  | succ fuel ih =>
    intro s gpu
    unfold for_each_va_space_gpu_in_mask_from
    split
    · exact ReadOnly.pure _
    · refine ReadOnly.bind (hbody s gpu) fun r => ?_
      cases r with
      | error b => exact ReadOnly.pure _
      | ok s' => exact ReadOnly.bind (ReadOnly.find_next _ _ _ _) fun _ => ih _ _

theorem ReadOnly.for_each_va_space_gpu {σ β : Type} (n : Nat) (t : Tid) (va : Ptr)
    (body : σ → Ptr → M (Except β σ)) (hbody : ∀ s gpu, ReadOnly (body s gpu)) (fuel : Nat)
    (init : σ) : ReadOnly (for_each_va_space_gpu n t va body fuel init) := by
  unfold Uvm.for_each_va_space_gpu for_each_va_space_gpu_in_mask
  exact ReadOnly.bind (ReadOnly.load_va_space _) fun _ =>
    ReadOnly.bind (ReadOnly.load_va_space _) fun _ =>
    ReadOnly.bind (ReadOnly.assert _) fun _ =>
    ReadOnly.bind (ReadOnly.find_first _ _ _) fun _ => ReadOnly.loop_from _ _ _ _ hbody _ _ _

theorem ReadOnly.find_gpu_with_memory_node_id (n : Nat) (t : Tid) (va : Ptr) (node_id : Int) :
    ReadOnly (uvm_va_space_find_gpu_with_memory_node_id n t va node_id) := by
  unfold uvm_va_space_find_gpu_with_memory_node_id
  refine ReadOnly.bind (ReadOnly.nv_numa_node_has_memory _) fun _ =>
    ReadOnly.bind (ReadOnly.assert _) fun _ =>
    ReadOnly.bind ReadOnly.load_g_uvm_global fun g => ?_
  dsimp only
  split
  · exact ReadOnly.pure _
  · refine ReadOnly.bind (ReadOnly.pure _) fun _ =>
      ReadOnly.bind (ReadOnly.for_each_va_space_gpu _ _ _ _ ?_ _ _) fun r => ?_
    · intro s gpu
      refine ReadOnly.bind (ReadOnly.load_gpu _) fun _ =>
        ReadOnly.bind (ReadOnly.assert _) fun _ =>
        ReadOnly.bind (ReadOnly.load_gpu _) fun _ => ?_
      dsimp only
      split
      · exact ReadOnly.pure _
      · exact ReadOnly.bind (ReadOnly.pure _) fun _ => ReadOnly.pure _
    · cases r with
      | finished s => exact ReadOnly.pure _
      | returned b => exact ReadOnly.pure _

theorem ReadOnly.memory_node_is_gpu (n : Nat) (t : Tid) (va : Ptr) (node_id : Int) :
    ReadOnly (uvm_va_space_memory_node_is_gpu n t va node_id) :=
  ReadOnly.bind (ReadOnly.find_gpu_with_memory_node_id _ _ _ _) fun _ => ReadOnly.pure _

/-- The scan over the GPU ids `a, a + 1, ..., a + k - 1` returns the mask of the
first entry with the node id among the entries `a - 1, ..., a + k - 2`. -/
theorem scan_spec (mem : Memory) (va : Ptr) (vs : uvm_va_space_t) (node_id : Int)
    (hva : va ≠ NULL) (hvs : mem.va_spaces va = some vs) :
    ∀ (k a : Nat), a + k ≤ vs.gpu_cpu_numa_affinity.length →
      get_gpus_attached_scan va node_id (List.range' (a + 1) k) mem =
        .ok (match ((vs.gpu_cpu_numa_affinity.drop a).take k).find?
            (fun e => decide (e.numa_node = node_id)) with
          | some e => e.gpus
          | none => uvm_processor_mask_zero, mem) := by
  intro k
  induction k with
  | zero =>
    intro a _
    simp [get_gpus_attached_scan, M.pure_apply]
  | succ k ih =>
    intro a ha
    have hlt : a < vs.gpu_cpu_numa_affinity.length := by omega
    have hdrop : vs.gpu_cpu_numa_affinity.drop a =
        vs.gpu_cpu_numa_affinity[a] :: vs.gpu_cpu_numa_affinity.drop (a + 1) :=
      List.drop_eq_getElem_cons hlt
    have hget : vs.gpu_cpu_numa_affinity[a]? = some vs.gpu_cpu_numa_affinity[a] :=
      List.getElem?_eq_getElem hlt
    have hidx : uvm_id_gpu_index (a + 1) = .ok a := by
      simp [uvm_id_gpu_index]
    have ih1 := ih (a + 1) (by omega)
    rw [hdrop, List.take_succ_cons, List.find?_cons]
    simp only [List.range', get_gpus_attached_scan, M.bind_apply,
      load_va_space_ok mem va vs hva hvs, M.lift, hidx, affinity_get, hget]
    by_cases hn : vs.gpu_cpu_numa_affinity[a].numa_node = node_id
    · simp [hn, M.pure_apply]
    · simp only [hn, if_false, decide_False]
      exact ih1

theorem scan_eq (n : Nat) (mem : Memory) (va : Ptr) (vs : uvm_va_space_t) (node_id : Int)
    (hva : va ≠ NULL) (hvs : mem.va_spaces va = some vs)
    (hlen : vs.gpu_cpu_numa_affinity.length = n - 1) :
    get_gpus_attached_scan va node_id (gpu_ids n) mem = .ok (attached_gpus vs node_id, mem) := by
  have h := scan_spec mem va vs node_id hva hvs (n - 1) 0 (by omega)
  have ht : (vs.gpu_cpu_numa_affinity.drop 0).take (n - 1) = vs.gpu_cpu_numa_affinity := by
    rw [List.drop_zero, ← hlen, List.take_length]
  rw [ht] at h
  exact h

theorem attached_gpus_lowest (vs : uvm_va_space_t) (node_id : Int) :
    (∀ (i : Nat) (e : uvm_cpu_gpu_affinity_t), vs.gpu_cpu_numa_affinity[i]? = some e →
      e.numa_node = node_id →
      (∀ (j : Nat) (b : uvm_cpu_gpu_affinity_t), j < i → vs.gpu_cpu_numa_affinity[j]? = some b →
        b.numa_node ≠ node_id) →
      attached_gpus vs node_id = e.gpus) ∧
    ((∀ e ∈ vs.gpu_cpu_numa_affinity, e.numa_node ≠ node_id) →
      attached_gpus vs node_id = uvm_processor_mask_zero) := by
  unfold attached_gpus
  generalize vs.gpu_cpu_numa_affinity = xs
  constructor
  · intro i
    induction xs generalizing i with
    | nil => intro e h; simp at h
    | cons x xs ih =>
      intro e he hn hlow
      cases i with
      | zero =>
        simp only [List.getElem?_cons_zero, Option.some.injEq] at he
        subst he
        simp [List.find?_cons, hn]
      | succ i =>
        have hx : x.numa_node ≠ node_id := hlow 0 x (Nat.succ_pos i) (by simp)
        simp only [List.getElem?_cons_succ] at he
        simp only [List.find?_cons, hx, decide_False]
        exact ih i e he hn fun j b hj hb => hlow (j + 1) b (Nat.succ_lt_succ hj) (by simpa using hb)
  · intro h
    have : xs.find? (fun a => decide (a.numa_node = node_id)) = none := by
      rw [List.find?_eq_none]
      intro e he
      simpa using h e he
    rw [this]

theorem find_gpu_none (n : Nat) (t : Tid) (mem : Memory) (va : Ptr) (vs : uvm_va_space_t)
    (node_id : Int) (hva : va ≠ NULL) (hvs : mem.va_spaces va = some vs)
    (hmem : mem.numa_node_has_memory node_id = true)
    (hlock : uvm_assert_rwsem_locked t vs.lock = true) (hv : vs.registered_gpus.valid n)
    (htab : gpus_table_ok mem vs)
    (hnuma : ∀ (id : Nat) (g : uvm_gpu_t), uvm_processor_mask_test vs.registered_gpus id = true →
      mem.gpus (gpu_at vs id) = some g →
      g.numa_info_enabled = true ∧ g.numa_info_node_id ≠ node_id) :
    uvm_va_space_find_gpu_with_memory_node_id n t va node_id mem = .ok (NULL, mem) := by
  have hsub : uvm_processor_mask_subset n vs.registered_gpus vs.registered_gpus = true :=
    (mask_subset_iff n _ _).mpr fun _ _ h => h
  have hfuel : (mask_ids n vs.registered_gpus).length ≤ n := by
    unfold mask_ids
    exact (List.length_filter_le _ _).trans (by simp)
  have hloop := for_each_spec (σ := Unit) (β := Ptr) n t mem va vs vs.registered_gpus hva hvs
    hlock hv hsub htab
    (fun _ gpu => do
      UVM_ASSERT (← load_gpu gpu).numa_info_enabled
      if (← load_gpu gpu).numa_info_node_id = node_id then
        return .error gpu
      return .ok ())
    (fun _ _ => ())
    (by
      intro s id hid
      obtain ⟨-, hne, g, hg, -⟩ := get_gpu_ok mem va vs id hva hvs htab hid
      obtain ⟨hen, hnode⟩ := hnuma id g hid hg
      simp [M.bind_apply, load_gpu_ok mem _ g hne hg, UVM_ASSERT, hen, hnode, M.pure_apply])
    n () hfuel
  unfold uvm_va_space_find_gpu_with_memory_node_id
  simp only [M.bind_apply, nv_numa_node_has_memory, hmem, UVM_ASSERT, if_true, load_g_uvm_global]
  cases hats : mem.g_uvm_global.ats_supported with
  | false => simp [M.pure_apply]
  | true =>
    simp only [Bool.not_true, Bool.false_eq_true, if_false, M.bind_apply, M.pure_apply,
      for_each_va_space_gpu, load_va_space_ok mem va vs hva hvs]
    rw [hloop]
    rfl

/-- Claim C15. On a VA space whose `gpu_cpu_numa_affinity` array has its
declared `UVM_ID_MAX_GPUS` entries, whenever
`uvm_va_space_get_gpus_attached_to_cpu_node` returns, memory (and so the VA
space) is as before and the mask written is the `gpus` mask of the
lowest-indexed entry whose `numa_node` is `node_id`, the empty mask when no
entry has that node id; and it does return when the node has memory and either
ATS is unsupported, or the caller holds the VA space lock and every registered
GPU has NUMA enabled with a memory node other than `node_id`. -/
theorem get_gpus_attached_to_cpu_node_lowest_entry (UVM_ID_MAX_PROCESSORS : Nat) (t : Tid)
    (mem : Memory) (va_space : Ptr) (vs : uvm_va_space_t) (node_id : Int)
    (hva : va_space ≠ NULL) (hvs : mem.va_spaces va_space = some vs)
    (hlen : vs.gpu_cpu_numa_affinity.length = UVM_ID_MAX_PROCESSORS - 1) :
    (∀ gpus mem', uvm_va_space_get_gpus_attached_to_cpu_node UVM_ID_MAX_PROCESSORS t va_space
        node_id mem = .ok (gpus, mem') →
      mem' = mem ∧ gpus = attached_gpus vs node_id) ∧
    (∀ (i : Nat) (e : uvm_cpu_gpu_affinity_t), vs.gpu_cpu_numa_affinity[i]? = some e →
      e.numa_node = node_id →
      (∀ (j : Nat) (b : uvm_cpu_gpu_affinity_t), j < i → vs.gpu_cpu_numa_affinity[j]? = some b →
        b.numa_node ≠ node_id) →
      attached_gpus vs node_id = e.gpus) ∧
    ((∀ e ∈ vs.gpu_cpu_numa_affinity, e.numa_node ≠ node_id) →
      attached_gpus vs node_id = uvm_processor_mask_zero) ∧
    (mem.numa_node_has_memory node_id = true → mem.g_uvm_global.ats_supported = false →
      uvm_va_space_get_gpus_attached_to_cpu_node UVM_ID_MAX_PROCESSORS t va_space node_id mem =
        .ok (attached_gpus vs node_id, mem)) ∧
    (mem.numa_node_has_memory node_id = true →
      uvm_assert_rwsem_locked t vs.lock = true →
      vs.registered_gpus.valid UVM_ID_MAX_PROCESSORS → gpus_table_ok mem vs →
      (∀ (id : Nat) (g : uvm_gpu_t), uvm_processor_mask_test vs.registered_gpus id = true →
        mem.gpus (gpu_at vs id) = some g →
        g.numa_info_enabled = true ∧ g.numa_info_node_id ≠ node_id) →
      uvm_va_space_get_gpus_attached_to_cpu_node UVM_ID_MAX_PROCESSORS t va_space node_id mem =
        .ok (attached_gpus vs node_id, mem)) := by
  have hscan := scan_eq UVM_ID_MAX_PROCESSORS mem va_space vs node_id hva hvs hlen
  refine ⟨?_, (attached_gpus_lowest vs node_id).1, (attached_gpus_lowest vs node_id).2, ?_, ?_⟩
  · intro gpus mem' h
    unfold uvm_va_space_get_gpus_attached_to_cpu_node at h
    rw [M.bind_apply] at h
    cases hq : uvm_va_space_memory_node_is_gpu UVM_ID_MAX_PROCESSORS t va_space node_id mem with
    | error e => simp [hq] at h
    | ok r =>
      obtain ⟨b, mem1⟩ := r
      have hm1 := ReadOnly.memory_node_is_gpu UVM_ID_MAX_PROCESSORS t va_space node_id mem b
        mem1 hq
      subst hm1
      simp only [hq, M.bind_apply, UVM_ASSERT] at h
      cases b with
      | true => simp at h
      | false =>
        simp only [Bool.not_false, if_true, hscan, Except.ok.injEq, Prod.mk.injEq] at h
        exact ⟨h.2.symm, h.1.symm⟩
  · intro hmem hats
    have hfind : uvm_va_space_find_gpu_with_memory_node_id UVM_ID_MAX_PROCESSORS t va_space
        node_id mem = .ok (NULL, mem) := by
      unfold uvm_va_space_find_gpu_with_memory_node_id
      simp [M.bind_apply, nv_numa_node_has_memory, hmem, UVM_ASSERT, load_g_uvm_global, hats,
        M.pure_apply]
    simp only [uvm_va_space_get_gpus_attached_to_cpu_node, uvm_va_space_memory_node_is_gpu,
      M.bind_apply, hfind, M.pure_apply, UVM_ASSERT, bne_self_eq_false, Bool.not_false, if_true,
      hscan]
  · intro hmem hlock hv htab hnuma
    have hfind := find_gpu_none UVM_ID_MAX_PROCESSORS t mem va_space vs node_id hva hvs hmem
      hlock hv htab hnuma
    simp only [uvm_va_space_get_gpus_attached_to_cpu_node, uvm_va_space_memory_node_is_gpu,
      M.bind_apply, hfind, M.pure_apply, UVM_ASSERT, bne_self_eq_false, Bool.not_false, if_true,
      hscan]

theorem testBit_six (n : Nat) (h : Nat.testBit 6 n = true) : n = 1 ∨ n = 2 := by
  rcases n with _ | _ | _ | n
  · simp at h
  · exact Or.inl rfl
  · exact Or.inr rfl
  · exfalso
    have h2 : (6 : Nat) < 2 ^ (n + 3) := by
      calc (6 : Nat) < 2 ^ 3 := by norm_num
        _ ≤ 2 ^ (n + 3) := Nat.pow_le_pow_right (by norm_num) (by omega)
    rw [Nat.testBit_lt_two_pow h2] at h
    simp at h

theorem example_numa_table_ok : gpus_table_ok example_memory_numa example_va_space_numa := by
  intro id hid
  rcases testBit_six id hid with h | h
  · subst h
    exact ⟨0, 4, { id := 1, global_id := 1, numa_info_enabled := true, numa_info_node_id := 2 },
      0, rfl, rfl, by decide, rfl, rfl, rfl, rfl⟩
  · subst h
    exact ⟨1, 5, { id := 2, global_id := 2, numa_info_enabled := true, numa_info_node_id := 3 },
      1, rfl, rfl, by decide, rfl, rfl, rfl, rfl⟩

theorem example_numa_gpus (node_id : Int) (hn : node_id ≠ 2 ∧ node_id ≠ 3) (id : Nat)
    (g : uvm_gpu_t)
    (hid : uvm_processor_mask_test example_va_space_numa.registered_gpus id = true)
    (hg : example_memory_numa.gpus (gpu_at example_va_space_numa id) = some g) :
    g.numa_info_enabled = true ∧ g.numa_info_node_id ≠ node_id := by
  rcases testBit_six id hid with h | h
  · subst h
    have : g = { id := 1, global_id := 1, numa_info_enabled := true, numa_info_node_id := 2 } :=
      (Option.some.inj hg).symm
    subst this
    exact ⟨rfl, fun h => hn.1 h.symm⟩
  · subst h
    have : g = { id := 2, global_id := 2, numa_info_enabled := true, numa_info_node_id := 3 } :=
      (Option.some.inj hg).symm
    subst this
    exact ⟨rfl, fun h => hn.2 h.symm⟩

/-! ## Deferred-free lists -/

theorem get_set_same (mem : ListMemory) (p : ListPtr) (h v : list_head)
    (hp : mem.get p = some h) : (mem.set p v).get p = some v := by
  cases p with
  | head a =>
    simp only [ListMemory.get] at hp ⊢
    split at hp
    · cases hp
    · rename_i hn
      simp [ListMemory.set, hn]
  | node a =>
    simp only [ListMemory.get] at hp ⊢
    split at hp
    · cases hp
    · rename_i hn
      cases ho : mem.objects a with
      | none => simp [ho] at hp
      | some o => simp [ListMemory.set, hn, ho]

theorem get_set_other (mem : ListMemory) (p q : ListPtr) (v : list_head) (hne : q ≠ p) :
    (mem.set p v).get q = mem.get q := by
  cases p with
  | head a =>
    cases q with
    | head b =>
      have : b ≠ a := fun h => hne (by rw [h])
      simp [ListMemory.get, ListMemory.set, Function.update_noteq this]
    | node b => simp [ListMemory.get, ListMemory.set]
  | node a =>
    cases q with
    | head b => simp [ListMemory.get, ListMemory.set]
    | node b =>
      have : b ≠ a := fun h => hne (by rw [h])
      simp [ListMemory.get, ListMemory.set, Function.update_noteq this]

theorem type_of_set (mem : ListMemory) (p : ListPtr) (v : list_head) (x : Ptr) :
    (mem.set p v).type_of x = mem.type_of x := by
  cases p with
  | head a => rfl
  | node a =>
    by_cases hx : x = a
    · subst hx
      cases ho : mem.objects x <;> simp [ListMemory.type_of, ListMemory.set, ho]
    · simp [ListMemory.type_of, ListMemory.set, Function.update_noteq hx]

theorem store_prev_ok (mem : ListMemory) (p n : ListPtr) (h : list_head)
    (hp : mem.get p = some h) : store_prev p n mem = .ok (mem.set p { h with prev := n }) := by
  simp [store_prev, hp]

theorem store_next_ok (mem : ListMemory) (p n : ListPtr) (h : list_head)
    (hp : mem.get p = some h) : store_next p n mem = .ok (mem.set p { h with next := n }) := by
  simp [store_next, hp]

/-- The four assignments of `__list_add` on readable nodes, with `new` neither
of its neighbours. -/
theorem list_add_spec (mem : ListMemory) (new prev next : ListPtr) (hn hp hx : list_head)
    (hnew : mem.get new = some hn) (hprev : mem.get prev = some hp)
    (hnext : mem.get next = some hx) (h1 : new ≠ next) (h2 : new ≠ prev) :
    ∃ mem', __list_add new prev next mem = .ok mem' ∧
      mem'.get new = some { next := next, prev := prev } ∧
      (mem'.get next).map (·.prev) = some new ∧
      (mem'.get prev).map (·.next) = some new ∧
      (∀ q, q ≠ new → q ≠ prev → (mem'.get q).map (·.next) = (mem.get q).map (·.next)) ∧
      (∀ q, q ≠ new → q ≠ next → (mem'.get q).map (·.prev) = (mem.get q).map (·.prev)) ∧
      (∀ q, q ≠ new → q ≠ next → q ≠ prev → mem'.get q = mem.get q) ∧
      (∀ x, mem'.type_of x = mem.type_of x) := by
  have e1 := store_prev_ok mem next new hx hnext
  have g1n : (mem.set next { hx with prev := new }).get new = some hn := by
    rw [get_set_other _ _ _ _ h1]; exact hnew
  have e2 := store_next_ok _ new next hn g1n
  have g2n := get_set_same _ new hn { hn with next := next } g1n
  have e3 := store_prev_ok _ new prev _ g2n
  have g3n := get_set_same _ new _ { next := next, prev := prev } g2n
  have g1x := get_set_same mem next hx { hx with prev := new } hnext
  have g3 : ∀ q, q ≠ new →
      (((mem.set next { hx with prev := new }).set new { hn with next := next }).set new
        { next := next, prev := prev }).get q = (mem.set next { hx with prev := new }).get q := by
    intro q hq
    rw [get_set_other _ _ _ _ hq, get_set_other _ _ _ _ hq]
  obtain ⟨h3, hh3, hh3p⟩ : ∃ h3, (((mem.set next { hx with prev := new }).set new
      { hn with next := next }).set new { next := next, prev := prev }).get prev = some h3 ∧
      (prev ≠ next → h3 = hp) := by
    rw [g3 prev (Ne.symm h2)]
    by_cases hpn : prev = next
    · subst hpn
      exact ⟨_, g1x, fun h => absurd rfl h⟩
    · rw [get_set_other _ _ _ _ hpn]
      exact ⟨hp, hprev, fun _ => rfl⟩
  have e4 := store_next_ok _ prev new h3 hh3
  have g4 := get_set_same _ prev h3 { h3 with next := new } hh3
  refine ⟨(((mem.set next { hx with prev := new }).set new { hn with next := next }).set new
    { next := next, prev := prev }).set prev { h3 with next := new }, ?_, ?_, ?_, ?_, ?_, ?_, ?_, ?_⟩
  · simp only [__list_add, e1, bind, Except.bind, e2, e3]
    exact e4
  · rw [get_set_other _ _ _ _ h2, g3n]
  · by_cases hpn : prev = next
    · subst hpn
      rw [g4]
      have : h3 = { hx with prev := new } := by
        have := g3 prev (Ne.symm h2)
        rw [hh3, g1x] at this
        exact Option.some.inj this
      subst this
      rfl
    · rw [get_set_other _ _ _ _ (Ne.symm hpn), g3 next (Ne.symm h1), g1x]
      rfl
  · rw [g4]
    rfl
  · intro q hq1 hq2
    rw [get_set_other _ _ _ _ hq2, g3 q hq1]
    by_cases hqn : q = next
    · subst hqn
      rw [g1x, hnext]
      rfl
    · rw [get_set_other _ _ _ _ hqn]
  · intro q hq1 hq2
    by_cases hqp : q = prev
    · subst hqp
      rw [g4]
      have := hh3p hq2
      subst this
      rw [hprev]
      rfl
    · rw [get_set_other _ _ _ _ hqp, g3 q hq1, get_set_other _ _ _ _ hq2]
  · intro q hq1 hq2 hq3
    rw [get_set_other _ _ _ _ hq3, g3 q hq1, get_set_other _ _ _ _ hq2]
  · intro x
    rw [type_of_set, type_of_set, type_of_set, type_of_set]

theorem deferred_free_object_add_spec (mem : ListMemory) (list : ListPtr) (object : Ptr)
    (type : uvm_deferred_free_object_type_t) (hl hp : list_head)
    (o : uvm_deferred_free_object_t) (hlist : mem.get list = some hl)
    (hlast : mem.get hl.prev = some hp) (hobj : mem.objects object = some o)
    (hnn : object ≠ NULL) (h1 : ListPtr.node object ≠ list)
    (h2 : ListPtr.node object ≠ hl.prev) :
    ∃ mem', uvm_deferred_free_object_add list object type mem = .ok mem' ∧
      mem'.get (.node object) = some { next := list, prev := hl.prev } ∧
      (mem'.get list).map (·.prev) = some (.node object) ∧
      (mem'.get hl.prev).map (·.next) = some (.node object) ∧
      (∀ q, q ≠ .node object → q ≠ hl.prev →
        (mem'.get q).map (·.next) = (mem.get q).map (·.next)) ∧
      (∀ q, q ≠ .node object → q ≠ list →
        (mem'.get q).map (·.prev) = (mem.get q).map (·.prev)) ∧
      (∀ q, q ≠ .node object → q ≠ list → q ≠ hl.prev → mem'.get q = mem.get q) ∧
      (∀ x, mem'.type_of x = if x = object then some type else mem.type_of x) := by
  have hst : store_type object type mem = .ok
      { mem with objects := Function.update mem.objects object (some { o with type := type }) } := by
    simp [store_type, deref, hnn, hobj]
  have hget : ∀ q, ({ mem with
      objects := Function.update mem.objects object (some { o with type := type }) } :
        ListMemory).get q = mem.get q := by
    intro q
    cases q with
    | head a => rfl
    | node a =>
      by_cases ha : a = object
      · subst ha
        simp [ListMemory.get, hobj]
      · simp [ListMemory.get, Function.update_noteq ha]
  have htype : ∀ x, ({ mem with
      objects := Function.update mem.objects object (some { o with type := type }) } :
        ListMemory).type_of x = if x = object then some type else mem.type_of x := by
    intro x
    by_cases hx : x = object
    · subst hx
      simp [ListMemory.type_of]
    · simp [ListMemory.type_of, Function.update_noteq hx, hx]
  have hnode : mem.get (.node object) = some o.list_node := by
    simp [ListMemory.get, hnn, hobj]
  obtain ⟨mem', hadd, r1, r2, r3, r4, r5, r6, r7⟩ := list_add_spec _ (.node object) hl.prev list
    o.list_node hp hl ((hget _).trans hnode) ((hget _).trans hlast) ((hget _).trans hlist) h1 h2
  refine ⟨mem', ?_, r1, r2, r3, ?_, ?_, ?_, ?_⟩
  · simp only [uvm_deferred_free_object_add, hst, bind, Except.bind, list_add_tail, hget, hlist]
    exact hadd
  · intro q hq1 hq2
    rw [r4 q hq1 hq2, hget]
  · intro q hq1 hq2
    rw [r5 q hq1 hq2, hget]
  · intro q hq1 hq2 hq3
    rw [r6 q hq1 hq2 hq3, hget]
  · intro x
    rw [r7, htype]

theorem linked_congr (mem mem' : ListMemory) (a b : ListPtr)
    (ha : (mem'.get a).map (·.next) = (mem.get a).map (·.next))
    (hb : (mem'.get b).map (·.prev) = (mem.get b).map (·.prev)) (h : linked mem a b) :
    linked mem' a b :=
  ⟨ha.trans h.1, hb.trans h.2⟩

theorem chain_congr (mem mem' : ListMemory) :
    ∀ (xs : List ListPtr) (a z : ListPtr),
      (∀ q ∈ a :: xs, (mem'.get q).map (·.next) = (mem.get q).map (·.next)) →
      (∀ q ∈ xs ++ [z], (mem'.get q).map (·.prev) = (mem.get q).map (·.prev)) →
      chain mem a xs z → chain mem' a xs z := by
  intro xs
  induction xs with
  | nil =>
    intro a z hn hp h
    exact linked_congr mem mem' a z (hn a (by simp)) (hp z (by simp)) h
  | cons x xs ih =>
    intro a z hn hp h
    exact ⟨linked_congr mem mem' a x (hn a (by simp)) (hp x (by simp)) h.1,
      ih x z (fun q hq => hn q (List.mem_cons_of_mem _ hq))
        (fun q hq => hp q (by simpa using Or.inr (by simpa using hq))) h.2⟩

theorem chain_snoc (mem : ListMemory) :
    ∀ (xs : List ListPtr) (a y z : ListPtr),
      chain mem a (xs ++ [y]) z ↔ chain mem a xs y ∧ linked mem y z := by
  intro xs
  induction xs with
  | nil => intro a y z; rfl
  | cons x xs ih =>
    intro a y z
    show linked mem a x ∧ chain mem x (xs ++ [y]) z ↔ (linked mem a x ∧ chain mem x xs y) ∧ linked mem y z
    rw [ih, and_assoc]

theorem chain_next (mem : ListMemory) (xs : List ListPtr) (a z : ListPtr)
    (h : chain mem a xs z) : ∃ ha, mem.get a = some ha ∧ ha.next = (xs ++ [z]).head (by simp) := by
  have key : ∀ b, linked mem a b → ∃ ha, mem.get a = some ha ∧ ha.next = b := by
    intro b hb
    cases hg : mem.get a with
    | none => simp [linked, hg] at hb
    | some ha =>
      refine ⟨ha, rfl, ?_⟩
      simpa [linked, hg] using hb.1
  cases xs with
  | nil => exact key z h
  | cons x xs => exact key x h.1

theorem traverse_from_chain (mem : ListMemory) (head : ListPtr) :
    ∀ (ys : List Ptr) (a : ListPtr) (steps : Nat) (ha : list_head),
      chain mem a (ys.map .node) head → (∀ y ∈ ys, ListPtr.node y ≠ head) →
      ys.length < steps → mem.get a = some ha → traverse_from mem head steps ha.next = ys := by
  intro ys
  induction ys with
  | nil =>
    intro a steps ha h _ hlen hget
    obtain ⟨ha', hget', hn⟩ := chain_next mem _ a head h
    rw [hget] at hget'
    cases hget'
    cases steps with
    | zero => simp at hlen
    | succ steps =>
      rw [hn]
      simp [traverse_from]
  | cons y ys ih =>
    intro a steps ha h hne hlen hget
    obtain ⟨ha', hget', hn⟩ := chain_next mem _ a head h
    rw [hget] at hget'
    cases hget'
    obtain ⟨hy, hgy, -⟩ := chain_next mem _ _ head h.2
    cases steps with
    | zero => simp at hlen
    | succ steps =>
      rw [hn]
      simp only [List.map_cons, List.cons_append, List.head_cons, traverse_from,
        hne y (by simp), if_false, hgy]
      rw [ih (.node y) steps hy h.2 (fun z hz => hne z (List.mem_cons_of_mem _ hz))
        (by simpa using hlen) hgy]

theorem traverse_of_is_list (mem : ListMemory) (head : ListPtr) (xs : List Ptr) (steps : Nat)
    (h : is_list mem head xs) (hsteps : xs.length < steps) : traverse mem head steps = xs := by
  obtain ⟨hc, hnd⟩ := h
  obtain ⟨hh, hget, -⟩ := chain_next mem _ head head hc
  have hne : ∀ y ∈ xs, ListPtr.node y ≠ head := by
    intro y hy heq
    simp only [cells, List.nodup_cons, List.mem_map, not_exists, not_and] at hnd
    exact hnd.1 y hy heq
  simp only [traverse, hget]
  exact traverse_from_chain mem head xs head steps hh hc hne hsteps hget

theorem get_of_linked_left (mem : ListMemory) (a b : ListPtr) (h : linked mem a b) :
    ∃ ha, mem.get a = some ha ∧ ha.next = b := by
  cases hg : mem.get a with
  | none => simp [linked, hg] at h
  | some ha => exact ⟨ha, rfl, by simpa [linked, hg] using h.1⟩

theorem get_of_linked_right (mem : ListMemory) (a b : ListPtr) (h : linked mem a b) :
    ∃ hb, mem.get b = some hb ∧ hb.prev = a := by
  cases hg : mem.get b with
  | none => simp [linked, hg] at h
  | some hb => exact ⟨hb, rfl, by simpa [linked, hg] using h.2⟩

/-- Adding an object that is on no node of a well-formed list appends it; the
nodes outside the list and the new object are left alone. -/
theorem add_appends (mem : ListMemory) (list : ListPtr) (xs : List Ptr) (object : Ptr)
    (type : uvm_deferred_free_object_type_t) (o : uvm_deferred_free_object_t)
    (hl : is_list mem list xs) (hobj : mem.objects object = some o) (hnn : object ≠ NULL)
    (hfresh : ListPtr.node object ∉ cells list xs) :
    ∃ mem', uvm_deferred_free_object_add list object type mem = .ok mem' ∧
      is_list mem' list (xs ++ [object]) ∧
      (∀ q, q ∉ cells list (xs ++ [object]) → mem'.get q = mem.get q) ∧
      (∀ x, mem'.type_of x = if x = object then some type else mem.type_of x) := by
  obtain ⟨hc, hnd⟩ := hl
  have hN1 : ListPtr.node object ≠ list := fun h => hfresh (by simp [cells, h])
  have hN2 : ∀ x ∈ xs, ListPtr.node object ≠ .node x := fun x hx h =>
    hfresh (by rw [h]; simp [cells, hx])
  have hnd' : (cells list (xs ++ [object])).Nodup := by
    simp only [cells, List.map_append, List.map_cons, List.map_nil, List.nodup_cons,
      List.mem_append, List.mem_map, List.mem_singleton, not_or, not_exists, not_and] at hnd ⊢
    refine ⟨⟨hnd.1, fun h => hN1 h.symm⟩, ?_⟩
    rw [List.nodup_append]
    refine ⟨hnd.2, List.nodup_singleton _, ?_⟩
    intro a ha hb
    simp only [List.mem_singleton] at hb
    subst hb
    simp only [List.mem_map] at ha
    obtain ⟨x, hx, hxe⟩ := ha
    exact hN2 x hx hxe.symm
  rcases List.eq_nil_or_concat xs with hx | ⟨init, l, hx⟩
  · subst hx
    obtain ⟨hh, hget, hprev⟩ := get_of_linked_right mem list list hc
    have hN3 : ListPtr.node object ≠ hh.prev := by rw [hprev]; exact hN1
    obtain ⟨mem', hadd, r1, r2, r3, r4, r5, r6, r7⟩ := deferred_free_object_add_spec mem list
      object type hh hh o hget (by rw [hprev]; exact hget) hobj hnn hN1 hN3
    rw [hprev] at r1 r3 r6
    refine ⟨mem', hadd, ⟨?_, hnd'⟩, ?_, r7⟩
    · exact ⟨⟨r3, by rw [r1]; rfl⟩, ⟨by rw [r1]; rfl, r2⟩⟩
    · intro q hq
      simp only [cells, List.nil_append, List.map_cons, List.map_nil, List.mem_cons,
        List.mem_singleton, List.not_mem_nil, or_false, not_or] at hq
      exact r6 q hq.2 hq.1 hq.1
  · subst hx
    rw [List.concat_eq_append] at hc hnd hN2 hnd' ⊢
    rw [List.map_append, List.map_cons, List.map_nil, chain_snoc] at hc
    obtain ⟨hc1, hc2⟩ := hc
    obtain ⟨hh, hget, hprev⟩ := get_of_linked_right mem _ list hc2
    obtain ⟨hp, hgetp, -⟩ := get_of_linked_left mem _ list hc2
    have hN3 : ListPtr.node object ≠ hh.prev := by
      rw [hprev]
      exact hN2 l (by simp)
    obtain ⟨mem', hadd, r1, r2, r3, r4, r5, r6, r7⟩ := deferred_free_object_add_spec mem list
      object type hh hp o hget (by rw [hprev]; exact hgetp) hobj hnn hN1 hN3
    rw [hprev] at r1 r3 r4 r6
    simp only [cells, List.map_append, List.map_cons, List.map_nil, List.nodup_cons,
      List.mem_append, List.mem_map, List.mem_singleton, not_or, not_exists, not_and] at hnd
    obtain ⟨⟨hnd1, hnd2⟩, hnd3⟩ := hnd
    rw [List.nodup_append] at hnd3
    obtain ⟨hnd3, -, hnd4⟩ := hnd3
    refine ⟨mem', hadd, ⟨?_, hnd'⟩, ?_, r7⟩
    · rw [List.map_append, List.map_cons, List.map_nil, List.map_append, List.map_cons,
        List.map_nil, chain_snoc, chain_snoc]
      refine ⟨⟨?_, ⟨r3, by rw [r1]; rfl⟩⟩, ⟨by rw [r1]; rfl, r2⟩⟩
      refine chain_congr mem mem' _ list (.node l) ?_ ?_ hc1
      · intro q hq
        simp only [List.mem_cons, List.mem_map] at hq
        refine r4 q ?_ ?_
        · rcases hq with hq | ⟨x, hx, hq⟩
          · rw [hq]; exact fun h => hN1 h.symm
          · rw [← hq]; exact fun h => hN2 x (by simp [hx]) h.symm
        · rcases hq with hq | ⟨x, hx, hq⟩
          · rw [hq]; exact hnd2
          · intro h
            exact hnd4 (List.mem_map.mpr ⟨x, hx, hq⟩) (by simp [h])
      · intro q hq
        simp only [List.mem_append, List.mem_map, List.mem_singleton] at hq
        refine r5 q ?_ ?_
        · rcases hq with ⟨x, hx, hq⟩ | hq
          · rw [← hq]; exact fun h => hN2 x (by simp [hx]) h.symm
          · rw [hq]; exact fun h => hN2 l (by simp) h.symm
        · rcases hq with ⟨x, hx, hq⟩ | hq
          · rw [← hq]; exact fun h => hnd1 x hx h
          · rw [hq]; exact fun h => hnd2 h.symm
    · intro q hq
      simp only [cells, List.map_append, List.map_cons, List.map_nil, List.mem_cons,
        List.mem_append, List.mem_singleton, List.not_mem_nil, or_false, not_or] at hq
      exact r6 q hq.2.2 hq.1 hq.2.1.2

theorem is_list_frame (mem mem' : ListMemory) (head : ListPtr) (ys : List Ptr)
    (hsame : ∀ q ∈ cells head ys, mem'.get q = mem.get q) (h : is_list mem head ys) :
    is_list mem' head ys := by
  refine ⟨chain_congr mem mem' _ head head ?_ ?_ h.1, h.2⟩
  · intro q hq
    rw [hsame q hq]
  · intro q hq
    rw [hsame q (by
      simp only [List.mem_append, List.mem_singleton] at hq
      rcases hq with hq | hq
      · exact List.mem_cons_of_mem _ hq
      · rw [hq]; exact List.mem_cons_self _ _)]

theorem objects_of_type_of (mem mem' : ListMemory) (x : Ptr)
    (h : mem'.type_of x = mem.type_of x) (hx : mem.objects x ≠ none) : mem'.objects x ≠ none := by
  intro hn
  apply hx
  simp only [ListMemory.type_of, hn, Option.map_none'] at h
  cases ho : mem.objects x with
  | none => rfl
  | some o => simp [ho] at h

theorem cells_snoc (head : ListPtr) (xs : List Ptr) (object : Ptr) (q : ListPtr) :
    q ∈ cells head (xs ++ [object]) ↔ q ∈ cells head xs ∨ q = .node object := by
  simp only [cells, List.map_append, List.map_cons, List.map_nil, List.mem_cons,
    List.mem_append, List.mem_singleton, List.not_mem_nil, or_false, or_assoc]

theorem head_mem_cells (head : ListPtr) (xs : List Ptr) : head ∈ cells head xs :=
  List.mem_cons_self _ _

theorem enqueue_step (mem : ListMemory) (ls : List (ListPtr × List Ptr)) (c : Enqueue)
    (hls : Lists mem ls) (hin : ∃ e ∈ ls, e.1 = c.list)
    (hfresh : ∀ e ∈ ls, ListPtr.node c.object ∉ cells e.1 e.2) (hnn : c.object ≠ NULL)
    (hobj : mem.objects c.object ≠ none) :
    ∃ mem', uvm_deferred_free_object_add c.list c.object c.type mem = .ok mem' ∧
      Lists mem' (enqueue ls c.list c.object) ∧
      (∀ x, mem'.type_of x = if x = c.object then some c.type else mem.type_of x) := by
  obtain ⟨e, he, hel⟩ := hin
  obtain ⟨o, ho⟩ := Option.ne_none_iff_exists'.mp hobj
  have hlist : is_list mem c.list e.2 := hel ▸ hls.1 e he
  obtain ⟨mem', hadd, hl', hframe, htype⟩ := add_appends mem c.list e.2 c.object c.type o hlist ho
    hnn (hel ▸ hfresh e he)
  have hsame : ∀ (i j : Nat) (a b : ListPtr × List Ptr), ls[i]? = some a → ls[j]? = some b →
      a.1 = b.1 → i = j := by
    intro i j a b ha hb hab
    by_contra hij
    exact hls.2 i j a b hij ha hb a.1 (head_mem_cells _ _) (hab ▸ head_mem_cells _ _)
  obtain ⟨n, hn⟩ := List.mem_iff_getElem?.mp he
  refine ⟨mem', hadd, ⟨?_, ?_⟩, htype⟩
  · intro e' he'
    simp only [enqueue, List.mem_map] at he'
    obtain ⟨a, ha, rfl⟩ := he'
    obtain ⟨m, hm⟩ := List.mem_iff_getElem?.mp ha
    by_cases hal : a.1 = c.list
    · have hmn : m = n := hsame m n a e hm hn (hal.trans hel.symm)
      subst hmn
      rw [hn] at hm
      cases hm
      simp only [hal, if_true]
      exact hl'
    · simp only [hal, if_false]
      refine is_list_frame mem mem' a.1 a.2 ?_ (hls.1 a ha)
      intro q hq
      apply hframe
      rw [cells_snoc]
      rintro (h | h)
      · have hmn : m ≠ n := by
          intro hmn
          subst hmn
          rw [hn] at hm
          cases hm
          exact hal hel
        exact hls.2 m n a e hmn hm hn q hq (hel ▸ h)
      · exact hfresh a ha (h ▸ hq)
  · intro i j a' b' hij ha' hb' q hqa hqb
    simp only [enqueue, List.getElem?_map, Option.map_eq_some'] at ha' hb'
    obtain ⟨a, ha, rfl⟩ := ha'
    obtain ⟨b, hb, rfl⟩ := hb'
    have hab := hls.2 i j a b hij ha hb
    have hfa := hfresh a (List.mem_iff_getElem?.mpr ⟨i, ha⟩)
    have hfb := hfresh b (List.mem_iff_getElem?.mpr ⟨j, hb⟩)
    by_cases hal : a.1 = c.list <;> by_cases hbl : b.1 = c.list
    · exact hij (hsame i j a b ha hb (hal.trans hbl.symm))
    · simp only [hal, hbl, if_true, if_false] at hqa hqb
      rw [← hal, cells_snoc] at hqa
      rcases hqa with h | h
      · exact hab q h hqb
      · exact hfb (h ▸ hqb)
    · simp only [hal, hbl, if_true, if_false] at hqa hqb
      rw [← hbl, cells_snoc] at hqb
      rcases hqb with h | h
      · exact hab q hqa h
      · exact hfa (h ▸ hqa)
    · simp only [hal, hbl, if_false] at hqa hqb
      exact hab q hqa hqb

theorem run_adds_spec :
    ∀ (calls : List Enqueue) (mem : ListMemory) (ls : List (ListPtr × List Ptr)),
      Lists mem ls → fresh_adds ls calls →
      (∀ c ∈ calls, c.object ≠ NULL ∧ mem.objects c.object ≠ none) →
      ∃ mem', run_adds calls mem = .ok mem' ∧ Lists mem' (enqueue_all ls calls) := by
  intro calls
  induction calls with
  | nil =>
    intro mem ls hls _ _
    exact ⟨mem, rfl, hls⟩
  | cons c rest ih =>
    intro mem ls hls hfresh hvalid
    obtain ⟨hin, hfr, hrest⟩ := hfresh
    obtain ⟨hnn, hobj⟩ := hvalid c (List.mem_cons_self _ _)
    obtain ⟨mem1, hadd, hls1, htype⟩ := enqueue_step mem ls c hls hin hfr hnn hobj
    have hvalid1 : ∀ d ∈ rest, d.object ≠ NULL ∧ mem1.objects d.object ≠ none := by
      intro d hd
      obtain ⟨h1, h2⟩ := hvalid d (List.mem_cons_of_mem _ hd)
      refine ⟨h1, ?_⟩
      by_cases hdc : d.object = c.object
      · intro hn
        have := htype d.object
        simp [ListMemory.type_of, hn] at this
        simp [hdc] at this
      · exact objects_of_type_of mem mem1 d.object (by rw [htype, if_neg hdc]) h2
    obtain ⟨mem', hrun, hls'⟩ := ih mem1 _ hls1 hrest hvalid1
    refine ⟨mem', ?_, hls'⟩
    simp only [run_adds, hadd, bind, Except.bind]
    exact hrun

theorem lists_once (mem : ListMemory) (ls : List (ListPtr × List Ptr)) (h : Lists mem ls) :
    (∀ e ∈ ls, e.2.Nodup ∧ ∀ steps, e.2.length < steps → traverse mem e.1 steps = e.2) ∧
    (∀ (i j : Nat) (e e' : ListPtr × List Ptr), i ≠ j → ls[i]? = some e → ls[j]? = some e' →
      ∀ x, x ∈ e.2 → x ∉ e'.2) := by
  constructor
  · intro e he
    have hl := h.1 e he
    refine ⟨?_, fun steps hs => traverse_of_is_list mem e.1 e.2 steps hl hs⟩
    have := hl.2
    simp only [cells, List.nodup_cons] at this
    exact List.Nodup.of_map _ this.2
  · intro i j e e' hij he he' x hx hx'
    exact h.2 i j e e' hij he he' (.node x) (by simp [cells, hx]) (by simp [cells, hx'])

/-- Claim C11, amended. On a well-formed list holding the objects `xs`, in this
order, `uvm_deferred_free_object_add(list, object, type)` with an object that is
not yet on the list (it is none of `xs` and its `list_node` is not the list
head) returns, and the list then is well formed and holds
`xs ++ [object]`: a traversal from the head meets the old objects in their old
order and then `object`; the recorded type of every other object is unchanged
and the recorded type of `object` is `type`, so the types met by the traversal
are the old ones followed by `type`. -/
theorem deferred_free_object_add_appends (mem : ListMemory) (list : ListPtr) (xs : List Ptr)
    (object : Ptr) (type : uvm_deferred_free_object_type_t) (hl : is_list mem list xs)
    (hnn : object ≠ NULL) (hobj : mem.objects object ≠ none) (hnew : object ∉ xs)
    (hhead : list ≠ .node object) :
    ∃ mem', uvm_deferred_free_object_add list object type mem = .ok mem' ∧
      is_list mem' list (xs ++ [object]) ∧
      traverse mem list (xs.length + 1) = xs ∧
      traverse mem' list (xs.length + 2) = xs ++ [object] ∧
      (∀ x, x ≠ object → mem'.type_of x = mem.type_of x) ∧
      mem'.type_of object = some type ∧
      (xs ++ [object]).map mem'.type_of = xs.map mem.type_of ++ [some type] := by
  obtain ⟨o, ho⟩ := Option.ne_none_iff_exists'.mp hobj
  have hfresh : ListPtr.node object ∉ cells list xs := by
    simp only [cells, List.mem_cons, List.mem_map, not_or, not_exists, not_and]
    refine ⟨fun h => hhead h.symm, fun x hx h => ?_⟩
    cases h
    exact hnew hx
  obtain ⟨mem', hadd, hl', -, htype⟩ := add_appends mem list xs object type o hl ho hnn hfresh
  have hother : ∀ x, x ≠ object → mem'.type_of x = mem.type_of x := by
    intro x hx
    rw [htype, if_neg hx]
  have hself : mem'.type_of object = some type := by
    rw [htype, if_pos rfl]
  refine ⟨mem', hadd, hl', traverse_of_is_list mem list xs _ hl (Nat.lt_succ_self _), ?_, hother,
    hself, ?_⟩
  · exact traverse_of_is_list mem' list _ _ hl' (by simp)
  · rw [List.map_append, List.map_cons, List.map_nil, hself]
    congr 1
    apply List.map_congr_left
    intro x hx
    exact hother x fun h => hnew (h ▸ hx)

/-- Claim C11 fails as stated: the function does not look whether the object
is already on the list. On the well-formed list at head 1 that holds object 10,
recorded as a GPU VA space, adding object 10 again as a channel returns; the
list then is not the old list followed by the object, its traversal meets
object 10 again and again, and the type recorded in the element that was
already queued has changed. -/
theorem deferred_free_object_add_queued_again_corrupts :
    ∃ mem',
      uvm_deferred_free_object_add (.head 1) 10 .UVM_DEFERRED_FREE_OBJECT_TYPE_CHANNEL
        example_list_memory_queued = .ok mem' ∧
      is_list example_list_memory_queued (.head 1) [10] ∧
      example_list_memory_queued.type_of 10 = some .UVM_DEFERRED_FREE_OBJECT_GPU_VA_SPACE ∧
      ¬ is_list mem' (.head 1) ([10] ++ [10]) ∧
      traverse mem' (.head 1) 5 = [10, 10, 10, 10, 10] ∧
      mem'.type_of 10 = some .UVM_DEFERRED_FREE_OBJECT_TYPE_CHANNEL :=
  ⟨_, rfl, by decide, by decide, by decide, by decide, by decide⟩

/-- Claim C12 fails as stated: the function does not look whether the object
is already queued. Adding object 10 twice to the list at head 1 succeeds both
times and leaves a list whose traversal meets object 10 again and again; adding
it to the list at head 1 and then to the list at head 2 succeeds and leaves it
on the traversal of both. -/
theorem deferred_free_object_add_twice_repeats :
    ∃ m1 m2 m3,
      uvm_deferred_free_object_add (.head 1) 10 .UVM_DEFERRED_FREE_OBJECT_TYPE_CHANNEL
        example_list_memory = .ok m1 ∧
      uvm_deferred_free_object_add (.head 1) 10 .UVM_DEFERRED_FREE_OBJECT_TYPE_CHANNEL m1 =
        .ok m2 ∧
      traverse m2 (.head 1) 3 = [10, 10, 10] ∧
      uvm_deferred_free_object_add (.head 2) 10 .UVM_DEFERRED_FREE_OBJECT_TYPE_CHANNEL m1 =
        .ok m3 ∧
      10 ∈ traverse m3 (.head 1) 3 ∧ 10 ∈ traverse m3 (.head 2) 3 :=
  ⟨_, _, _, rfl, rfl, by decide, rfl, by decide, by decide⟩

/-- Claim C12, amended. Start from well-formed deferred-free lists that share
no node. After any sequence of `uvm_deferred_free_object_add` calls, each made
on one of the lists with a valid object that is at that time on none of them,
every call has returned and the lists are again well formed and share no node:
each list holds its old objects followed by the ones added to it, in call
order; a traversal of a list meets exactly these, no object twice; and no
object is on two of the lists. -/
theorem deferred_free_objects_appear_once (mem : ListMemory)
    (ls : List (ListPtr × List Ptr)) (calls : List Enqueue) (hls : Lists mem ls)
    (hfresh : fresh_adds ls calls)
    (hvalid : ∀ c ∈ calls, c.object ≠ NULL ∧ mem.objects c.object ≠ none) :
    ∃ mem', run_adds calls mem = .ok mem' ∧ Lists mem' (enqueue_all ls calls) ∧
      (∀ e ∈ enqueue_all ls calls, e.2.Nodup ∧
        ∀ steps, e.2.length < steps → traverse mem' e.1 steps = e.2) ∧
      (∀ (i j : Nat) (e e' : ListPtr × List Ptr), i ≠ j →
        (enqueue_all ls calls)[i]? = some e → (enqueue_all ls calls)[j]? = some e' →
        ∀ x, x ∈ e.2 → x ∉ e'.2) := by
  obtain ⟨mem', hrun, hls'⟩ := run_adds_spec calls mem ls hls hfresh hvalid
  exact ⟨mem', hrun, hls', lists_once mem' _ hls'⟩

theorem example_lists : Lists example_list_memory [(.head 1, []), (.head 2, [])] := by
  constructor
  · intro e he
    simp only [List.mem_cons, List.mem_singleton, List.not_mem_nil, or_false] at he
    rcases he with rfl | rfl <;> decide
  · intro i j e e' hij hi hj q hq hq'
    rcases i with _ | _ | i <;> rcases j with _ | _ | j <;> simp at hi hj hij <;>
      subst hi hj <;> simp [cells] at hq hq' <;> subst hq <;> cases hq'

/-! ## The procfs write buffer -/

theorem up_down (sem : Nat) (h : 0 < sem) : up (sem - 1) = sem := by
  unfold up
  omega

theorem to_u64_bytes_left (size : Nat) (off : Int) (hsz : size ≤ 2 ^ 31)
    (hoff : off ≤ (size : Int) - 1) (hmin : -2 ^ 63 ≤ off) :
    to_u64 ((size : Int) - off - 1) = ((size : Int) - off - 1).toNat := by
  unfold to_u64
  congr 1
  apply Int.emod_eq_of_lt <;> omega

theorem to_s32_count (count : Nat) (h : count < 2 ^ 31) : to_s32 count = count := by
  unfold to_s32
  omega

theorem to_s64_small (x : Int) (h1 : -2 ^ 63 ≤ x) (h2 : x < 2 ^ 63) : to_s64 x = x := by
  unfold to_s64
  omega

theorem copy_from_user_footprint (mem : Int → Nat) (dst : Int) (src : Nat → Option Nat)
    (n : Nat) (i : Int) (h : (copy_from_user mem dst src n).1 i ≠ mem i) :
    dst ≤ i ∧ i < dst + n := by
  by_contra hc
  apply h
  simp only [copy_from_user, hc, if_false]

theorem copy_from_user_rest (mem : Int → Nat) (dst : Int) (src : Nat → Option Nat) (n : Nat) :
    (copy_from_user mem dst src n).2 = 0 ↔ ∀ i, i < n → src i ≠ none := by
  simp only [copy_from_user]
  cases hf : (List.range n).find? fun i => (src i).isNone with
  | none =>
    simp only [Option.getD_none, Nat.sub_self, true_iff]
    intro i hi hn
    rw [List.find?_eq_none] at hf
    have := hf i (List.mem_range.mpr hi)
    simp [hn] at this
  | some k =>
    have hk := List.find?_some hf
    have hmem := List.mem_of_find?_eq_some hf
    rw [List.mem_range] at hmem
    simp only [Option.getD_some]
    constructor
    · intro h
      omega
    · intro h
      have := h k hmem
      simp only [Option.isNone_iff_eq_none] at hk
      exact absurd hk this

theorem copy_from_user_bytes (mem : Int → Nat) (dst : Int) (src : Nat → Option Nat) (n : Nat)
    (hall : ∀ i, i < n → src i ≠ none) (k : Nat) (hk : k < n) :
    (copy_from_user mem dst src n).1 (dst + k) = (src k).getD 0 := by
  have hnone : ((List.range n).find? fun i => (src i).isNone) = none := by
    rw [List.find?_eq_none]
    intro i hi
    have := hall i (List.mem_range.mp hi)
    simpa using this
  have h1 : dst ≤ dst + (k : Int) ∧ dst + (k : Int) < dst + (n : Int) := by omega
  have h2 : dst + (k : Int) - dst < (n : Int) := by omega
  have h3 : (dst + (k : Int) - dst).toNat = k := by omega
  simp only [copy_from_user, hnone, Option.getD_none, h1, and_self, if_true, h2, h3]

/-- The function `nv_procfs_write_file` by cases, when the semaphore is
free. -/
theorem write_file_eq (PAGE_SIZE : Nat) (nvfp : nv_file_private_t) (buffer : Nat → Option Nat)
    (count : Nat) (pos : Int) (hsem : 0 < nvfp.fops_sp_lock) :
    nv_procfs_write_file PAGE_SIZE nvfp buffer count pos =
      if count = 0 then .ok (-EINVAL, nvfp, pos)
      else if to_u64 ((NV_PROC_WRITE_BUFFER_SIZE PAGE_SIZE : Int) - nvfp.off - 1) = 0 ∨
          count > to_u64 ((NV_PROC_WRITE_BUFFER_SIZE PAGE_SIZE : Int) - nvfp.off - 1) then
        .ok (-ENOSPC, nvfp, pos)
      else
        match nvfp.data with
        | none => .error .bad_pointer
        | some data =>
          if (copy_from_user data nvfp.off buffer count).2 ≠ 0 then
            .ok (-EFAULT,
              { nvfp with data := some (copy_from_user data nvfp.off buffer count).1 }, nvfp.off)
          else
            .ok (to_s32 count,
              { nvfp with
                data := some (copy_from_user data nvfp.off buffer count).1
                off := to_s64 (nvfp.off + count) },
              to_s64 (nvfp.off + count)) := by
  obtain ⟨data, off, sem⟩ := nvfp
  simp only at hsem
  have hup := up_down sem hsem
  have e1 : -EINVAL < 0 := by decide
  have e2 : -ENOSPC < 0 := by decide
  have e3 : -EFAULT < 0 := by decide
  have e4 : ¬ (0 : Int) < 0 := by decide
  by_cases h1 : count = 0
  · simp only [nv_procfs_write_file, down, hsem, if_true, bind, Except.bind, pure, Except.pure,
      nv_procfs_write_file_done, hup, e1, h1]
  · by_cases h2 : to_u64 ((NV_PROC_WRITE_BUFFER_SIZE PAGE_SIZE : Int) - off - 1) = 0 ∨
        count > to_u64 ((NV_PROC_WRITE_BUFFER_SIZE PAGE_SIZE : Int) - off - 1)
    · simp only [nv_procfs_write_file, down, hsem, if_true, bind, Except.bind, pure,
        Except.pure, nv_procfs_write_file_done, hup, e2, h1, h2, if_false]
    · cases data with
      | none =>
        simp only [nv_procfs_write_file, down, hsem, if_true, bind, Except.bind, h1, h2,
          if_false]
      | some d =>
        by_cases h3 : (copy_from_user d off buffer count).2 ≠ 0
        · simp only [nv_procfs_write_file, down, hsem, if_true, bind, Except.bind, pure,
            Except.pure, nv_procfs_write_file_done, hup, e3, h1, h2, if_false, if_pos h3]
        · simp only [nv_procfs_write_file, down, hsem, if_true, bind, Except.bind, pure,
            Except.pure, nv_procfs_write_file_done, hup, e4, h1, h2, if_false, if_neg h3]

theorem write_file_blocked (PAGE_SIZE : Nat) (nvfp : nv_file_private_t)
    (buffer : Nat → Option Nat) (count : Nat) (pos : Int) (hsem : nvfp.fops_sp_lock = 0) :
    nv_procfs_write_file PAGE_SIZE nvfp buffer count pos = .error .blocked := by
  simp [nv_procfs_write_file, down, hsem, bind, Except.bind]

/-- What one call of `nv_procfs_write_file` that returns does to the private
data, for an offset that is at most the buffer size minus one. -/
theorem write_file_step (PAGE_SIZE : Nat)
    (hsz : NV_PROC_WRITE_BUFFER_SIZE PAGE_SIZE ≤ 2 ^ 31) (nvfp : nv_file_private_t)
    (hoff : nvfp.off ≤ (NV_PROC_WRITE_BUFFER_SIZE PAGE_SIZE : Int) - 1)
    (hmin : -2 ^ 63 ≤ nvfp.off) (buffer : Nat → Option Nat) (count : Nat) (pos : Int)
    (ret : Int) (nvfp' : nv_file_private_t) (pos' : Int)
    (h : nv_procfs_write_file PAGE_SIZE nvfp buffer count pos = .ok (ret, nvfp', pos')) :
    nvfp'.off ≤ (NV_PROC_WRITE_BUFFER_SIZE PAGE_SIZE : Int) - 1 ∧ nvfp.off ≤ nvfp'.off ∧
    nvfp'.fops_sp_lock = nvfp.fops_sp_lock ∧ 0 < nvfp.fops_sp_lock ∧
    nvfp'.data.isSome = nvfp.data.isSome ∧
    ∀ d d' i, nvfp.data = some d → nvfp'.data = some d' → d' i ≠ d i →
      nvfp.off ≤ i ∧ i < nvfp.off + count ∧
        i < (NV_PROC_WRITE_BUFFER_SIZE PAGE_SIZE : Int) - 1 := by
  have hsem : 0 < nvfp.fops_sp_lock := by
    by_contra hc
    rw [write_file_blocked PAGE_SIZE nvfp buffer count pos (by omega)] at h
    cases h
  have hbl := to_u64_bytes_left (NV_PROC_WRITE_BUFFER_SIZE PAGE_SIZE) nvfp.off hsz hoff hmin
  rw [write_file_eq PAGE_SIZE nvfp buffer count pos hsem, hbl] at h
  have hsame : nvfp.off ≤ (NV_PROC_WRITE_BUFFER_SIZE PAGE_SIZE : Int) - 1 ∧
      nvfp.off ≤ nvfp.off ∧ nvfp.fops_sp_lock = nvfp.fops_sp_lock ∧ 0 < nvfp.fops_sp_lock ∧
      nvfp.data.isSome = nvfp.data.isSome ∧
      ∀ d d' i, nvfp.data = some d → nvfp.data = some d' → d' i ≠ d i →
        nvfp.off ≤ i ∧ i < nvfp.off + count ∧
          i < (NV_PROC_WRITE_BUFFER_SIZE PAGE_SIZE : Int) - 1 := by
    refine ⟨hoff, le_refl _, rfl, hsem, rfl, ?_⟩
    intro d d' i hd hd' hne
    rw [hd] at hd'
    cases hd'
    exact absurd rfl hne
  by_cases h1 : count = 0
  · simp only [h1, if_true, Except.ok.injEq, Prod.mk.injEq] at h
    obtain ⟨-, rfl, -⟩ := h
    simpa [h1] using hsame
  · simp only [h1, if_false] at h
    by_cases h2 : ((NV_PROC_WRITE_BUFFER_SIZE PAGE_SIZE : Int) - nvfp.off - 1).toNat = 0 ∨
        count > ((NV_PROC_WRITE_BUFFER_SIZE PAGE_SIZE : Int) - nvfp.off - 1).toNat
    · simp only [h2, if_true, Except.ok.injEq, Prod.mk.injEq] at h
      obtain ⟨-, rfl, -⟩ := h
      exact hsame
    · simp only [h2, if_false] at h
      have hcount : nvfp.off + count ≤ (NV_PROC_WRITE_BUFFER_SIZE PAGE_SIZE : Int) - 1 := by
        omega
      cases hd : nvfp.data with
      | none => simp [hd] at h
      | some d0 =>
        rw [hd] at h
        dsimp only at h
        have hfoot : ∀ i, (copy_from_user d0 nvfp.off buffer count).1 i ≠ d0 i →
            nvfp.off ≤ i ∧ i < nvfp.off + count ∧
              i < (NV_PROC_WRITE_BUFFER_SIZE PAGE_SIZE : Int) - 1 := by
          intro i hi
          obtain ⟨ha, hb⟩ := copy_from_user_footprint d0 nvfp.off buffer count i hi
          exact ⟨ha, hb, by omega⟩
        by_cases h3 : (copy_from_user d0 nvfp.off buffer count).2 ≠ 0
        · rw [if_pos h3] at h
          simp only [Except.ok.injEq, Prod.mk.injEq] at h
          obtain ⟨-, rfl, -⟩ := h
          refine ⟨hoff, le_refl _, rfl, hsem, rfl, ?_⟩
          intro d d' i hd1 hd2 hne
          cases hd1
          simp only [Option.some.injEq] at hd2
          subst hd2
          exact hfoot i hne
        · rw [if_neg h3] at h
          simp only [Except.ok.injEq, Prod.mk.injEq] at h
          obtain ⟨-, rfl, -⟩ := h
          have hs : to_s64 (nvfp.off + count) = nvfp.off + count :=
            to_s64_small _ (by omega) (by omega)
          refine ⟨?_, ?_, rfl, hsem, rfl, ?_⟩
          · show to_s64 (nvfp.off + count) ≤ _
            rw [hs]
            exact hcount
          · show nvfp.off ≤ to_s64 (nvfp.off + count)
            rw [hs]
            omega
          · intro d d' i hd1 hd2 hne
            cases hd1
            simp only [Option.some.injEq] at hd2
            subst hd2
            exact hfoot i hne

/-- With the semaphore free and a buffer in place, the call returns. -/
theorem write_file_returns (PAGE_SIZE : Nat) (nvfp : nv_file_private_t)
    (buffer : Nat → Option Nat) (count : Nat) (pos : Int) (hsem : 0 < nvfp.fops_sp_lock)
    (hdata : nvfp.data.isSome = true) :
    ∃ r, nv_procfs_write_file PAGE_SIZE nvfp buffer count pos = .ok r := by
  obtain ⟨d, hd⟩ := Option.isSome_iff_exists.mp hdata
  rw [write_file_eq PAGE_SIZE nvfp buffer count pos hsem, hd]
  dsimp only
  split_ifs <;> exact ⟨_, rfl⟩

theorem run_writes_spec (PAGE_SIZE : Nat)
    (hsz : NV_PROC_WRITE_BUFFER_SIZE PAGE_SIZE ≤ 2 ^ 31) :
    ∀ (calls : List WriteCall) (nvfp : nv_file_private_t) (pos : Int),
      nvfp.off ≤ (NV_PROC_WRITE_BUFFER_SIZE PAGE_SIZE : Int) - 1 → -2 ^ 63 ≤ nvfp.off →
      ∀ nvfp' pos', run_writes PAGE_SIZE calls nvfp pos = .ok (nvfp', pos') →
        nvfp'.off ≤ (NV_PROC_WRITE_BUFFER_SIZE PAGE_SIZE : Int) - 1 ∧ nvfp.off ≤ nvfp'.off ∧
        nvfp'.data.isSome = nvfp.data.isSome ∧
        ∀ d d', nvfp.data = some d → nvfp'.data = some d' →
          ∀ i, (NV_PROC_WRITE_BUFFER_SIZE PAGE_SIZE : Int) - 1 ≤ i → d' i = d i := by
  intro calls
  induction calls with
  | nil =>
    intro nvfp pos hoff hmin nvfp' pos' h
    simp only [run_writes, Except.ok.injEq, Prod.mk.injEq] at h
    obtain ⟨rfl, -⟩ := h
    refine ⟨hoff, le_refl _, rfl, ?_⟩
    intro d d' hd hd' i _
    rw [hd] at hd'
    cases hd'
    rfl
  | cons c rest ih =>
    intro nvfp pos hoff hmin nvfp' pos' h
    simp only [run_writes] at h
    cases hw : nv_procfs_write_file PAGE_SIZE nvfp c.buffer c.count pos with
    | error e => simp [hw] at h
    | ok r =>
      obtain ⟨ret, nvfp1, pos1⟩ := r
      simp only [hw] at h
      obtain ⟨s1, s2, -, -, s5, s6⟩ := write_file_step PAGE_SIZE hsz nvfp hoff hmin c.buffer
        c.count pos ret nvfp1 pos1 hw
      obtain ⟨t1, t2, t3, t4⟩ := ih nvfp1 pos1 s1 (by omega) nvfp' pos' h
      refine ⟨t1, by omega, t3.trans s5, ?_⟩
      intro d d' hd hd' i hi
      have hsome : nvfp1.data.isSome = true := by rw [s5, hd]; rfl
      obtain ⟨d1, hd1⟩ := Option.isSome_iff_exists.mp hsome
      rw [t4 d1 d' hd1 hd' i hi]
      by_contra hne
      have := (s6 d d1 i hd hd1 hne).2.2
      omega

theorem run_writes_returns (PAGE_SIZE : Nat)
    (hsz : NV_PROC_WRITE_BUFFER_SIZE PAGE_SIZE ≤ 2 ^ 31) :
    ∀ (calls : List WriteCall) (nvfp : nv_file_private_t) (pos : Int),
      nvfp.off ≤ (NV_PROC_WRITE_BUFFER_SIZE PAGE_SIZE : Int) - 1 → -2 ^ 63 ≤ nvfp.off →
      0 < nvfp.fops_sp_lock → nvfp.data.isSome = true →
      ∃ r, run_writes PAGE_SIZE calls nvfp pos = .ok r := by
  intro calls
  induction calls with
  | nil =>
    intro nvfp pos _ _ _ _
    exact ⟨_, rfl⟩
  | cons c rest ih =>
    intro nvfp pos hoff hmin hsem hdata
    obtain ⟨⟨ret, nvfp1, pos1⟩, hw⟩ := write_file_returns PAGE_SIZE nvfp c.buffer c.count pos
      hsem hdata
    obtain ⟨s1, s2, s3, -, s5, -⟩ := write_file_step PAGE_SIZE hsz nvfp hoff hmin c.buffer
      c.count pos ret nvfp1 pos1 hw
    obtain ⟨r, hr⟩ := ih nvfp1 pos1 s1 (by omega) (by rw [s3]; exact hsem)
      (by rw [s5]; exact hdata)
    exact ⟨r, by simp only [run_writes, hw]; exact hr⟩

theorem open_file_spec (PAGE_SIZE : Nat) (private_ok fmode_write : Bool) (stack : Int)
    (fresh : Option (Int → Nat)) (nvfp : nv_file_private_t)
    (h : nv_procfs_open_file PAGE_SIZE private_ok fmode_write stack fresh = .ok nvfp) :
    nvfp.off = 0 ∧ nvfp.fops_sp_lock = 1 ∧
    ∀ d, nvfp.data = some d →
      ∀ i : Int, 0 ≤ i → i < NV_PROC_WRITE_BUFFER_SIZE PAGE_SIZE → d i = 0 := by
  unfold nv_procfs_open_file at h
  have hdone : ∀ (retval : Int) (x : nv_file_private_t),
      nv_procfs_open_file_done retval x = .ok nvfp → x = nvfp := by
    intro retval x hx
    unfold nv_procfs_open_file_done at hx
    split at hx
    · cases hx
    · exact Except.ok.inj hx
  split at h
  · cases h
  · dsimp only at h
    split at h
    · have := hdone _ _ h
      subst this
      exact ⟨rfl, rfl, fun d hd => by cases hd⟩
    · split at h
      · have := hdone _ _ h
        subst this
        exact ⟨rfl, rfl, fun d hd => by cases hd⟩
      · split at h
        · have := hdone _ _ h
          subst this
          exact ⟨rfl, rfl, fun d hd => by cases hd⟩
        · have := hdone _ _ h
          subst this
          refine ⟨rfl, rfl, ?_⟩
          intro d hd i h0 hi
          simp only [Option.some.injEq] at hd
          subst hd
          simp [os_mem_set, h0, hi]

/-- Claim C21. Let the write offset be at most `NV_PROC_WRITE_BUFFER_SIZE - 1`
(and an `off_t`). Whenever a call of `nv_procfs_write_file` returns, the offset
still is at most `NV_PROC_WRITE_BUFFER_SIZE - 1`, and every byte of the memory
at `data` that has changed lies at an index from the old offset on, below the
old offset plus `count` and below `NV_PROC_WRITE_BUFFER_SIZE - 1`. So after any
sequence of writes the offset is in that range and the last byte of the buffer
and everything behind it are as before; on a file opened for writing every
sequence of writes returns and leaves the last byte of the buffer zero. -/
theorem write_file_keeps_offset_in_buffer (PAGE_SIZE : Nat)
    (hsz : NV_PROC_WRITE_BUFFER_SIZE PAGE_SIZE ≤ 2 ^ 31) (nvfp : nv_file_private_t)
    (hoff : nvfp.off ≤ (NV_PROC_WRITE_BUFFER_SIZE PAGE_SIZE : Int) - 1)
    (hmin : -2 ^ 63 ≤ nvfp.off) :
    (∀ buffer count pos ret nvfp' pos',
      nv_procfs_write_file PAGE_SIZE nvfp buffer count pos = .ok (ret, nvfp', pos') →
      nvfp'.off ≤ (NV_PROC_WRITE_BUFFER_SIZE PAGE_SIZE : Int) - 1 ∧
      ∀ d d' i, nvfp.data = some d → nvfp'.data = some d' → d' i ≠ d i →
        nvfp.off ≤ i ∧ i < nvfp.off + count ∧
          i < (NV_PROC_WRITE_BUFFER_SIZE PAGE_SIZE : Int) - 1) ∧
    (∀ calls pos nvfp' pos', run_writes PAGE_SIZE calls nvfp pos = .ok (nvfp', pos') →
      nvfp'.off ≤ (NV_PROC_WRITE_BUFFER_SIZE PAGE_SIZE : Int) - 1 ∧
      ∀ d d', nvfp.data = some d → nvfp'.data = some d' →
        ∀ i, (NV_PROC_WRITE_BUFFER_SIZE PAGE_SIZE : Int) - 1 ≤ i → d' i = d i) ∧
    (∀ private_ok fmode_write stack fresh opened calls pos,
      nv_procfs_open_file PAGE_SIZE private_ok fmode_write stack fresh = .ok opened →
      opened.data.isSome = true → 0 < PAGE_SIZE →
      ∃ nvfp' pos' d', run_writes PAGE_SIZE calls opened pos = .ok (nvfp', pos') ∧
        nvfp'.data = some d' ∧ d' ((NV_PROC_WRITE_BUFFER_SIZE PAGE_SIZE : Int) - 1) = 0 ∧
        0 ≤ nvfp'.off ∧ nvfp'.off ≤ (NV_PROC_WRITE_BUFFER_SIZE PAGE_SIZE : Int) - 1) := by
  refine ⟨?_, ?_, ?_⟩
  · intro buffer count pos ret nvfp' pos' h
    obtain ⟨s1, -, -, -, -, s6⟩ := write_file_step PAGE_SIZE hsz nvfp hoff hmin buffer count pos
      ret nvfp' pos' h
    exact ⟨s1, s6⟩
  · intro calls pos nvfp' pos' h
    obtain ⟨t1, -, -, t4⟩ := run_writes_spec PAGE_SIZE hsz calls nvfp pos hoff hmin nvfp' pos' h
    exact ⟨t1, t4⟩
  · intro private_ok fmode_write stack fresh opened calls pos hopen hdata hp
    obtain ⟨o1, o2, o3⟩ := open_file_spec PAGE_SIZE private_ok fmode_write stack fresh opened hopen
    have hpos : (0 : Int) < (NV_PROC_WRITE_BUFFER_SIZE PAGE_SIZE : Int) := by
      unfold NV_PROC_WRITE_BUFFER_SIZE
      omega
    have hoff0 : opened.off ≤ (NV_PROC_WRITE_BUFFER_SIZE PAGE_SIZE : Int) - 1 := by
      rw [o1]
      omega
    have hmin0 : -2 ^ 63 ≤ opened.off := by
      rw [o1]
      decide
    obtain ⟨⟨nvfp', pos'⟩, hrun⟩ := run_writes_returns PAGE_SIZE hsz calls opened pos hoff0 hmin0
      (by rw [o2]; decide) hdata
    obtain ⟨t1, t2, t3, t4⟩ := run_writes_spec PAGE_SIZE hsz calls opened pos hoff0 hmin0 nvfp'
      pos' hrun
    obtain ⟨d0, hd0⟩ := Option.isSome_iff_exists.mp hdata
    obtain ⟨d', hd'⟩ := Option.isSome_iff_exists.mp (t3.trans hdata)
    refine ⟨nvfp', pos', d', hrun, hd', ?_, by rw [o1] at t2; exact t2, t1⟩
    rw [t4 d0 d' hd0 hd' _ (le_refl _)]
    exact o3 d0 hd0 _ (by omega) (by omega)

/-- Claim C22. On a file with its buffer in place, the semaphore free and the
offset between 0 and `NV_PROC_WRITE_BUFFER_SIZE - 1`, `nv_procfs_write_file`
returns `-EINVAL` when `count` is 0, whatever the offset; `-ENOSPC` when
`count` is not 0 and exceeds `NV_PROC_WRITE_BUFFER_SIZE - off - 1`; `-EFAULT`
when `count` fits and a byte of the user buffer cannot be read; and otherwise
`count`, with the offset advanced by `count` and the bytes of the user buffer
at the old offset. In the three failing cases the offset is as before, and
without a failure nothing else is returned. -/
theorem write_file_status (PAGE_SIZE : Nat)
    (hsz : NV_PROC_WRITE_BUFFER_SIZE PAGE_SIZE ≤ 2 ^ 31) (nvfp : nv_file_private_t)
    (data : Int → Nat) (hdata : nvfp.data = some data) (hsem : 0 < nvfp.fops_sp_lock)
    (h0 : 0 ≤ nvfp.off) (hoff : nvfp.off ≤ (NV_PROC_WRITE_BUFFER_SIZE PAGE_SIZE : Int) - 1)
    (buffer : Nat → Option Nat) (count : Nat) (pos : Int) :
    (count = 0 →
      nv_procfs_write_file PAGE_SIZE nvfp buffer count pos = .ok (-EINVAL, nvfp, pos)) ∧
    (count ≠ 0 → (NV_PROC_WRITE_BUFFER_SIZE PAGE_SIZE : Int) - nvfp.off - 1 < count →
      nv_procfs_write_file PAGE_SIZE nvfp buffer count pos = .ok (-ENOSPC, nvfp, pos)) ∧
    (count ≠ 0 → (count : Int) ≤ (NV_PROC_WRITE_BUFFER_SIZE PAGE_SIZE : Int) - nvfp.off - 1 →
      (∃ i, i < count ∧ buffer i = none) →
      nv_procfs_write_file PAGE_SIZE nvfp buffer count pos =
        .ok (-EFAULT,
          { nvfp with data := some (copy_from_user data nvfp.off buffer count).1 }, nvfp.off)) ∧
    (count ≠ 0 → (count : Int) ≤ (NV_PROC_WRITE_BUFFER_SIZE PAGE_SIZE : Int) - nvfp.off - 1 →
      (∀ i, i < count → buffer i ≠ none) →
      nv_procfs_write_file PAGE_SIZE nvfp buffer count pos =
        .ok ((count : Int),
          { nvfp with
            data := some (copy_from_user data nvfp.off buffer count).1
            off := nvfp.off + count },
          nvfp.off + count) ∧
      ∀ k, k < count →
        (copy_from_user data nvfp.off buffer count).1 (nvfp.off + k) = (buffer k).getD 0) ∧
    (∀ ret nvfp' pos',
      nv_procfs_write_file PAGE_SIZE nvfp buffer count pos = .ok (ret, nvfp', pos') →
      (ret < 0 → nvfp'.off = nvfp.off ∧ (ret = -EINVAL ∨ ret = -ENOSPC ∨ ret = -EFAULT)) ∧
      (¬ ret < 0 → ret = count ∧ nvfp'.off = nvfp.off + count)) := by
  have hbl := to_u64_bytes_left (NV_PROC_WRITE_BUFFER_SIZE PAGE_SIZE) nvfp.off hsz hoff
    (by omega)
  have heq := write_file_eq PAGE_SIZE nvfp buffer count pos hsem
  rw [hbl, hdata] at heq
  dsimp only at heq
  have hfit : (count : Int) ≤ (NV_PROC_WRITE_BUFFER_SIZE PAGE_SIZE : Int) - nvfp.off - 1 →
      count ≠ 0 →
      ¬(((NV_PROC_WRITE_BUFFER_SIZE PAGE_SIZE : Int) - nvfp.off - 1).toNat = 0 ∨
        count > ((NV_PROC_WRITE_BUFFER_SIZE PAGE_SIZE : Int) - nvfp.off - 1).toNat) := by
    intro h1 h2
    omega
  have hs32 : (count : Int) ≤ (NV_PROC_WRITE_BUFFER_SIZE PAGE_SIZE : Int) - nvfp.off - 1 →
      to_s32 count = count := fun h => to_s32_count count (by omega)
  have hs64 : (count : Int) ≤ (NV_PROC_WRITE_BUFFER_SIZE PAGE_SIZE : Int) - nvfp.off - 1 →
      to_s64 (nvfp.off + count) = nvfp.off + count :=
    fun h => to_s64_small _ (by omega) (by omega)
  refine ⟨?_, ?_, ?_, ?_, ?_⟩
  · intro hc
    rw [heq, if_pos hc]
  · intro hc hlt
    rw [heq, if_neg hc, if_pos (by omega)]
  · intro hc hle hbad
    have hrest : (copy_from_user data nvfp.off buffer count).2 ≠ 0 := by
      intro hz
      obtain ⟨i, hi, hn⟩ := hbad
      exact (copy_from_user_rest data nvfp.off buffer count).mp hz i hi hn
    rw [heq, if_neg hc, if_neg (hfit hle hc), if_pos hrest]
  · intro hc hle hall
    have hrest : ¬ (copy_from_user data nvfp.off buffer count).2 ≠ 0 := by
      rw [not_not]
      exact (copy_from_user_rest data nvfp.off buffer count).mpr hall
    refine ⟨?_, copy_from_user_bytes data nvfp.off buffer count hall⟩
    rw [heq, if_neg hc, if_neg (hfit hle hc), if_neg hrest, hs32 hle, hs64 hle]
  · intro ret nvfp' pos' h
    rw [heq] at h
    by_cases hc : count = 0
    · rw [if_pos hc] at h
      simp only [Except.ok.injEq, Prod.mk.injEq] at h
      obtain ⟨rfl, rfl, -⟩ := h
      exact ⟨fun _ => ⟨rfl, Or.inl rfl⟩, fun hn => absurd (by decide) hn⟩
    · rw [if_neg hc] at h
      by_cases h2 : ((NV_PROC_WRITE_BUFFER_SIZE PAGE_SIZE : Int) - nvfp.off - 1).toNat = 0 ∨
          count > ((NV_PROC_WRITE_BUFFER_SIZE PAGE_SIZE : Int) - nvfp.off - 1).toNat
      · rw [if_pos h2] at h
        simp only [Except.ok.injEq, Prod.mk.injEq] at h
        obtain ⟨rfl, rfl, -⟩ := h
        exact ⟨fun _ => ⟨rfl, Or.inr (Or.inl rfl)⟩, fun hn => absurd (by decide) hn⟩
      · rw [if_neg h2] at h
        have hle : (count : Int) ≤ (NV_PROC_WRITE_BUFFER_SIZE PAGE_SIZE : Int) - nvfp.off - 1 := by
          omega
        by_cases h3 : (copy_from_user data nvfp.off buffer count).2 ≠ 0
        · rw [if_pos h3] at h
          simp only [Except.ok.injEq, Prod.mk.injEq] at h
          obtain ⟨rfl, rfl, -⟩ := h
          exact ⟨fun _ => ⟨rfl, Or.inr (Or.inr rfl)⟩, fun hn => absurd (by decide) hn⟩
        · rw [if_neg h3, hs32 hle, hs64 hle] at h
          simp only [Except.ok.injEq, Prod.mk.injEq] at h
          obtain ⟨rfl, rfl, -⟩ := h
          exact ⟨fun hn => absurd hn (by omega), fun _ => ⟨rfl, rfl⟩⟩

/-! ## The NUMA status machine -/

theorem change_to_online (current_state : nv_numa_status_t) :
    numa_is_change_allowed current_state NV_NUMA_STATUS_ONLINE = true ↔
      current_state = NV_NUMA_STATUS_ONLINE_IN_PROGRESS := by
  simp [numa_is_change_allowed, NV_NUMA_STATUS_ONLINE, NV_NUMA_STATUS_OFFLINE,
    NV_NUMA_STATUS_OFFLINE_FAILED, NV_NUMA_STATUS_OFFLINE_IN_PROGRESS]

theorem change_to_offline (current_state : nv_numa_status_t) :
    numa_is_change_allowed current_state NV_NUMA_STATUS_OFFLINE = true ↔
      current_state = NV_NUMA_STATUS_OFFLINE_IN_PROGRESS := by
  simp [numa_is_change_allowed]

theorem change_from_offline (requested : nv_numa_status_t) :
    numa_is_change_allowed NV_NUMA_STATUS_OFFLINE requested = true ↔
      requested = NV_NUMA_STATUS_ONLINE_IN_PROGRESS := by
  by_cases h : requested = NV_NUMA_STATUS_ONLINE_IN_PROGRESS
  · subst h
    simp only [iff_true]
    decide
  · simp only [h, iff_false, Bool.not_eq_true]
    unfold numa_is_change_allowed
    split_ifs <;> rfl

/-- Claim C23. For every current state, also one outside the enum,
`numa_is_change_allowed(current, NV_NUMA_STATUS_OFFLINE_IN_PROGRESS)` is true
exactly when `current` is not `NV_NUMA_STATUS_OFFLINE`; in particular it is
true from `NV_NUMA_STATUS_DISABLED` and from
`NV_NUMA_STATUS_OFFLINE_IN_PROGRESS` itself, and false from
`NV_NUMA_STATUS_OFFLINE`. -/
theorem offline_in_progress_allowed_unless_offline :
    (∀ current_state : nv_numa_status_t,
      numa_is_change_allowed current_state NV_NUMA_STATUS_OFFLINE_IN_PROGRESS = true ↔
        current_state ≠ NV_NUMA_STATUS_OFFLINE) ∧
    numa_is_change_allowed NV_NUMA_STATUS_DISABLED NV_NUMA_STATUS_OFFLINE_IN_PROGRESS = true ∧
    numa_is_change_allowed NV_NUMA_STATUS_OFFLINE_IN_PROGRESS
      NV_NUMA_STATUS_OFFLINE_IN_PROGRESS = true ∧
    numa_is_change_allowed NV_NUMA_STATUS_OFFLINE NV_NUMA_STATUS_OFFLINE_IN_PROGRESS = false := by
  refine ⟨?_, by decide, by decide, by decide⟩
  intro current_state
  simp [numa_is_change_allowed, NV_NUMA_STATUS_OFFLINE, NV_NUMA_STATUS_OFFLINE_FAILED,
    NV_NUMA_STATUS_OFFLINE_IN_PROGRESS]

/-- Claim C24. In the machine of `numa_is_change_allowed`: a change to
`NV_NUMA_STATUS_ONLINE` is allowed only from `NV_NUMA_STATUS_ONLINE_IN_PROGRESS`
(and is allowed from there), a change to `NV_NUMA_STATUS_OFFLINE` only from
`NV_NUMA_STATUS_OFFLINE_IN_PROGRESS`, and from `NV_NUMA_STATUS_OFFLINE` only the
change to `NV_NUMA_STATUS_ONLINE_IN_PROGRESS`; so every sequence of allowed
changes that starts in `NV_NUMA_STATUS_OFFLINE` and ends in
`NV_NUMA_STATUS_ONLINE` has `NV_NUMA_STATUS_ONLINE_IN_PROGRESS` as its second
state, and such a sequence exists. -/
theorem online_only_through_online_in_progress :
    (∀ current_state : nv_numa_status_t,
      numa_is_change_allowed current_state NV_NUMA_STATUS_ONLINE = true ↔
        current_state = NV_NUMA_STATUS_ONLINE_IN_PROGRESS) ∧
    (∀ current_state : nv_numa_status_t,
      numa_is_change_allowed current_state NV_NUMA_STATUS_OFFLINE = true ↔
        current_state = NV_NUMA_STATUS_OFFLINE_IN_PROGRESS) ∧
    (∀ requested : nv_numa_status_t,
      numa_is_change_allowed NV_NUMA_STATUS_OFFLINE requested = true ↔
        requested = NV_NUMA_STATUS_ONLINE_IN_PROGRESS) ∧
    (∀ states : List nv_numa_status_t, allowed_changes states = true →
      states.head? = some NV_NUMA_STATUS_OFFLINE →
      states.getLast? = some NV_NUMA_STATUS_ONLINE →
      states[1]? = some NV_NUMA_STATUS_ONLINE_IN_PROGRESS ∧
        NV_NUMA_STATUS_ONLINE_IN_PROGRESS ∈ states) ∧
    allowed_changes
      [NV_NUMA_STATUS_OFFLINE, NV_NUMA_STATUS_ONLINE_IN_PROGRESS, NV_NUMA_STATUS_ONLINE] = true := by
  refine ⟨change_to_online, change_to_offline, change_from_offline, ?_, by decide⟩
  intro states hch hhead hlast
  match states, hch, hhead, hlast with
  | [], _, hhead, _ => simp at hhead
  | [a], _, hhead, hlast =>
    simp only [List.head?_cons, Option.some.injEq] at hhead
    simp only [List.getLast?_singleton, Option.some.injEq] at hlast
    rw [hhead] at hlast
    exact absurd hlast (by decide)
  | a :: b :: rest, hch, hhead, _ =>
    simp only [List.head?_cons, Option.some.injEq] at hhead
    have hab : numa_is_change_allowed a b = true := by
      simp only [allowed_changes, Bool.and_eq_true] at hch
      exact hch.1
    rw [hhead, change_from_offline] at hab
    subst hab
    exact ⟨by simp, by simp⟩

/-! ## The theorems at concrete inputs -/

/-- Claim C1 at the state where thread 0 has completed
`uvm_va_space_down_write` from free locks. -/
theorem serialize_writers_held_with_main_lock_witness :
    locks_free {} ∧ Reachable example_exclusive ∧ example_exclusive.in_mode 0 .exclusive ∧
    (∃ tr, run_trace 0 uvm_va_space_down_write {} = some tr) ∧
    example_exclusive.va_space.lock.writer = some 0 ∧
    example_exclusive.va_space.serialize_writers_lock.owner = some 0 :=
  have hfree : locks_free {} := ⟨rfl, rfl, rfl⟩
  have hreach : Reachable example_exclusive := reachable_replay _ reachable_example_initial _
  have hmode : example_exclusive.in_mode 0 .exclusive := by
    unfold System.in_mode
    decide
  have h := serialize_writers_held_with_main_lock 0 {} hfree example_exclusive hreach
  ⟨hfree, hreach, hmode, h.2.2.1, h.2.2.2.2.2.1 hmode⟩

/-- Claim C2 for thread 7 on a VA space with free locks. -/
theorem downgrade_equals_direct_acquire_witness :
    holds_nothing 7 {} ∧ locks_free {} ∧
    (∃ a, run 7 (uvm_va_space_down_write ++ uvm_va_space_downgrade_write_rm) {} = some a ∧
      run 7 uvm_va_space_down_read_rm {} = some a ∧ held 7 a = ⟨false, 1, true, false⟩) ∧
    (∃ c, run 7 (uvm_va_space_down_write ++ uvm_va_space_downgrade_write) {} = some c ∧
      run 7 uvm_va_space_down_read {} = some c ∧ held 7 c = ⟨false, 1, false, false⟩) :=
  have hn : holds_nothing 7 {} := by
    unfold holds_nothing
    decide
  have hfree : locks_free {} := ⟨rfl, rfl, rfl⟩
  have h := downgrade_equals_direct_acquire 7 {} hn
  match h.2.2.2.2 hfree with
  | ⟨⟨a, ha1, ha2⟩, ⟨c, hc1, hc2⟩⟩ =>
    ⟨hn, hfree, ⟨a, ha1, ha2, h.1 a ha1⟩, ⟨c, hc1, hc2, h.2.2.1 c hc1⟩⟩

/-- Claim C3 for thread 5 on a VA space that thread 7 already holds in shared
mode. -/
theorem down_read_holds_transient_mutex_only_while_acquiring_witness :
    holds_nothing 5 example_va_space_locked ∧
    (example_va_space_locked.read_acquire_write_release_lock.owner = none ∧
      example_va_space_locked.lock.writer = none) ∧
    ∃ s3, run 5 uvm_va_space_down_read example_va_space_locked = some s3 ∧
      held 5 s3 = ⟨false, 1, false, false⟩ ∧
      s3.serialize_writers_lock = example_va_space_locked.serialize_writers_lock :=
  have hn : holds_nothing 5 example_va_space_locked := by
    unfold holds_nothing
    decide
  have hfree : example_va_space_locked.read_acquire_write_release_lock.owner = none ∧
      example_va_space_locked.lock.writer = none := ⟨rfl, rfl⟩
  match down_read_holds_transient_mutex_only_while_acquiring 5 example_va_space_locked hn
    hfree with
  | ⟨_, _, s3, _, hrun, _, _, hheld, _, _, _, _, _, hsw, _⟩ => ⟨hn, hfree, s3, hrun, hheld, hsw⟩

/-- Claim C4 at the state where thread 1 is in shared-for-privileged-call mode
and thread 2 in shared mode. -/
theorem wrappers_mutual_exclusion_witness :
    Reachable example_shared ∧ (1 : Tid) ≠ 2 ∧ example_shared.in_mode 1 .shared_rm ∧
    example_shared.in_mode 2 .shared ∧
    ¬ (example_shared.in_mode 2 .exclusive ∨ example_shared.in_mode 2 .shared_rm) :=
  have hreach : Reachable example_shared := reachable_replay _ reachable_example_initial _
  have hne : (1 : Tid) ≠ 2 := by decide
  have h1 : example_shared.in_mode 1 .shared_rm := by
    unfold System.in_mode
    decide
  have h2 : example_shared.in_mode 2 .shared := by
    unfold System.in_mode
    decide
  ⟨hreach, hne, h1, h2, (wrappers_mutual_exclusion example_shared hreach 1 2 hne).2.1 (Or.inr h1)⟩

/-- Claim C5, amended, on the locked VA space of the example memory with its
registered GPU: the lookup returns the ACTIVE object at address 8. -/
theorem gpu_va_space_get_returns_active_witness :
    (2 : Ptr) ≠ NULL ∧ example_memory.va_spaces 2 = some example_va_space_locked ∧
    uvm_assert_rwsem_locked 7 example_va_space_locked.lock = true ∧
    entries_active example_memory 2 example_va_space_locked ∧
    gpu_pointer_ok example_memory 4 ∧
    ∃ r, uvm_gpu_va_space_get 7 2 4 example_memory = .ok (r, example_memory) ∧
      (r ≠ NULL → ∃ o, example_memory.gpu_va_spaces r = some o ∧
        o.state = UVM_GPU_VA_SPACE_STATE_ACTIVE ∧ o.state ≠ UVM_GPU_VA_SPACE_STATE_INIT ∧
        o.state ≠ UVM_GPU_VA_SPACE_STATE_DEAD ∧ o.gpu = 4 ∧ o.va_space = 2) :=
  have hact : entries_active example_memory 2 example_va_space_locked :=
    example_entries_active 2 8 _ rfl rfl (by decide) rfl
  ⟨by decide, rfl, rfl, hact, Or.inr ⟨_, rfl⟩,
    gpu_va_space_get_returns_active 7 example_memory 2 example_va_space_locked 4 (by decide) rfl
      rfl hact (Or.inr ⟨_, rfl⟩)⟩

/-- Claim C6 on the locked VA space of the example memory: for the registered
GPU at address 4 the lookup returns the entry `gpu_va_spaces[0]`, the object at
address 8, and not `NULL`; for the `NULL` GPU it returns `NULL`. -/
theorem gpu_va_space_get_null_iff_not_registered_witness :
    (2 : Ptr) ≠ NULL ∧ example_memory.va_spaces 2 = some example_va_space_locked ∧
    gpu_pointer_ok example_memory 4 ∧
    uvm_processor_mask_test example_va_space_locked.registered_gpu_va_spaces 1 = true ∧
    example_va_space_locked.gpu_va_spaces[0]? = some 8 ∧ (8 : Ptr) ≠ NULL ∧
    uvm_gpu_va_space_get 7 2 4 example_memory = .ok (8, example_memory) ∧
    uvm_gpu_va_space_get 7 2 NULL example_memory = .ok (NULL, example_memory) := by
  have hact : entries_active example_memory 2 example_va_space_locked :=
    example_entries_active 2 8 _ rfl rfl (by decide) rfl
  have hok : gpu_pointer_ok example_memory 4 := Or.inr ⟨_, rfl⟩
  have h := gpu_va_space_get_null_iff_not_registered 7 example_memory 2 example_va_space_locked
    4 (by decide) rfl hok
  obtain ⟨r, hr⟩ := h.2.2 rfl hact
  obtain ⟨-, -, hentry⟩ := h.1 r example_memory hr
  obtain ⟨idx, hidx, he⟩ := hentry { id := 1 } (by decide) rfl (by decide)
  have h0 : idx = 0 := by
    simp [uvm_id_gpu_index] at hidx
    exact hidx.symm
  subst h0
  have hr8 : r = 8 := by
    have : example_va_space_locked.gpu_va_spaces[0]? = some 8 := rfl
    rw [this] at he
    exact (Option.some.inj he).symm
  subst hr8
  exact ⟨by decide, rfl, hok, by decide, rfl, by decide, hr,
    (gpu_va_space_get_null_iff_not_registered 7 example_memory 2 example_va_space_locked NULL
      (by decide) rfl (Or.inl rfl)).2.1 rfl (Or.inl rfl)⟩

/-- Claim C7 on the ACTIVE object at address 8 of the example memory. -/
theorem state_accessor_active_dead_requires_back_pointers_witness :
    (8 : Ptr) ≠ NULL ∧ example_memory.gpu_va_spaces 8 = some (example_active 2) ∧
    ((example_active 2).state = UVM_GPU_VA_SPACE_STATE_ACTIVE ∨
      (example_active 2).state = UVM_GPU_VA_SPACE_STATE_DEAD) ∧
    ((∃ r, uvm_gpu_va_space_state 8 example_memory = .ok r) ↔
      ((example_active 2).va_space ≠ NULL ∧ (example_active 2).gpu ≠ NULL)) :=
  ⟨by decide, rfl, Or.inl rfl,
    (state_accessor_active_dead_requires_back_pointers example_memory 8 (example_active 2)
      (by decide) rfl (Or.inl rfl)).1⟩

/-- Claim C8, amended, on the INIT object at address 10 of the example
memory. -/
theorem state_accessor_init_requires_gpu_and_no_va_space_witness :
    (10 : Ptr) ≠ NULL ∧ example_memory.gpu_va_spaces 10 = some example_init ∧
    example_init.state = UVM_GPU_VA_SPACE_STATE_INIT ∧
    ((∃ r, uvm_gpu_va_space_state 10 example_memory = .ok r) ↔
      (example_init.va_space = NULL ∧ example_init.gpu ≠ NULL)) :=
  ⟨by decide, rfl, rfl,
    (state_accessor_init_requires_gpu_and_no_va_space example_memory 10 example_init
      (by decide) rfl rfl).1⟩

/-- Claim C9 on the ACTIVE object at address 8 of the example memory: the count
goes from 1 to 2. -/
theorem retain_only_increments_kref_witness :
    (8 : Ptr) ≠ NULL ∧ example_memory.gpu_va_spaces 8 = some (example_active 2) ∧
    ∃ mem' o', uvm_gpu_va_space_retain 8 example_memory = .ok ((), mem') ∧
      mem'.gpu_va_spaces 8 = some o' ∧ o'.kref = 2 ∧
      o'.state = UVM_GPU_VA_SPACE_STATE_ACTIVE :=
  match retain_only_increments_kref example_memory 8 (example_active 2) (by decide) rfl with
  | ⟨mem', o', h1, h2, h3, h4, _⟩ => ⟨by decide, rfl, mem', o', h1, h2, h3, h4⟩

/-- Claim C10 on the initialized VA space at address 2 of the example
memory. -/
theorem initialized_status_witness :
    (2 : Ptr) ≠ NULL ∧ example_memory.va_spaces 2 = some example_va_space_locked ∧
    ∃ status, uvm_va_space_initialized 2 example_memory = .ok (status, example_memory) ∧
      (status = .NV_OK ↔ example_va_space_locked.initialized ≠ 0) ∧
      (status = .NV_ERR_ILLEGAL_ACTION ↔ example_va_space_locked.initialized = 0) :=
  ⟨by decide, rfl, initialized_status example_memory 2 example_va_space_locked (by decide) rfl⟩

/-- Claim C17 for thread 7 on a VA space with free locks. -/
theorem matching_release_frees_all_locks_witness :
    holds_nothing 7 {} ∧ locks_free {} ∧
    (∃ v, run 7 (uvm_va_space_down_write ++ uvm_va_space_up_write) {} = some v ∧
      held 7 v = ⟨false, 0, false, false⟩) ∧
    (∃ v, run 7 ((uvm_va_space_down_write ++ uvm_va_space_downgrade_write_rm) ++
        uvm_va_space_up_read_rm) {} = some v ∧ held 7 v = ⟨false, 0, false, false⟩) :=
  have hn : holds_nothing 7 {} := by
    unfold holds_nothing
    decide
  have hfree : locks_free {} := ⟨rfl, rfl, rfl⟩
  have h := (matching_release_frees_all_locks 7 {} hn).2.2.2.2.2 hfree
  ⟨hn, hfree, h.1, h.2.2.2.2⟩

/-- Claim C19 for thread 7 starting from free locks: after the first statement
of `uvm_va_space_down_write` it does not hold the main lock. -/
theorem wrappers_respect_lock_order_witness :
    holds_nothing 7 {} ∧
    (∃ vs1, run 7 (uvm_va_space_down_write.take 1) {} = some vs1 ∧
      ¬ holds_lock 7 vs1 .lock) ∧
    uvm_va_space_up_write.filterMap Stmt.releases =
      [.lock, .read_acquire_write_release_lock, .serialize_writers_lock] :=
  have hn : holds_nothing 7 {} := by
    unfold holds_nothing
    decide
  have h := wrappers_respect_lock_order 7 {} hn
  ⟨hn, ⟨_, rfl, h.1 .down_write 1 (.uvm_mutex_lock .read_acquire_write_release_lock)
    .read_acquire_write_release_lock _ rfl rfl rfl .lock (by decide)⟩, h.2.2⟩

/-- Claim C18 in the state where thread 0 is about to release the main lock it
holds as the writer. -/
theorem down_read_serialized_with_up_write_witness :
    Reachable example_releasing ∧ (1 : Tid) ≠ 0 ∧
    example_releasing.at_stmt 0 .up_write .uvm_up_write ∧
    (∃ s', example_releasing.fire 0 .exec = some s') ∧
    example_releasing.va_space.read_acquire_write_release_lock.owner = some 0 ∧
    example_releasing.va_space.serialize_writers_lock.owner = some 0 ∧
    ¬ example_releasing.at_stmt 1 .down_read .uvm_down_read ∧
    ¬ example_releasing.at_stmt 1 .down_read_rm .uvm_down_read :=
  have hreach : Reachable example_releasing :=
    reachable_replay _ (reachable_replay _ reachable_example_initial _) _
  have hne : (1 : Tid) ≠ 0 := by decide
  have hat : example_releasing.at_stmt 0 .up_write .uvm_up_write := ⟨0, rfl, rfl⟩
  have hfire : ∃ s', example_releasing.fire 0 .exec = some s' := ⟨_, rfl⟩
  have h := down_read_serialized_with_up_write example_releasing hreach 1 0 hne
  have hown := h.1 _ hat hfire.choose_spec
  ⟨hreach, hne, hat, hfire, hown.1, hown.2.1, h.2.2.2 _ hat hfire.choose_spec⟩

/-- Claim C13 with capacity 8, the lowest-id selection and the mask of ids 1,
2 and 4: three iterations visit 1, 2, 4 and leave the empty mask. -/
theorem for_each_closest_id_consumes_mask_witness :
    uvm_processor_mask_t.valid 8 { bitmap := 22 } ∧
    uvm_processor_mask_get_count 8 { bitmap := 22 } ≤ 3 ∧
    for_each_closest_id 8 (fun m _ => uvm_processor_mask_find_first_id 8 m) 0 3
      { bitmap := 22 } = some ([1, 2, 4], uvm_processor_mask_zero) ∧
    ∃ visited final,
      for_each_closest_id 8 (fun m _ => uvm_processor_mask_find_first_id 8 m) 0 3
        { bitmap := 22 } = some (visited, final) ∧
      visited.length = uvm_processor_mask_get_count 8 { bitmap := 22 } ∧
      visited.Nodup ∧
      (∀ id : Nat, id ∈ visited ↔ uvm_processor_mask_test { bitmap := 22 } id = true) ∧
      final = uvm_processor_mask_zero :=
  have hv : uvm_processor_mask_t.valid 8 { bitmap := 22 } := by
    unfold uvm_processor_mask_t.valid
    decide
  have hc : uvm_processor_mask_get_count 8 { bitmap := 22 } ≤ 3 := by decide
  ⟨hv, hc, by decide,
    for_each_closest_id_consumes_mask 8 (fun m _ => uvm_processor_mask_find_first_id 8 m) 0
      { bitmap := 22 } hv (fun m hm => find_first_id_selects 8 m hm) 3 hc⟩

/-- Claim C16 in the example VA space with capacity 8: from the CPU, among
GPU 1 (NVLINK) and GPU 2 (PCIe), the NVLINK peer is selected; from GPU 2 the
candidate GPU 2 itself is. -/
theorem find_closest_id_selects_candidate_witness :
    uvm_processor_mask_t.valid 8 { bitmap := 6 } ∧
    uvm_processor_mask_find_closest_id 8 example_va_space_nvlink { bitmap := 6 } UVM_ID_CPU = 1 ∧
    uvm_processor_mask_find_closest_id 8 example_va_space_nvlink { bitmap := 6 } 2 = 2 ∧
    uvm_processor_mask_test { bitmap := 6 }
      (uvm_processor_mask_find_closest_id 8 example_va_space_nvlink { bitmap := 6 }
        UVM_ID_CPU) = true :=
  have hv : uvm_processor_mask_t.valid 8 { bitmap := 6 } := by
    unfold uvm_processor_mask_t.valid
    decide
  ⟨hv, by decide, by decide,
    (find_closest_id_selects_candidate 8 example_va_space_nvlink { bitmap := 6 } UVM_ID_CPU
      hv).2.1 ⟨1, by decide⟩⟩

/-- Claim C15 on the two-GPU example memory: CPU node 1 has GPU id 2
attached. -/
theorem get_gpus_attached_to_cpu_node_lowest_entry_witness :
    uvm_va_space_get_gpus_attached_to_cpu_node 3 7 2 1 example_memory_numa =
      .ok ({ bitmap := 4 }, example_memory_numa) :=
  (get_gpus_attached_to_cpu_node_lowest_entry 3 7 example_memory_numa 2 example_va_space_numa 1
    (by decide) rfl rfl).2.2.2.2 rfl rfl (by decide) example_numa_table_ok
    (example_numa_gpus 1 (by decide))

/-- Claim C14 on the two-GPU example memory with the mask that holds only GPU
id 2. -/
theorem find_first_va_space_gpu_lowest_witness :
    ∃ r, uvm_processor_mask_find_first_va_space_gpu 3 { bitmap := 4 } 2 example_memory_numa =
        .ok (r, example_memory_numa) ∧
      (r = NULL ↔ ∀ id : Nat, uvm_processor_mask_test { bitmap := 4 } id = false) ∧
      (r ≠ NULL → ∃ g, example_memory_numa.gpus r = some g ∧
        uvm_processor_mask_test { bitmap := 4 } g.id = true ∧
        (∀ id : Nat, uvm_processor_mask_test { bitmap := 4 } id = true → g.id ≤ id) ∧
        uvm_processor_mask_test example_va_space_numa.registered_gpus g.id = true ∧
        r = gpu_at example_va_space_numa g.id) :=
  find_first_va_space_gpu_lowest 3 example_memory_numa 2 example_va_space_numa { bitmap := 4 }
    (by decide) rfl (by decide) (by decide) example_numa_table_ok

/-- Claim C20 on the two-GPU example memory: the loop over both registered ids
visits the objects at addresses 4 and 5, in this order. -/
theorem for_each_va_space_gpu_in_mask_visits_increasing_witness :
    for_each_va_space_gpu_in_mask (β := Unit) 3 7 2 { bitmap := 6 } record_visit 2 []
        example_memory_numa = .ok (.finished [4, 5], example_memory_numa) :=
  (for_each_va_space_gpu_in_mask_visits_increasing 3 7 example_memory_numa 2
    example_va_space_numa { bitmap := 6 } (by decide) rfl (by decide) (by decide) (by decide)
    example_numa_table_ok).1 2 (by decide)

/-- Claim C11, amended, on the list at head 1 that holds object 10: object 11,
which is not on it, goes behind it. -/
theorem deferred_free_object_add_appends_witness :
    ∃ mem', uvm_deferred_free_object_add (.head 1) 11 .UVM_DEFERRED_FREE_OBJECT_TYPE_CHANNEL
        example_list_memory_queued = .ok mem' ∧
      is_list mem' (.head 1) [10, 11] ∧
      traverse example_list_memory_queued (.head 1) 2 = [10] ∧
      traverse mem' (.head 1) 3 = [10, 11] ∧
      (∀ x, x ≠ 11 → mem'.type_of x = example_list_memory_queued.type_of x) ∧
      mem'.type_of 11 = some .UVM_DEFERRED_FREE_OBJECT_TYPE_CHANNEL ∧
      [10, 11].map mem'.type_of = [10].map example_list_memory_queued.type_of ++
        [some .UVM_DEFERRED_FREE_OBJECT_TYPE_CHANNEL] :=
  deferred_free_object_add_appends example_list_memory_queued (.head 1) [10] 11
    .UVM_DEFERRED_FREE_OBJECT_TYPE_CHANNEL (by decide) (by decide) (by decide) (by decide)
    (by decide)

/-- Claim C12, amended, for two calls on the two empty lists of the example
memory. -/
theorem deferred_free_objects_appear_once_witness :
    ∃ mem', run_adds
        [{ list := .head 1, object := 10, type := .UVM_DEFERRED_FREE_OBJECT_GPU_VA_SPACE },
         { list := .head 2, object := 11, type := .UVM_DEFERRED_FREE_OBJECT_TYPE_CHANNEL }]
        example_list_memory = .ok mem' ∧
      Lists mem' [(.head 1, [10]), (.head 2, [11])] ∧
      traverse mem' (.head 1) 2 = [10] ∧ traverse mem' (.head 2) 2 = [11] :=
  have h := deferred_free_objects_appear_once example_list_memory
    [(.head 1, []), (.head 2, [])]
    [{ list := .head 1, object := 10, type := .UVM_DEFERRED_FREE_OBJECT_GPU_VA_SPACE },
     { list := .head 2, object := 11, type := .UVM_DEFERRED_FREE_OBJECT_TYPE_CHANNEL }]
    example_lists
    (by simp [fresh_adds, enqueue, cells])
    (by
      intro c hc
      simp only [List.mem_cons, List.mem_singleton, List.not_mem_nil, or_false] at hc
      rcases hc with rfl | rfl <;> exact ⟨by decide, by decide⟩)
  h.imp fun mem' hm =>
    ⟨hm.1, hm.2.1, (hm.2.2.1 (.head 1, [10]) (by simp [enqueue_all, enqueue])).2 2 (by decide),
      (hm.2.2.1 (.head 2, [11]) (by simp [enqueue_all, enqueue])).2 2 (by decide)⟩

/-- Claim C21 on a file opened for writing with 4096-byte pages: after a write
of two bytes and a write of one byte the last byte of the buffer is zero and
the offset is in the buffer. -/
theorem write_file_keeps_offset_in_buffer_witness :
    ∃ nvfp' pos' d',
      run_writes 4096
          [{ buffer := user_bytes [111, 110], count := 2 },
           { buffer := user_bytes [10], count := 1 }] example_opened 0 = .ok (nvfp', pos') ∧
        nvfp'.data = some d' ∧ d' ((NV_PROC_WRITE_BUFFER_SIZE 4096 : Int) - 1) = 0 ∧
        0 ≤ nvfp'.off ∧ nvfp'.off ≤ (NV_PROC_WRITE_BUFFER_SIZE 4096 : Int) - 1 :=
  (write_file_keeps_offset_in_buffer 4096 (by decide) example_opened (by decide)
    (by decide)).2.2 true true 0 (some fun _ => 255) example_opened _ 0 rfl rfl (by decide)

/-- Claim C22 on a file opened for writing with 4096-byte pages: a write of
the two bytes of a readable user buffer returns 2 and moves the offset to 2; a
write of as many bytes as the buffer has returns `-ENOSPC`. -/
theorem write_file_status_witness :
    (nv_procfs_write_file 4096 example_opened (user_bytes [111, 110]) 2 0 =
      .ok (2,
        { example_opened with
          data := some (copy_from_user (os_mem_set (fun _ => 255) 0
            (NV_PROC_WRITE_BUFFER_SIZE 4096)) 0 (user_bytes [111, 110]) 2).1
          off := 2 }, 2)) ∧
    nv_procfs_write_file 4096 example_opened (user_bytes [111, 110])
      (NV_PROC_WRITE_BUFFER_SIZE 4096) 0 = .ok (-ENOSPC, example_opened, 0) :=
  ⟨((write_file_status 4096 (by decide) example_opened _ rfl (by decide) (by decide)
      (by decide) (user_bytes [111, 110]) 2 0).2.2.2.1 (by decide) (by decide)
      (by decide)).1,
    (write_file_status 4096 (by decide) example_opened _ rfl (by decide) (by decide)
      (by decide) (user_bytes [111, 110]) (NV_PROC_WRITE_BUFFER_SIZE 4096) 0).2.1 (by decide)
      (by decide)⟩

/-- Claim C23 at the disabled state. -/
theorem offline_in_progress_allowed_unless_offline_witness :
    numa_is_change_allowed NV_NUMA_STATUS_DISABLED NV_NUMA_STATUS_OFFLINE_IN_PROGRESS = true :=
  (offline_in_progress_allowed_unless_offline.1 NV_NUMA_STATUS_DISABLED).mpr (by decide)

/-- Claim C24 on the offline and online cycle: the way from offline back to
online goes through online_in_progress. -/
theorem online_only_through_online_in_progress_witness :
    NV_NUMA_STATUS_ONLINE_IN_PROGRESS ∈
      [NV_NUMA_STATUS_OFFLINE, NV_NUMA_STATUS_ONLINE_IN_PROGRESS, NV_NUMA_STATUS_ONLINE,
        NV_NUMA_STATUS_OFFLINE_IN_PROGRESS, NV_NUMA_STATUS_OFFLINE,
        NV_NUMA_STATUS_ONLINE_IN_PROGRESS, NV_NUMA_STATUS_ONLINE] :=
  (online_only_through_online_in_progress.2.2.2.1
    [NV_NUMA_STATUS_OFFLINE, NV_NUMA_STATUS_ONLINE_IN_PROGRESS, NV_NUMA_STATUS_ONLINE,
      NV_NUMA_STATUS_OFFLINE_IN_PROGRESS, NV_NUMA_STATUS_OFFLINE,
      NV_NUMA_STATUS_ONLINE_IN_PROGRESS, NV_NUMA_STATUS_ONLINE] (by decide) rfl rfl).2

end Uvm
